import Mathlib

/-!
# wallet-app-service: the money-movement engine

A shallow embedding of `internal/domain`, `pkg/errors`, `internal/repository` and
`internal/usecase/wallet_usecase.go`.

Conventions of the embedding

* `float64` amounts are kept abstract: the definitions work over any type `M` with
  `+`, `-`, `0`, `<` and `≤` (decidable), and assume no arithmetic law.  Theorems say which
  laws they use.  `F64` below is IEEE-754 binary64 restricted to finite values, used where a
  statement depends on rounding.
* `int64` identifiers are `Int` (only compared and printed, never added).
* `time.Time` is `Nat`; `time.Now()` reads `World.now`.
* `encoding/json` is not part of the repository: `GetBalance` takes the pair
  `Marshal`/`Unmarshal` as a parameter (`JSONCodec`).
* A Go `(T, error)` result is `Except Err T`; a pointer that a callee mutates is returned by
  the callee.
* PostgreSQL and Redis are an explicit `World`: the rows, the Redis keyspace, the `trace` of
  the calls issued so far, and `fault`, which tells for the n-th call whether the driver
  fails it (and with what error).  A failed call changes nothing in the store.
-/

namespace WalletApp

/-! ## pkg/errors/errors.go -/

/-- The package-level error values created by `errors.New`. -/
inductive Sentinel
  | InvalidInput
  | InsufficientFunds
  | ResourceNotFound
  | UserNotFound
  | WalletNotFound
  | DatabaseError
  | InvalidAmount
  | SenderReceiverSame
  | TransactionFailed
  | InvalidRequestID
  | CachingFailed
  | LockAcquisitionFailed
  | Unauthorized
  | Forbidden
  deriving DecidableEq, Repr

/-- A Go `error` value: one of the sentinels, an error produced by a driver (pgx, go-redis),
or an error wrapped with `%w`. -/
inductive Err
  | sentinel (s : Sentinel)
  | driver (message : String)
  | wrapped (message : String) (inner : Err)
  deriving DecidableEq, Repr

deriving instance DecidableEq for Except

def ErrInvalidInput : Err := .sentinel .InvalidInput
def ErrInsufficientFunds : Err := .sentinel .InsufficientFunds
def ErrResourceNotFound : Err := .sentinel .ResourceNotFound
def ErrUserNotFound : Err := .sentinel .UserNotFound
def ErrWalletNotFound : Err := .sentinel .WalletNotFound
def ErrInvalidAmount : Err := .sentinel .InvalidAmount
def ErrSenderReceiverSame : Err := .sentinel .SenderReceiverSame
def ErrLockAcquisitionFailed : Err := .sentinel .LockAcquisitionFailed

/-- `WrapError(err, message)`: `fmt.Errorf("%s: %w", message, err)`. -/
def WrapError (err : Err) (message : String) : Err := .wrapped message err

/-- `errors.Is(err, target)` for a sentinel target: walks the `%w` chain. -/
def Err.Is : Err → Sentinel → Bool
  | .sentinel s, t => s == t
  | .driver _, _ => false
  | .wrapped _ inner, t => inner.Is t

def ErrUnauthorized : Err := .sentinel .Unauthorized
def ErrForbidden : Err := .sentinel .Forbidden

/-- The text given to `errors.New` for each sentinel. -/
def Sentinel.text : Sentinel → String
  | .InvalidInput => "invalid input"
  | .InsufficientFunds => "insufficient funds"
  | .ResourceNotFound => "resource not found"
  | .UserNotFound => "user not found"
  | .WalletNotFound => "wallet not found"
  | .DatabaseError => "database error"
  | .InvalidAmount => "amount must be positive"
  | .SenderReceiverSame => "sender and receiver cannot be the same"
  | .TransactionFailed => "transaction failed"
  | .InvalidRequestID => "invalid request ID"
  | .CachingFailed => "caching operation failed"
  | .LockAcquisitionFailed => "could not acquire lock for operation"
  | .Unauthorized => "unauthorized access"
  | .Forbidden => "forbidden action"

/-- `err.Error()`: the text of a sentinel or of a driver error; for an error made by
`fmt.Errorf("...: %w", ...)` the message, ": ", and the text of the wrapped error. -/
def Err.Error : Err → String
  | .sentinel s => s.text
  | .driver message => message
  | .wrapped message inner => message ++ ": " ++ inner.Error

/-- `ErrorResponse`; `Code` is the HTTP status. -/
structure ErrorResponse where
  RequestID : String
  Error : String
  Code : Nat
  deriving DecidableEq, Repr

def NewErrorResponse (requestID message : String) (code : Nat) : ErrorResponse :=
  { RequestID := requestID, Error := message, Code := code }

/-- `http.StatusBadRequest`. -/
def BadRequestError (requestID message : String) : ErrorResponse :=
  NewErrorResponse requestID message 400

/-- `http.StatusPaymentRequired`. -/
def PaymentRequiredError (requestID message : String) : ErrorResponse :=
  NewErrorResponse requestID message 402

/-- `http.StatusNotFound`. -/
def NotFoundError (requestID message : String) : ErrorResponse :=
  NewErrorResponse requestID message 404

/-- `http.StatusInternalServerError`. -/
def InternalServerError (requestID message : String) : ErrorResponse :=
  NewErrorResponse requestID message 500

/-- `http.StatusUnauthorized`. -/
def UnauthorizedError (requestID message : String) : ErrorResponse :=
  NewErrorResponse requestID message 401

/-- `http.StatusForbidden`. -/
def ForbiddenError (requestID message : String) : ErrorResponse :=
  NewErrorResponse requestID message 403

/-- `http.StatusTooManyRequests`. -/
def TooManyRequestsError (requestID message : String) : ErrorResponse :=
  NewErrorResponse requestID message 429

/-- `MapErrorToResponse`: the cases of the `switch`, tried in order. -/
def MapErrorToResponse (requestID : String) (err : Err) : ErrorResponse :=
  if err.Is .InvalidInput || err.Is .InvalidAmount || err.Is .SenderReceiverSame then
    BadRequestError requestID err.Error
  else if err.Is .InsufficientFunds then
    PaymentRequiredError requestID "Insufficient funds for this operation"
  else if err.Is .ResourceNotFound || err.Is .UserNotFound || err.Is .WalletNotFound then
    NotFoundError requestID err.Error
  else if err.Is .Unauthorized then UnauthorizedError requestID err.Error
  else if err.Is .Forbidden then ForbiddenError requestID err.Error
  else if err.Is .LockAcquisitionFailed then
    TooManyRequestsError requestID "Service is busy, please try again in a moment"
  else InternalServerError requestID "An unexpected error occurred"

/-! ## internal/domain -/

structure User where
  ID : Int
  Username : String
  Email : String
  CreatedAt : Nat
  UpdatedAt : Nat
  deriving DecidableEq, Repr

structure Wallet (M : Type) where
  ID : Int
  UserID : Int
  Balance : M
  Currency : String
  CreatedAt : Nat
  UpdatedAt : Nat
  deriving DecidableEq, Repr

inductive TransactionType
  | Deposit
  | Withdrawal
  | Transfer
  deriving DecidableEq, Repr

structure Transaction (M : Type) where
  ID : Int
  WalletID : Int
  DestWalletID : Option Int
  Type_ : TransactionType
  Amount : M
  BalanceBefore : M
  BalanceAfter : M
  Description : String
  TransactionTime : Nat
  CreatedAt : Nat
  deriving DecidableEq, Repr

structure DepositRequest (M : Type) where
  UserID : Int
  Amount : M
  Comment : String

structure WithdrawRequest (M : Type) where
  UserID : Int
  Amount : M
  Comment : String

structure TransferRequest (M : Type) where
  SenderID : Int
  ReceiverID : Int
  Amount : M
  Comment : String

structure PaginationRequest where
  Limit : Int
  Offset : Int
  deriving DecidableEq, Repr

structure TransactionHistoryResponse (M : Type) where
  Transactions : List (Transaction M)
  Total : Int
  Limit : Int
  Offset : Int
  deriving DecidableEq, Repr

/-- The order of `ORDER BY transaction_time DESC`: `a` may precede `b`. -/
def Transaction.newerFirst {M : Type} (a b : Transaction M) : Prop :=
  b.TransactionTime ≤ a.TransactionTime

instance {M : Type} (a b : Transaction M) : Decidable (Transaction.newerFirst a b) :=
  inferInstanceAs (Decidable (b.TransactionTime ≤ a.TransactionTime))

/-- The part of `encoding/json` the engine uses: `json.Marshal(wallet)` and
`json.Unmarshal(data, &wallet)` for a `domain.Wallet`.  The library is not part of the
repository and is a parameter of the operations that use it. -/
structure JSONCodec (M : Type) where
  Marshal : Wallet M → Except Err String
  Unmarshal : String → Except Err (Wallet M)

section Engine

variable {M : Type} [Add M] [Sub M] [Zero M] [LE M] [LT M]
  [∀ a b : M, Decidable (a ≤ b)] [∀ a b : M, Decidable (a < b)]

/-- `(*Wallet).Deposit`; `now` is the value `time.Now()` returns. -/
def Wallet.Deposit (w : Wallet M) (amount : M) (now : Nat) : Except Err (Wallet M) :=
  if amount ≤ 0 then .error ErrInvalidAmount
  else .ok { w with Balance := w.Balance + amount, UpdatedAt := now }

/-- `(*Wallet).Withdraw`; `now` is the value `time.Now()` returns. -/
def Wallet.Withdraw (w : Wallet M) (amount : M) (now : Nat) : Except Err (Wallet M) :=
  if amount ≤ 0 then .error ErrInvalidAmount
  else if w.Balance < amount then .error ErrInsufficientFunds
  else .ok { w with Balance := w.Balance - amount, UpdatedAt := now }

/-- `(*Wallet).Deposit` as it acts on its receiver: the error it returns (`none` for `nil`)
and the wallet the receiver points to after the call.  `Wallet.Deposit` above is the same
method in the form the engine uses. -/
def Wallet.DepositReceiver (w : Wallet M) (amount : M) (now : Nat) : Option Err × Wallet M :=
  if amount ≤ 0 then (some ErrInvalidAmount, w)
  else (none, { w with Balance := w.Balance + amount, UpdatedAt := now })

/-- `(*Wallet).Withdraw` as it acts on its receiver. -/
def Wallet.WithdrawReceiver (w : Wallet M) (amount : M) (now : Nat) : Option Err × Wallet M :=
  if amount ≤ 0 then (some ErrInvalidAmount, w)
  else if w.Balance < amount then (some ErrInsufficientFunds, w)
  else (none, { w with Balance := w.Balance - amount, UpdatedAt := now })

/-! ## The stores and Redis -/

/-- A call on one of the collaborators, with its arguments. -/
inductive Call (M : Type)
  | userGetByID (id : Int)
  | walletGetByUserID (userID : Int)
  | walletUpdate (wallet : Wallet M)
  | transactionCreate (transaction : Transaction M)
  | transactionGetByWalletID (walletID : Int) (limit offset : Int)
  | transactionCountByWalletID (walletID : Int)
  | redisSetNX (key value : String) (seconds : Nat)
  | redisDel (keys : List String)
  | redisGet (key : String)
  | redisSet (key value : String) (seconds : Nat)

/-- How a call ended: `ok`, `declined` (a `SetNX` that found the key present or a `Get` that
found no key: no driver failure, but nothing granted or read), or `error`. -/
inductive Outcome
  | ok
  | declined
  | error
  deriving DecidableEq, Repr

structure Event (M : Type) where
  call : Call M
  outcome : Outcome

/-- The state outside the engine. -/
structure World (M : Type) where
  users : List User
  wallets : List (Wallet M)
  transactions : List (Transaction M)
  nextTransactionID : Int
  redis : List (String × String)
  now : Nat
  fault : Nat → Option Err
  trace : List (Event M)

/-- Appends one call to the trace. -/
def World.emit (w : World M) (c : Call M) (o : Outcome) : World M :=
  { w with trace := w.trace ++ [⟨c, o⟩] }

/-- The driver error injected into the next call, if any. -/
def World.nextFault (w : World M) : Option Err := w.fault w.trace.length

/-- The effect of `UPDATE wallets SET balance = $1, updated_at = $2 WHERE id = $3`. -/
def World.updateWalletRow (w : World M) (balance : M) (updatedAt : Nat) (id : Int) : World M :=
  { w with
    wallets := w.wallets.map (fun (x : Wallet M) =>
      if x.ID == id then { x with Balance := balance, UpdatedAt := updatedAt } else x) }

/-- The effect of `INSERT INTO transactions ...`: the row is appended, the serial advances. -/
def World.insertTransactionRow (w : World M) (t : Transaction M) : World M :=
  { w with transactions := w.transactions ++ [t], nextTransactionID := w.nextTransactionID + 1 }

/-- `userRepository.GetByID`: `SELECT ... FROM users WHERE id = $1`; a missing row is the
driver's `pgx.ErrNoRows`; every error is wrapped with `%w`. -/
def userRepository.GetByID (id : Int) (w : World M) : Except Err User × World M :=
  match w.nextFault with
  | some err => (.error (.wrapped "failed to get user by ID" err), w.emit (.userGetByID id) .error)
  | none =>
    match w.users.find? (fun u => u.ID == id) with
    | none => (.error (.wrapped "failed to get user by ID" (.driver "no rows in result set")),
        w.emit (.userGetByID id) .error)
    | some user => (.ok user, w.emit (.userGetByID id) .ok)

/-- `walletRepository.GetByUserID`: `SELECT ... FROM wallets WHERE user_id = $1`. -/
def walletRepository.GetByUserID (userID : Int) (w : World M) : Except Err (Wallet M) × World M :=
  match w.nextFault with
  | some err => (.error (.wrapped "failed to get wallet by user ID" err),
      w.emit (.walletGetByUserID userID) .error)
  | none =>
    match w.wallets.find? (fun x => x.UserID == userID) with
    | none => (.error (.wrapped "failed to get wallet by user ID" (.driver "no rows in result set")),
        w.emit (.walletGetByUserID userID) .error)
    | some wallet => (.ok wallet, w.emit (.walletGetByUserID userID) .ok)

/-- `walletRepository.Update`: sets `wallet.UpdatedAt`, then
`UPDATE wallets SET balance = $1, updated_at = $2 WHERE id = $3`.  Returns the wallet as the
caller sees it afterwards. -/
def walletRepository.Update (wallet : Wallet M) (w : World M) : Except Err (Wallet M) × World M :=
  let wallet1 := { wallet with UpdatedAt := w.now }
  match w.nextFault with
  | some err => (.error (.wrapped "failed to update wallet" err), w.emit (.walletUpdate wallet1) .error)
  | none =>
    (.ok wallet1,
      (w.updateWalletRow wallet1.Balance wallet1.UpdatedAt wallet1.ID).emit (.walletUpdate wallet1) .ok)

/-- `transactionRepository.Create`: stamps the times, `INSERT INTO transactions ... RETURNING id`.
Returns the transaction as the caller sees it afterwards. -/
def transactionRepository.Create (transaction : Transaction M) (w : World M) :
    Except Err (Transaction M) × World M :=
  let t1 := { transaction with CreatedAt := w.now, TransactionTime := w.now }
  match w.nextFault with
  | some err => (.error (.wrapped "failed to create transaction" err), w.emit (.transactionCreate t1) .error)
  | none =>
    let t2 := { t1 with ID := w.nextTransactionID }
    (.ok t2, (w.insertTransactionRow t2).emit (.transactionCreate t1) .ok)

/-- The rows `SELECT ... FROM transactions WHERE wallet_id = $1 ORDER BY transaction_time DESC`
yields; rows with equal times keep their table order. -/
def World.transactionsOf (w : World M) (walletID : Int) : List (Transaction M) :=
  (w.transactions.filter (fun t => t.WalletID == walletID)).insertionSort Transaction.newerFirst

/-- `transactionRepository.GetByWalletID`: the query above with `LIMIT $2 OFFSET $3`, which
PostgreSQL rejects when either is negative.  Every error is wrapped with `%w`. -/
def transactionRepository.GetByWalletID (walletID : Int) (limit offset : Int) (w : World M) :
    Except Err (List (Transaction M)) × World M :=
  match w.nextFault with
  | some err => (.error (.wrapped "failed to get transactions" err),
      w.emit (.transactionGetByWalletID walletID limit offset) .error)
  | none =>
    if limit < 0 ∨ offset < 0 then
      (.error (.wrapped "failed to get transactions"
          (.driver "LIMIT and OFFSET must not be negative")),
        w.emit (.transactionGetByWalletID walletID limit offset) .error)
    else
      (.ok (((w.transactionsOf walletID).drop offset.toNat).take limit.toNat),
        w.emit (.transactionGetByWalletID walletID limit offset) .ok)

/-- `transactionRepository.CountByWalletID`:
`SELECT COUNT(*) FROM transactions WHERE wallet_id = $1`. -/
def transactionRepository.CountByWalletID (walletID : Int) (w : World M) :
    Except Err Int × World M :=
  match w.nextFault with
  | some err => (.error (.wrapped "failed to count transactions" err),
      w.emit (.transactionCountByWalletID walletID) .error)
  | none =>
    (.ok ((w.transactions.filter (fun t => t.WalletID == walletID)).length : Int),
      w.emit (.transactionCountByWalletID walletID) .ok)

/-- `redisClient.SetNX(ctx, key, value, ttl).Result()`: sets the key when it is absent. -/
def redisClient.SetNX (key value : String) (seconds : Nat) (w : World M) : Except Err Bool × World M :=
  match w.nextFault with
  | some err => (.error err, w.emit (.redisSetNX key value seconds) .error)
  | none =>
    match w.redis.lookup key with
    | some _ => (.ok false, w.emit (.redisSetNX key value seconds) .declined)
    | none =>
      (.ok true,
        World.emit { w with redis := (key, value) :: w.redis } (.redisSetNX key value seconds) .ok)

/-- `redisClient.Del(ctx, keys...)`; the engine never looks at its result. -/
def redisClient.Del (keys : List String) (w : World M) : World M :=
  match w.nextFault with
  | some _ => w.emit (.redisDel keys) .error
  | none =>
    World.emit { w with redis := w.redis.filter (fun kv => !keys.contains kv.1) }
      (.redisDel keys) .ok

/-- `redisClient.Get(ctx, key).Bytes()`: a missing key is the driver's `redis.Nil` error. -/
def redisClient.Get (key : String) (w : World M) : Except Err String × World M :=
  match w.nextFault with
  | some err => (.error err, w.emit (.redisGet key) .error)
  | none =>
    match w.redis.lookup key with
    | none => (.error (.driver "redis: nil"), w.emit (.redisGet key) .declined)
    | some data => (.ok data, w.emit (.redisGet key) .ok)

/-- `redisClient.Set(ctx, key, value, ttl)`; the engine never looks at its result. -/
def redisClient.Set (key value : String) (seconds : Nat) (w : World M) : World M :=
  match w.nextFault with
  | some _ => w.emit (.redisSet key value seconds) .error
  | none =>
    World.emit { w with redis := (key, value) :: w.redis.filter (fun kv => !(kv.1 == key)) }
      (.redisSet key value seconds) .ok

/-! ## internal/usecase/wallet_usecase.go -/

/-- `balanceCacheTTL = 5 * time.Second`, in seconds. -/
def balanceCacheTTL : Nat := 5

/-- The engine; `redisClient` is `true` when the client pointer is not nil. -/
structure walletUsecase where
  redisClient : Bool

/-- `fmt.Sprintf("wallet:balance:%d", userID)`. -/
def balanceCacheKey (userID : Int) : String := "wallet:balance:" ++ toString userID

/-- `fmt.Sprintf("lock:wallet:%d", id)`. -/
def walletLockKey (id : Int) : String := "lock:wallet:" ++ toString id

/-- `walletUsecase.Deposit`. -/
def walletUsecase.Deposit (u : walletUsecase) (req : DepositRequest M) (w : World M) :
    Except Err (Transaction M) × World M :=
  if req.Amount ≤ 0 then (.error ErrInvalidAmount, w)
  else
    match userRepository.GetByID req.UserID w with
    | (.error err, w1) =>
      (.error (if err.Is .ResourceNotFound then ErrUserNotFound else WrapError err "failed to get user"),
        w1)
    | (.ok user, w1) =>
      match walletRepository.GetByUserID user.ID w1 with
      | (.error err, w2) =>
        (.error (if err.Is .ResourceNotFound then ErrWalletNotFound else WrapError err "failed to get wallet"),
          w2)
      | (.ok wallet, w2) =>
        let balanceBefore := wallet.Balance
        match wallet.Deposit req.Amount w2.now with
        | .error err => (.error err, w2)
        | .ok wallet1 =>
          match walletRepository.Update wallet1 w2 with
          | (.error err, w3) => (.error (WrapError err "failed to update wallet"), w3)
          | (.ok wallet2, w3) =>
            let w4 := if u.redisClient then redisClient.Del [balanceCacheKey req.UserID] w3 else w3
            let transaction : Transaction M :=
              { ID := 0, WalletID := wallet2.ID, DestWalletID := none, Type_ := .Deposit,
                Amount := req.Amount, BalanceBefore := balanceBefore,
                BalanceAfter := wallet2.Balance, Description := req.Comment,
                TransactionTime := 0, CreatedAt := 0 }
            match transactionRepository.Create transaction w4 with
            | (.error err, w5) => (.error (WrapError err "failed to create transaction record"), w5)
            | (.ok transaction1, w5) => (.ok transaction1, w5)

/-- `walletUsecase.Withdraw`. -/
def walletUsecase.Withdraw (u : walletUsecase) (req : WithdrawRequest M) (w : World M) :
    Except Err (Transaction M) × World M :=
  if req.Amount ≤ 0 then (.error ErrInvalidAmount, w)
  else
    match userRepository.GetByID req.UserID w with
    | (.error err, w1) =>
      (.error (if err.Is .ResourceNotFound then ErrUserNotFound else WrapError err "failed to get user"),
        w1)
    | (.ok user, w1) =>
      match walletRepository.GetByUserID user.ID w1 with
      | (.error err, w2) =>
        (.error (if err.Is .ResourceNotFound then ErrWalletNotFound else WrapError err "failed to get wallet"),
          w2)
      | (.ok wallet, w2) =>
        let balanceBefore := wallet.Balance
        match wallet.Withdraw req.Amount w2.now with
        | .error err =>
          (.error (if err.Is .InsufficientFunds then ErrInsufficientFunds else err), w2)
        | .ok wallet1 =>
          match walletRepository.Update wallet1 w2 with
          | (.error err, w3) => (.error (WrapError err "failed to update wallet"), w3)
          | (.ok wallet2, w3) =>
            let w4 := if u.redisClient then redisClient.Del [balanceCacheKey req.UserID] w3 else w3
            let transaction : Transaction M :=
              { ID := 0, WalletID := wallet2.ID, DestWalletID := none, Type_ := .Withdrawal,
                Amount := req.Amount, BalanceBefore := balanceBefore,
                BalanceAfter := wallet2.Balance, Description := req.Comment,
                TransactionTime := 0, CreatedAt := 0 }
            match transactionRepository.Create transaction w4 with
            | (.error err, w5) => (.error (WrapError err "failed to create transaction record"), w5)
            | (.ok transaction1, w5) => (.ok transaction1, w5)

/-- The part of `walletUsecase.Transfer` that follows the lock section (from "Get sender" to
the final return). -/
def walletUsecase.transferLocked (u : walletUsecase) (req : TransferRequest M) (w : World M) :
    Except Err (Transaction M) × World M :=
  match userRepository.GetByID req.SenderID w with
  | (.error err, w1) =>
    (.error (if err.Is .ResourceNotFound then ErrUserNotFound else WrapError err "failed to get sender"),
      w1)
  | (.ok sender, w1) =>
    match userRepository.GetByID req.ReceiverID w1 with
    | (.error err, w2) =>
      (.error (if err.Is .ResourceNotFound then ErrUserNotFound else WrapError err "failed to get receiver"),
        w2)
    | (.ok receiver, w2) =>
      match walletRepository.GetByUserID sender.ID w2 with
      | (.error err, w3) =>
        (.error (if err.Is .ResourceNotFound then ErrWalletNotFound else WrapError err "failed to get sender wallet"),
          w3)
      | (.ok senderWallet, w3) =>
        match walletRepository.GetByUserID receiver.ID w3 with
        | (.error err, w4) =>
          (.error (if err.Is .ResourceNotFound then ErrWalletNotFound else WrapError err "failed to get receiver wallet"),
            w4)
        | (.ok receiverWallet, w4) =>
          let senderBalanceBefore := senderWallet.Balance
          match senderWallet.Withdraw req.Amount w4.now with
          | .error err =>
            (.error (if err.Is .InsufficientFunds then ErrInsufficientFunds else err), w4)
          | .ok senderWallet1 =>
            match receiverWallet.Deposit req.Amount w4.now with
            | .error err => (.error err, w4)
            | .ok receiverWallet1 =>
              match walletRepository.Update senderWallet1 w4 with
              | (.error err, w5) => (.error (WrapError err "failed to update sender wallet"), w5)
              | (.ok senderWallet2, w5) =>
                match walletRepository.Update receiverWallet1 w5 with
                | (.error err, w6) =>
                  (.error (WrapError err "failed to update receiver wallet"), w6)
                | (.ok receiverWallet2, w6) =>
                  let w7 :=
                    if u.redisClient then
                      redisClient.Del [balanceCacheKey req.SenderID, balanceCacheKey req.ReceiverID] w6
                    else w6
                  let transaction : Transaction M :=
                    { ID := 0, WalletID := senderWallet2.ID,
                      DestWalletID := some receiverWallet2.ID, Type_ := .Transfer,
                      Amount := req.Amount, BalanceBefore := senderBalanceBefore,
                      BalanceAfter := senderWallet2.Balance, Description := req.Comment,
                      TransactionTime := 0, CreatedAt := 0 }
                  match transactionRepository.Create transaction w7 with
                  | (.error err, w8) =>
                    (.error (WrapError err "failed to create transaction record"), w8)
                  | (.ok transaction1, w8) => (.ok transaction1, w8)

/-- `walletUsecase.Transfer`: validation, the lock section, the body, and the deferred
`Del` of each lock taken (deferred calls run last-in first-out). -/
def walletUsecase.Transfer (u : walletUsecase) (req : TransferRequest M) (w : World M) :
    Except Err (Transaction M) × World M :=
  if req.Amount ≤ 0 then (.error ErrInvalidAmount, w)
  else if req.SenderID = req.ReceiverID then (.error ErrSenderReceiverSame, w)
  else if u.redisClient then
    let firstID := if req.SenderID < req.ReceiverID then req.SenderID else req.ReceiverID
    let secondID := if req.SenderID < req.ReceiverID then req.ReceiverID else req.SenderID
    let firstLockKey := walletLockKey firstID
    let secondLockKey := walletLockKey secondID
    match redisClient.SetNX firstLockKey "1" 10 w with
    | (.ok true, w1) =>
      match redisClient.SetNX secondLockKey "1" 10 w1 with
      | (.ok true, w2) =>
        match u.transferLocked req w2 with
        | (result, w3) =>
          (result, redisClient.Del [firstLockKey] (redisClient.Del [secondLockKey] w3))
      | (_, w2) => (.error ErrLockAcquisitionFailed, redisClient.Del [firstLockKey] w2)
    | (_, w1) => (.error ErrLockAcquisitionFailed, w1)
  else u.transferLocked req w

/-- The part of `walletUsecase.GetBalance` from "Get from database" to the final return. -/
def walletUsecase.getBalanceFromStore (codec : JSONCodec M) (u : walletUsecase) (userID : Int)
    (w : World M) : Except Err (Wallet M) × World M :=
  match userRepository.GetByID userID w with
  | (.error err, w1) =>
    (.error (if err.Is .ResourceNotFound then ErrUserNotFound else WrapError err "failed to get user"),
      w1)
  | (.ok user, w1) =>
    match walletRepository.GetByUserID user.ID w1 with
    | (.error err, w2) =>
      (.error (if err.Is .ResourceNotFound then ErrWalletNotFound else WrapError err "failed to get wallet"),
        w2)
    | (.ok wallet, w2) =>
      let w3 :=
        if u.redisClient then
          match codec.Marshal wallet with
          | .ok walletData => redisClient.Set (balanceCacheKey userID) walletData balanceCacheTTL w2
          | .error _ => w2
        else w2
      (.ok wallet, w3)

/-- `walletUsecase.GetBalance`: the cache is tried first; a hit whose bytes deserialize is
returned, anything else continues with the store. -/
def walletUsecase.GetBalance (codec : JSONCodec M) (u : walletUsecase) (userID : Int)
    (w : World M) : Except Err (Wallet M) × World M :=
  if u.redisClient then
    match redisClient.Get (balanceCacheKey userID) w with
    | (.ok cachedData, w1) =>
      match codec.Unmarshal cachedData with
      | .ok wallet => (.ok wallet, w1)
      | .error _ => u.getBalanceFromStore codec userID w1
    | (.error _, w1) => u.getBalanceFromStore codec userID w1
  else u.getBalanceFromStore codec userID w

/-- `walletUsecase.GetTransactionHistory`. -/
def walletUsecase.GetTransactionHistory (_u : walletUsecase) (userID : Int)
    (pagination : PaginationRequest) (w : World M) :
    Except Err (TransactionHistoryResponse M) × World M :=
  let pagination1 : PaginationRequest :=
    if pagination.Limit ≤ 0 then { pagination with Limit := 10 } else pagination
  let pagination2 : PaginationRequest :=
    if pagination1.Offset < 0 then { pagination1 with Offset := 0 } else pagination1
  match userRepository.GetByID userID w with
  | (.error err, w1) =>
    (.error (if err.Is .ResourceNotFound then ErrUserNotFound else WrapError err "failed to get user"),
      w1)
  | (.ok user, w1) =>
    match walletRepository.GetByUserID user.ID w1 with
    | (.error err, w2) =>
      (.error (if err.Is .ResourceNotFound then ErrWalletNotFound else WrapError err "failed to get wallet"),
        w2)
    | (.ok wallet, w2) =>
      match transactionRepository.GetByWalletID wallet.ID pagination2.Limit pagination2.Offset w2 with
      | (.error err, w3) => (.error (WrapError err "failed to get transactions"), w3)
      | (.ok transactions, w3) =>
        match transactionRepository.CountByWalletID wallet.ID w3 with
        | (.error err, w4) => (.error (WrapError err "failed to count transactions"), w4)
        | (.ok total, w4) =>
          (.ok { Transactions := transactions, Total := total,
                 Limit := pagination2.Limit, Offset := pagination2.Offset }, w4)

/-! ### Concurrent calls of `Withdraw`

The store and Redis calls of one call of `Withdraw` are separate round trips; calls of
`Withdraw` that run in different goroutines interleave at these calls.  A call in progress is
its position between two round trips together with its live local variables. -/

/-- A call of `walletUsecase.Withdraw` in progress: before `GetByID`; before `GetByUserID`;
before `wallet.Withdraw` and `Update`; before `Del`; before `Create`; or returned. -/
inductive WithdrawCall (M : Type)
  | start (req : WithdrawRequest M)
  | haveUser (req : WithdrawRequest M) (user : User)
  | haveWallet (req : WithdrawRequest M) (wallet : Wallet M)
  | updated (req : WithdrawRequest M) (balanceBefore : M) (wallet : Wallet M)
  | invalidated (req : WithdrawRequest M) (balanceBefore : M) (wallet : Wallet M)
  | returned (result : Except Err (Transaction M))

/-- The last part of `walletUsecase.Withdraw`: the ledger entry is built and `Create` is
called. -/
def walletUsecase.withdrawRecord (req : WithdrawRequest M) (balanceBefore : M)
    (wallet : Wallet M) (w : World M) : WithdrawCall M × World M :=
  let transaction : Transaction M :=
    { ID := 0, WalletID := wallet.ID, DestWalletID := none, Type_ := .Withdrawal,
      Amount := req.Amount, BalanceBefore := balanceBefore,
      BalanceAfter := wallet.Balance, Description := req.Comment,
      TransactionTime := 0, CreatedAt := 0 }
  match transactionRepository.Create transaction w with
  | (.error err, w1) =>
    (.returned (.error (WrapError err "failed to create transaction record")), w1)
  | (.ok transaction1, w1) => (.returned (.ok transaction1), w1)

/-- One step of a call of `walletUsecase.Withdraw`: the code from its position up to and
including the next round trip. -/
def walletUsecase.WithdrawStep (u : walletUsecase) (c : WithdrawCall M) (w : World M) :
    WithdrawCall M × World M :=
  match c with
  | .start req =>
    if req.Amount ≤ 0 then (.returned (.error ErrInvalidAmount), w)
    else
      match userRepository.GetByID req.UserID w with
      | (.error err, w1) =>
        (.returned (.error (if err.Is .ResourceNotFound then ErrUserNotFound
          else WrapError err "failed to get user")), w1)
      | (.ok user, w1) => (.haveUser req user, w1)
  | .haveUser req user =>
    match walletRepository.GetByUserID user.ID w with
    | (.error err, w1) =>
      (.returned (.error (if err.Is .ResourceNotFound then ErrWalletNotFound
        else WrapError err "failed to get wallet")), w1)
    | (.ok wallet, w1) => (.haveWallet req wallet, w1)
  | .haveWallet req wallet =>
    match wallet.Withdraw req.Amount w.now with
    | .error err =>
      (.returned (.error (if err.Is .InsufficientFunds then ErrInsufficientFunds else err)), w)
    | .ok wallet1 =>
      match walletRepository.Update wallet1 w with
      | (.error err, w1) => (.returned (.error (WrapError err "failed to update wallet")), w1)
      | (.ok wallet2, w1) => (.updated req wallet.Balance wallet2, w1)
  | .updated req balanceBefore wallet =>
    if u.redisClient then
      (.invalidated req balanceBefore wallet, redisClient.Del [balanceCacheKey req.UserID] w)
    else walletUsecase.withdrawRecord req balanceBefore wallet w
  | .invalidated req balanceBefore wallet =>
    walletUsecase.withdrawRecord req balanceBefore wallet w
  | .returned result => (.returned result, w)

/-- Runs the calls in the order of the schedule: each entry names the call that takes its
next step. -/
def walletUsecase.WithdrawRun (u : walletUsecase) :
    List Nat → List (WithdrawCall M) → World M → List (WithdrawCall M) × World M
  | [], calls, w => (calls, w)
  | i :: schedule, calls, w =>
    match calls.get? i with
    | none => u.WithdrawRun schedule calls w
    | some c =>
      u.WithdrawRun schedule (calls.set i (u.WithdrawStep c w).1) (u.WithdrawStep c w).2

/-- The result of a call that has returned. -/
def WithdrawCall.result? : WithdrawCall M → Option (Except Err (Transaction M))
  | .returned result => some result
  | _ => none

/-! ### internal/handler/wallet_handler.go and pkg/response -/

/-- What `response.JSON` and `response.Error` write: the status and the fields of
`response.Response`. -/
structure HTTPReply (M : Type) where
  StatusCode : Nat
  RequestID : String
  Data : Option (TransactionHistoryResponse M)
  Error : String

/-- `response.JSON(w, requestID, data, statusCode)`. -/
def response.JSON (requestID : String) (data : TransactionHistoryResponse M)
    (statusCode : Nat) : HTTPReply M :=
  { StatusCode := statusCode, RequestID := requestID, Data := some data, Error := "" }

/-- `response.Error(w, errResponse)`. -/
def response.Error (errResponse : ErrorResponse) : HTTPReply M :=
  { StatusCode := errResponse.Code, RequestID := errResponse.RequestID, Data := none,
    Error := errResponse.Error }

/-- The part of `strconv` the handler uses: `strconv.ParseInt(s, 10, 64)` and
`strconv.Atoi(s)`, with `none` for a returned error.  The package is not part of the
repository and is a parameter of the handler. -/
structure Strconv where
  ParseInt : String → Option Int
  Atoi : String → Option Int

structure WalletHandler where
  walletUsecase : walletUsecase

/-- The part of `GetTransactionHistoryHandler` before the call of the engine: the error reply
with which it returns early, or the user id and the `pagination` it goes on with.
`limitStr` and `offsetStr` are what `r.URL.Query().Get` returns, "" for an absent
parameter. -/
def WalletHandler.historyArguments (sc : Strconv)
    (requestID userIDStr limitStr offsetStr : String) :
    Except ErrorResponse (Int × PaginationRequest) :=
  match sc.ParseInt userIDStr with
  | none => .error (BadRequestError requestID "User ID must be a valid number")
  | some userID =>
    let limit? : Except ErrorResponse Int :=
      if limitStr ≠ "" then
        match sc.Atoi limitStr with
        | none => .error (BadRequestError requestID "Limit must be a positive number")
        | some limitInt =>
          if limitInt ≤ 0 then
            .error (BadRequestError requestID "Limit must be a positive number")
          else .ok (if limitInt > 100 then 100 else limitInt)
      else .ok 10
    match limit? with
    | .error errResp => .error errResp
    | .ok limit =>
      let offset? : Except ErrorResponse Int :=
        if offsetStr ≠ "" then
          match sc.Atoi offsetStr with
          | none => .error (BadRequestError requestID "Offset must be a non-negative number")
          | some offsetInt =>
            if offsetInt < 0 then
              .error (BadRequestError requestID "Offset must be a non-negative number")
            else .ok offsetInt
        else .ok 0
      match offset? with
      | .error errResp => .error errResp
      | .ok offset => .ok (userID, { Limit := limit, Offset := offset })

/-- `WalletHandler.GetTransactionHistoryHandler`: the reply written and the world after. -/
def WalletHandler.GetTransactionHistoryHandler (sc : Strconv) (h : WalletHandler)
    (requestID userIDStr limitStr offsetStr : String) (w : World M) :
    HTTPReply M × World M :=
  match WalletHandler.historyArguments sc requestID userIDStr limitStr offsetStr with
  | .error errResp => (response.Error errResp, w)
  | .ok (userID, pagination) =>
    match h.walletUsecase.GetTransactionHistory userID pagination w with
    | (.error err, w1) =>
      if err.Is .UserNotFound || err.Is .WalletNotFound then
        (response.Error (NotFoundError requestID "No wallet found for this user"), w1)
      else (response.Error (MapErrorToResponse requestID err), w1)
    | (.ok history, w1) => (response.JSON requestID history 200, w1)

end Engine

/-! ## float64

Go's `float64` arithmetic on finite values: the exact result rounded to 53 significant bits,
ties to even.  Infinities, NaN and the limits of the exponent range are not modelled; the
values used below stay far inside the range in which this is exactly what the hardware
computes. -/

/-- A finite IEEE-754 binary64 value `mant * 2 ^ exp`, kept in lowest terms (`mant` odd, or
`0 * 2 ^ 0`). -/
structure F64 where
  mant : Int
  exp : Int
  deriving DecidableEq, Repr

/-- Number of binary digits of `n`; `fuel` bounds the recursion and `n` itself suffices. -/
def F64.bitLength : Nat → Nat → Nat
  | 0, _ => 0
  | fuel + 1, n => if n = 0 then 0 else F64.bitLength fuel (n / 2) + 1

/-- Divides out the factors of two of the mantissa. -/
def F64.lowestTerms : Nat → Int → Int → F64
  | 0, m, e => ⟨m, e⟩
  | fuel + 1, m, e =>
    if m = 0 then ⟨0, 0⟩
    else if m % 2 = 0 then F64.lowestTerms fuel (m / 2) (e + 1)
    else ⟨m, e⟩

/-- Rounds the exact value `m * 2 ^ e` to 53 significant bits, ties to even. -/
def F64.round (m e : Int) : F64 :=
  let n := m.natAbs
  let bits := F64.bitLength n n
  if bits ≤ 53 then F64.lowestTerms n m e
  else
    let shift := bits - 53
    let q := n / 2 ^ shift
    let rest := n % 2 ^ shift
    let half := 2 ^ (shift - 1)
    let q1 := if half < rest ∨ (rest = half ∧ q % 2 = 1) then q + 1 else q
    let signed : Int := if m < 0 then -(q1 : Int) else (q1 : Int)
    F64.lowestTerms q1 signed (e + shift)

/-- The float nearest to an integer. -/
def F64.ofInt (n : Int) : F64 := F64.round n 0

/-- Go's `+` on `float64`: the exact sum, rounded. -/
def F64.add (a b : F64) : F64 :=
  let e := min a.exp b.exp
  F64.round (a.mant * 2 ^ (a.exp - e).toNat + b.mant * 2 ^ (b.exp - e).toNat) e

/-- Go's `-` on `float64`: the exact difference, rounded. -/
def F64.sub (a b : F64) : F64 :=
  let e := min a.exp b.exp
  F64.round (a.mant * 2 ^ (a.exp - e).toNat - b.mant * 2 ^ (b.exp - e).toNat) e

/-- Go's `<` on `float64`. -/
def F64.lt (a b : F64) : Bool :=
  let e := min a.exp b.exp
  decide (a.mant * 2 ^ (a.exp - e).toNat < b.mant * 2 ^ (b.exp - e).toNat)

/-- Go's `<=` on `float64`. -/
def F64.le (a b : F64) : Bool :=
  let e := min a.exp b.exp
  decide (a.mant * 2 ^ (a.exp - e).toNat ≤ b.mant * 2 ^ (b.exp - e).toNat)

/-- The exact value of a float that is an integer (`exp ≥ 0`). -/
def F64.toInt (a : F64) : Int := a.mant * 2 ^ a.exp.toNat

instance : Add F64 := ⟨F64.add⟩
instance : Sub F64 := ⟨F64.sub⟩
instance : Zero F64 := ⟨⟨0, 0⟩⟩
instance : LT F64 := ⟨fun a b => F64.lt a b = true⟩
instance : LE F64 := ⟨fun a b => F64.le a b = true⟩
instance (a b : F64) : Decidable (a < b) := inferInstanceAs (Decidable (F64.lt a b = true))
instance (a b : F64) : Decidable (a ≤ b) := inferInstanceAs (Decidable (F64.le a b = true))


/-! ## Vocabulary of the statements -/

section Statements

variable {M : Type}

/-- The calls that go to PostgreSQL (user, wallet and transaction repositories). -/
def Call.isStore : Call M → Bool
  | .userGetByID _ => true
  | .walletGetByUserID _ => true
  | .walletUpdate _ => true
  | .transactionCreate _ => true
  | .transactionGetByWalletID _ _ _ => true
  | .transactionCountByWalletID _ => true
  | _ => false

/-- The lock acquisitions (`SetNX`). -/
def Call.isLock : Call M → Bool
  | .redisSetNX _ _ _ => true
  | _ => false

/-- The store writes: wallet update and ledger append. -/
def Call.isWrite : Call M → Bool
  | .walletUpdate _ => true
  | .transactionCreate _ => true
  | _ => false

/-- Every store call among the events returned without error. -/
def storeCallsSucceed (es : List (Event M)) : Bool :=
  es.all (fun e => !e.call.isStore || decide (e.outcome = .ok))

/-- Every lock acquisition among the events was granted. -/
def lockCallsSucceed (es : List (Event M)) : Bool :=
  es.all (fun e => !e.call.isLock || decide (e.outcome = .ok))

/-- The events an operation issued: the trace of `after` beyond that of `before`. -/
def World.issuedSince (after before : World M) : List (Event M) :=
  after.trace.drop before.trace.length

/-- The wallet row `walletRepository.GetByUserID` reads for a user. -/
def World.walletOf (w : World M) (userID : Int) : Option (Wallet M) :=
  w.wallets.find? (fun x => x.UserID == userID)

/-- The user row `userRepository.GetByID` reads. -/
def World.userOf (w : World M) (id : Int) : Option User :=
  w.users.find? (fun x => x.ID == id)

/-- The world after a user row and then a wallet row were read successfully. -/
def World.afterLookup (w : World M) (userID : Int) (user : User) : World M :=
  (w.emit (.userGetByID userID) .ok).emit (.walletGetByUserID user.ID) .ok

/-- The world after `Transfer` read both user rows and both wallet rows successfully. -/
def World.afterLookups (w : World M) (senderID receiverID : Int) (sender receiver : User) :
    World M :=
  (((w.emit (.userGetByID senderID) .ok).emit (.userGetByID receiverID) .ok).emit
    (.walletGetByUserID sender.ID) .ok).emit (.walletGetByUserID receiver.ID) .ok

/-- The world a successful `walletRepository.Update wallet` leaves. -/
def World.afterUpdate (w : World M) (wallet : Wallet M) : World M :=
  (w.updateWalletRow wallet.Balance w.now wallet.ID).emit
    (.walletUpdate { wallet with UpdatedAt := w.now }) .ok

/-- The world a failed `walletRepository.Update wallet` leaves. -/
def World.failedUpdate (w : World M) (wallet : Wallet M) : World M :=
  w.emit (.walletUpdate { wallet with UpdatedAt := w.now }) .error

/-- The row a successful `transactionRepository.Create transaction` inserts. -/
def World.stamped (w : World M) (transaction : Transaction M) : Transaction M :=
  { transaction with CreatedAt := w.now, TransactionTime := w.now, ID := w.nextTransactionID }

/-- The world a successful `transactionRepository.Create transaction` leaves. -/
def World.afterCreate (w : World M) (transaction : Transaction M) : World M :=
  (w.insertTransactionRow (w.stamped transaction)).emit
    (.transactionCreate { transaction with CreatedAt := w.now, TransactionTime := w.now }) .ok

/-- The world a failed `transactionRepository.Create transaction` leaves. -/
def World.failedCreate (w : World M) (transaction : Transaction M) : World M :=
  w.emit (.transactionCreate { transaction with CreatedAt := w.now, TransactionTime := w.now })
    .error

/-- The world a granted `SetNX` leaves. -/
def World.afterSetNX (w : World M) (key value : String) (seconds : Nat) : World M :=
  World.emit { w with redis := (key, value) :: w.redis } (.redisSetNX key value seconds) .ok

/-- The name of the lock `Transfer` takes first. -/
def TransferRequest.firstLockKey (req : TransferRequest M) : String :=
  walletLockKey (if req.SenderID < req.ReceiverID then req.SenderID else req.ReceiverID)

/-- The name of the lock `Transfer` takes second. -/
def TransferRequest.secondLockKey (req : TransferRequest M) : String :=
  walletLockKey (if req.SenderID < req.ReceiverID then req.ReceiverID else req.SenderID)

/-- The world after the cache invalidation, which is skipped when there is no Redis client. -/
def World.afterInvalidate (w : World M) (u : walletUsecase) (keys : List String) : World M :=
  if u.redisClient then redisClient.Del keys w else w

/-- A fixture after the repository's tests: users 1 and 2, wallet 1 holding 100 and wallet 2
holding 50, nothing in Redis, no driver failure. -/
def testWorld : World Int :=
  { users := [⟨1, "sender", "sender@example.com", 0, 0⟩,
      ⟨2, "receiver", "receiver@example.com", 0, 0⟩],
    wallets := [⟨1, 1, 100, "USD", 0, 0⟩, ⟨2, 2, 50, "USD", 0, 0⟩],
    transactions := [],
    nextTransactionID := 1,
    redis := [],
    now := 1,
    fault := fun _ => none,
    trace := [] }

/-- The fixture with `float64` balances: wallet 1 holds 1e16, wallet 2 holds 1. -/
def floatWorld : World F64 :=
  { users := [⟨1, "sender", "sender@example.com", 0, 0⟩,
      ⟨2, "receiver", "receiver@example.com", 0, 0⟩],
    wallets := [⟨1, 1, F64.ofInt 10000000000000000, "USD", 0, 0⟩, ⟨2, 2, F64.ofInt 1, "USD", 0, 0⟩],
    transactions := [],
    nextTransactionID := 1,
    redis := [],
    now := 1,
    fault := fun _ => none,
    trace := [] }

/-- The name a lock acquisition asks for, for a `SetNX` event. -/
def Event.lockName? (e : Event M) : Option String :=
  match e.call with
  | .redisSetNX key _ _ => some key
  | _ => none

/-- The lock names asked for, in the order of the calls. -/
def lockAttempts (es : List (Event M)) : List String :=
  es.filterMap Event.lockName?

/-- Whether a result is an error that `errors.Is` matches with the sentinel. -/
def errorMatches {α : Type} (r : Except Err α) (s : Sentinel) : Bool :=
  match r with
  | .error err => err.Is s
  | .ok _ => false

/-- The world with other Redis contents. -/
def World.setRedis (w : World M) (redis : List (String × String)) : World M :=
  { w with redis := redis }

/-- The fields of a line of text separated by a bar. -/
def lineFields : List Char → List (List Char)
  | [] => [[]]
  | c :: cs =>
    if c = '|' then [] :: lineFields cs
    else
      match lineFields cs with
      | [] => [[c]]
      | field :: rest => (c :: field) :: rest

/-- Reads decimal digits onto an accumulator. -/
def lineNatFrom (acc : Nat) : List Char → Option Nat
  | [] => some acc
  | c :: cs => if c.isDigit then lineNatFrom (acc * 10 + (c.toNat - 48)) cs else none

/-- Reads a natural number in decimal. -/
def lineNat : List Char → Option Nat
  | [] => none
  | cs => lineNatFrom 0 cs

/-- Reads an integer in decimal. -/
def lineInt : List Char → Option Int
  | '-' :: cs => (lineNat cs).map fun n => -(n : Int)
  | cs => (lineNat cs).map fun n => (n : Int)

/-- A stand-in for `encoding/json` on wallets with integer balances, used in the runs on the
fixtures: the six fields in decimal on one line, separated by bars. -/
def lineCodec : JSONCodec Int :=
  { Marshal := fun w => .ok (toString w.ID ++ "|" ++ toString w.UserID ++ "|" ++
      toString w.Balance ++ "|" ++ w.Currency ++ "|" ++ toString w.CreatedAt ++ "|" ++
      toString w.UpdatedAt),
    Unmarshal := fun data =>
      match lineFields data.toList with
      | [id, userID, balance, currency, createdAt, updatedAt] =>
        match lineInt id, lineInt userID, lineInt balance, lineNat createdAt,
          lineNat updatedAt with
        | some i, some u, some b, some c, some t => .ok ⟨i, u, b, String.mk currency, c, t⟩
        | _, _, _, _, _ => .error (.driver "json: cannot unmarshal")
      | _ => .error (.driver "json: cannot unmarshal") }

/-- The test fixture with a third user, who has no wallet row. -/
def walletlessWorld : World Int :=
  { testWorld with users := testWorld.users ++ [⟨3, "third", "third@example.com", 0, 0⟩] }

/-- Users 1 and 2 owning the wallets with ids 7 and 9. -/
def ownersOneTwo : World Int :=
  { testWorld with wallets := [⟨7, 1, 100, "USD", 0, 0⟩, ⟨9, 2, 50, "USD", 0, 0⟩] }

/-- Users 3 and 4 owning the wallets with ids 7 and 9. -/
def ownersThreeFour : World Int :=
  { testWorld with
    users := [⟨3, "third", "third@example.com", 0, 0⟩, ⟨4, "fourth", "fourth@example.com", 0, 0⟩],
    wallets := [⟨7, 3, 100, "USD", 0, 0⟩, ⟨9, 4, 50, "USD", 0, 0⟩] }

/-- The calls to Redis: locks and cache. -/
def Call.isRedis : Call M → Bool
  | .redisSetNX _ _ _ => true
  | .redisDel _ => true
  | .redisGet _ => true
  | .redisSet _ _ _ => true
  | _ => false

/-- The cache writes. -/
def Call.isCacheSet : Call M → Bool
  | .redisSet _ _ _ => true
  | _ => false

/-- The test fixture with a cached entry for user 1 that is older than the stored balance. -/
def cachedWorld : World Int :=
  testWorld.setRedis [("wallet:balance:1", "1|1|70|USD|0|0")]

/-- The test fixture with a cached entry for user 1 that does not deserialize. -/
def corruptCacheWorld : World Int :=
  testWorld.setRedis [("wallet:balance:1", "\x7bnot a wallet")]

/-- The test fixture with five ledger rows: three of wallet 1 at times 5, 9 and 7, two of
wallet 2. -/
def historyWorld : World Int :=
  { testWorld with
    transactions :=
      [⟨1, 1, none, .Deposit, 10, 90, 100, "a", 5, 5⟩,
        ⟨2, 2, none, .Deposit, 10, 40, 50, "b", 6, 6⟩,
        ⟨3, 1, none, .Withdrawal, 20, 100, 80, "c", 9, 9⟩,
        ⟨4, 1, some 2, .Transfer, 30, 80, 50, "d", 7, 7⟩,
        ⟨5, 2, none, .Deposit, 30, 50, 80, "e", 8, 8⟩],
    nextTransactionID := 6,
    now := 10 }

/-- The limit the claims call effective: 10 when the requested limit is not positive. -/
def PaginationRequest.effectiveLimit (pagination : PaginationRequest) : Int :=
  if pagination.Limit ≤ 0 then 10 else pagination.Limit

/-- The offset the claims call effective: 0 when the requested offset is negative. -/
def PaginationRequest.effectiveOffset (pagination : PaginationRequest) : Int :=
  if pagination.Offset < 0 then 0 else pagination.Offset

/-- The ledger rows with the wallet as source wallet, in table order. -/
def World.ledgerOf (w : World M) (walletID : Int) : List (Transaction M) :=
  w.transactions.filter (fun t => t.WalletID == walletID)

/-- The store writes among the events, in the order of the calls. -/
def writesOf (es : List (Event M)) : List (Event M) :=
  es.filter (fun e => e.call.isWrite)

/-- A stand-in for `strconv` used in the runs on the fixtures: decimal digits with an
optional minus sign. -/
def decimalStrconv : Strconv :=
  { ParseInt := fun s => lineInt s.toList, Atoi := fun s => lineInt s.toList }

/-- The test fixture with the current balance of user 1 in the cache, in which the driver
fails the `n`-th call of the run. -/
def cachedFaultyWorld (n : Nat) : World Int :=
  { testWorld with
    redis := [("wallet:balance:1", "1|1|100|USD|0|0")],
    fault := fun k => if k = n then some (.driver "connection reset") else none }

/-- The invariant of the wallet store: no stored balance is negative. -/
def World.balancesNonnegative [LE M] [Zero M] (w : World M) : Prop :=
  ∀ x ∈ w.wallets, 0 ≤ x.Balance

instance [LE M] [Zero M] [∀ a b : M, Decidable (a ≤ b)] (w : World M) :
    Decidable w.balancesNonnegative :=
  inferInstanceAs (Decidable (∀ x ∈ w.wallets, 0 ≤ x.Balance))

/-- The store calls among the events, in the order of the calls. -/
def storeCallsOf (es : List (Event M)) : List (Event M) :=
  es.filter (fun e => e.call.isStore)

/-- Two worlds hold the same store: the rows, the next serial and the clock. -/
def World.sameStore (w W : World M) : Prop :=
  W.users = w.users ∧ W.wallets = w.wallets ∧ W.transactions = w.transactions ∧
    W.nextTransactionID = w.nextTransactionID ∧ W.now = w.now

/-- Two runs, begun in `w0` and `W0`, are in step after `k` calls: the worlds `w` and `W`
they have reached hold the same store, and both have issued the same `k` store calls with the
same outcomes. -/
def World.inStep (w0 W0 w W : World M) (k : Nat) : Prop :=
  w.sameStore W ∧ w.fault = w0.fault ∧ W.fault = W0.fault ∧
    ∃ es : List (Event M), es.length = k ∧ (∀ e ∈ es, e.call.isStore = true) ∧
      w.trace = w0.trace ++ es ∧ W.trace = W0.trace ++ es

/-- The round trip of `encoding/json` on one wallet: when the wallet serializes, the bytes
deserialize, and to a wallet with the same id, user id, balance and currency.  The package is
not part of the repository; `domain.Wallet` declares the four fields exported, each under its
own tag, which is the case in which the package gives them back. -/
def JSONCodec.roundTripsOn (codec : JSONCodec M) (x : Wallet M) : Prop :=
  ∀ data, codec.Marshal x = .ok data →
    ∃ y, codec.Unmarshal data = .ok y ∧ y.ID = x.ID ∧ y.UserID = x.UserID ∧
      y.Balance = x.Balance ∧ y.Currency = x.Currency

/-- The test fixture while another transfer holds the lock of id 1. -/
def lockedWorld : World Int :=
  { testWorld with redis := [("lock:wallet:1", "1")] }

/-- The test fixture in which the driver fails the `n`-th call of the run (counted from 0)
with a connection error. -/
def faultyWorld (n : Nat) : World Int :=
  { testWorld with fault := fun k => if k = n then some (.driver "connection reset") else none }

end Statements

/-! ## Lemmas on the stores -/

section StoreLemmas

variable {M : Type}

@[simp] theorem World.emit_trace (w : World M) (c : Call M) (o : Outcome) :
    (w.emit c o).trace = w.trace ++ [⟨c, o⟩] := rfl
@[simp] theorem World.emit_users (w : World M) (c : Call M) (o : Outcome) :
    (w.emit c o).users = w.users := rfl
@[simp] theorem World.emit_wallets (w : World M) (c : Call M) (o : Outcome) :
    (w.emit c o).wallets = w.wallets := rfl
@[simp] theorem World.emit_transactions (w : World M) (c : Call M) (o : Outcome) :
    (w.emit c o).transactions = w.transactions := rfl
@[simp] theorem World.emit_nextTransactionID (w : World M) (c : Call M) (o : Outcome) :
    (w.emit c o).nextTransactionID = w.nextTransactionID := rfl
@[simp] theorem World.emit_redis (w : World M) (c : Call M) (o : Outcome) :
    (w.emit c o).redis = w.redis := rfl
@[simp] theorem World.emit_now (w : World M) (c : Call M) (o : Outcome) :
    (w.emit c o).now = w.now := rfl
@[simp] theorem World.emit_fault (w : World M) (c : Call M) (o : Outcome) :
    (w.emit c o).fault = w.fault := rfl

@[simp] theorem World.updateWalletRow_trace (w : World M) (b : M) (t : Nat) (id : Int) :
    (w.updateWalletRow b t id).trace = w.trace := rfl
@[simp] theorem World.updateWalletRow_users (w : World M) (b : M) (t : Nat) (id : Int) :
    (w.updateWalletRow b t id).users = w.users := rfl
@[simp] theorem World.updateWalletRow_wallets (w : World M) (b : M) (t : Nat) (id : Int) :
    (w.updateWalletRow b t id).wallets =
      w.wallets.map (fun (x : Wallet M) =>
        if x.ID == id then { x with Balance := b, UpdatedAt := t } else x) := rfl
@[simp] theorem World.updateWalletRow_transactions (w : World M) (b : M) (t : Nat) (id : Int) :
    (w.updateWalletRow b t id).transactions = w.transactions := rfl
@[simp] theorem World.updateWalletRow_nextTransactionID (w : World M) (b : M) (t : Nat)
    (id : Int) : (w.updateWalletRow b t id).nextTransactionID = w.nextTransactionID := rfl
@[simp] theorem World.updateWalletRow_redis (w : World M) (b : M) (t : Nat) (id : Int) :
    (w.updateWalletRow b t id).redis = w.redis := rfl
@[simp] theorem World.updateWalletRow_now (w : World M) (b : M) (t : Nat) (id : Int) :
    (w.updateWalletRow b t id).now = w.now := rfl
@[simp] theorem World.updateWalletRow_fault (w : World M) (b : M) (t : Nat) (id : Int) :
    (w.updateWalletRow b t id).fault = w.fault := rfl

@[simp] theorem World.insertTransactionRow_trace (w : World M) (t : Transaction M) :
    (w.insertTransactionRow t).trace = w.trace := rfl
@[simp] theorem World.insertTransactionRow_users (w : World M) (t : Transaction M) :
    (w.insertTransactionRow t).users = w.users := rfl
@[simp] theorem World.insertTransactionRow_wallets (w : World M) (t : Transaction M) :
    (w.insertTransactionRow t).wallets = w.wallets := rfl
@[simp] theorem World.insertTransactionRow_transactions (w : World M) (t : Transaction M) :
    (w.insertTransactionRow t).transactions = w.transactions ++ [t] := rfl
@[simp] theorem World.insertTransactionRow_redis (w : World M) (t : Transaction M) :
    (w.insertTransactionRow t).redis = w.redis := rfl
@[simp] theorem World.insertTransactionRow_now (w : World M) (t : Transaction M) :
    (w.insertTransactionRow t).now = w.now := rfl

/-- The outcome `redisClient.Del` records: it fails exactly when the driver fails it. -/
theorem redisClient.Del_trace (keys : List String) (w : World M) :
    (redisClient.Del keys w).trace =
      w.trace ++ [⟨.redisDel keys, match w.nextFault with | some _ => .error | none => .ok⟩] := by
  unfold redisClient.Del
  cases w.nextFault <;> rfl

@[simp] theorem redisClient.Del_users (keys : List String) (w : World M) :
    (redisClient.Del keys w).users = w.users := by
  unfold redisClient.Del
  cases w.nextFault <;> rfl
@[simp] theorem redisClient.Del_wallets (keys : List String) (w : World M) :
    (redisClient.Del keys w).wallets = w.wallets := by
  unfold redisClient.Del
  cases w.nextFault <;> rfl
@[simp] theorem redisClient.Del_transactions (keys : List String) (w : World M) :
    (redisClient.Del keys w).transactions = w.transactions := by
  unfold redisClient.Del
  cases w.nextFault <;> rfl
@[simp] theorem redisClient.Del_nextTransactionID (keys : List String) (w : World M) :
    (redisClient.Del keys w).nextTransactionID = w.nextTransactionID := by
  unfold redisClient.Del
  cases w.nextFault <;> rfl
@[simp] theorem redisClient.Del_now (keys : List String) (w : World M) :
    (redisClient.Del keys w).now = w.now := by
  unfold redisClient.Del
  cases w.nextFault <;> rfl
@[simp] theorem redisClient.Del_fault (keys : List String) (w : World M) :
    (redisClient.Del keys w).fault = w.fault := by
  unfold redisClient.Del
  cases w.nextFault <;> rfl

@[simp] theorem World.walletOf_emit (w : World M) (c : Call M) (o : Outcome) (userID : Int) :
    (w.emit c o).walletOf userID = w.walletOf userID := rfl

@[simp] theorem World.walletOf_insertTransactionRow (w : World M) (t : Transaction M)
    (userID : Int) : (w.insertTransactionRow t).walletOf userID = w.walletOf userID := rfl

@[simp] theorem redisClient.Del_walletOf (keys : List String) (w : World M) (userID : Int) :
    (redisClient.Del keys w).walletOf userID = w.walletOf userID := by
  unfold World.walletOf
  rw [redisClient.Del_wallets]

theorem World.walletOf_updateWalletRow (w : World M) (b : M) (t : Nat) (id userID : Int) :
    (w.updateWalletRow b t id).walletOf userID =
      (w.walletOf userID).map (fun (x : Wallet M) =>
        if x.ID == id then { x with Balance := b, UpdatedAt := t } else x) := by
  unfold World.walletOf
  rw [World.updateWalletRow_wallets, List.find?_map]
  congr 2
  funext x
  simp only [Function.comp]
  split <;> rfl

theorem World.userOf_ID {w : World M} {id : Int} {user : User} (h : w.userOf id = some user) :
    user.ID = id := by
  have := List.find?_some h
  simpa using this

@[simp] theorem World.afterLookup_trace (w : World M) (userID : Int) (user : User) :
    (w.afterLookup userID user).trace =
      w.trace ++ [⟨.userGetByID userID, .ok⟩, ⟨.walletGetByUserID user.ID, .ok⟩] := by
  simp [World.afterLookup]
@[simp] theorem World.afterLookup_now (w : World M) (userID : Int) (user : User) :
    (w.afterLookup userID user).now = w.now := rfl
@[simp] theorem World.afterLookup_wallets (w : World M) (userID : Int) (user : User) :
    (w.afterLookup userID user).wallets = w.wallets := rfl
@[simp] theorem World.afterLookup_walletOf (w : World M) (userID : Int) (user : User)
    (id : Int) : (w.afterLookup userID user).walletOf id = w.walletOf id := rfl
@[simp] theorem World.afterLookup_transactions (w : World M) (userID : Int) (user : User) :
    (w.afterLookup userID user).transactions = w.transactions := rfl
@[simp] theorem World.afterLookup_nextTransactionID (w : World M) (userID : Int) (user : User) :
    (w.afterLookup userID user).nextTransactionID = w.nextTransactionID := rfl
@[simp] theorem World.afterLookup_redis (w : World M) (userID : Int) (user : User) :
    (w.afterLookup userID user).redis = w.redis := rfl

@[simp] theorem World.afterLookups_trace (w : World M) (s r : Int) (sender receiver : User) :
    (w.afterLookups s r sender receiver).trace =
      w.trace ++ [⟨.userGetByID s, .ok⟩, ⟨.userGetByID r, .ok⟩,
        ⟨.walletGetByUserID sender.ID, .ok⟩, ⟨.walletGetByUserID receiver.ID, .ok⟩] := by
  simp [World.afterLookups]
@[simp] theorem World.afterLookups_now (w : World M) (s r : Int) (sender receiver : User) :
    (w.afterLookups s r sender receiver).now = w.now := rfl
@[simp] theorem World.afterLookups_wallets (w : World M) (s r : Int) (sender receiver : User) :
    (w.afterLookups s r sender receiver).wallets = w.wallets := rfl
@[simp] theorem World.afterLookups_walletOf (w : World M) (s r : Int) (sender receiver : User)
    (id : Int) : (w.afterLookups s r sender receiver).walletOf id = w.walletOf id := rfl
@[simp] theorem World.afterLookups_transactions (w : World M) (s r : Int)
    (sender receiver : User) :
    (w.afterLookups s r sender receiver).transactions = w.transactions := rfl
@[simp] theorem World.afterLookups_nextTransactionID (w : World M) (s r : Int)
    (sender receiver : User) :
    (w.afterLookups s r sender receiver).nextTransactionID = w.nextTransactionID := rfl
@[simp] theorem World.afterLookups_redis (w : World M) (s r : Int) (sender receiver : User) :
    (w.afterLookups s r sender receiver).redis = w.redis := rfl

@[simp] theorem World.afterUpdate_trace (w : World M) (wallet : Wallet M) :
    (w.afterUpdate wallet).trace =
      w.trace ++ [⟨.walletUpdate { wallet with UpdatedAt := w.now }, .ok⟩] := rfl
@[simp] theorem World.afterUpdate_now (w : World M) (wallet : Wallet M) :
    (w.afterUpdate wallet).now = w.now := rfl
@[simp] theorem World.afterUpdate_transactions (w : World M) (wallet : Wallet M) :
    (w.afterUpdate wallet).transactions = w.transactions := rfl
@[simp] theorem World.afterUpdate_nextTransactionID (w : World M) (wallet : Wallet M) :
    (w.afterUpdate wallet).nextTransactionID = w.nextTransactionID := rfl
@[simp] theorem World.afterUpdate_redis (w : World M) (wallet : Wallet M) :
    (w.afterUpdate wallet).redis = w.redis := rfl
@[simp] theorem World.afterUpdate_walletOf (w : World M) (wallet : Wallet M) (userID : Int) :
    (w.afterUpdate wallet).walletOf userID =
      (w.walletOf userID).map (fun (x : Wallet M) =>
        if x.ID == wallet.ID then { x with Balance := wallet.Balance, UpdatedAt := w.now }
        else x) := by
  unfold World.afterUpdate
  rw [World.walletOf_emit, World.walletOf_updateWalletRow]

@[simp] theorem World.failedUpdate_trace (w : World M) (wallet : Wallet M) :
    (w.failedUpdate wallet).trace =
      w.trace ++ [⟨.walletUpdate { wallet with UpdatedAt := w.now }, .error⟩] := rfl
@[simp] theorem World.failedUpdate_wallets (w : World M) (wallet : Wallet M) :
    (w.failedUpdate wallet).wallets = w.wallets := rfl
@[simp] theorem World.failedUpdate_transactions (w : World M) (wallet : Wallet M) :
    (w.failedUpdate wallet).transactions = w.transactions := rfl

@[simp] theorem World.afterCreate_trace (w : World M) (t : Transaction M) :
    (w.afterCreate t).trace =
      w.trace ++ [⟨.transactionCreate { t with CreatedAt := w.now, TransactionTime := w.now },
        .ok⟩] := rfl
@[simp] theorem World.afterCreate_walletOf (w : World M) (t : Transaction M) (userID : Int) :
    (w.afterCreate t).walletOf userID = w.walletOf userID := rfl
@[simp] theorem World.afterCreate_wallets (w : World M) (t : Transaction M) :
    (w.afterCreate t).wallets = w.wallets := rfl
@[simp] theorem World.afterCreate_transactions (w : World M) (t : Transaction M) :
    (w.afterCreate t).transactions = w.transactions ++ [w.stamped t] := rfl
@[simp] theorem World.afterCreate_redis (w : World M) (t : Transaction M) :
    (w.afterCreate t).redis = w.redis := rfl

@[simp] theorem World.failedCreate_trace (w : World M) (t : Transaction M) :
    (w.failedCreate t).trace =
      w.trace ++ [⟨.transactionCreate { t with CreatedAt := w.now, TransactionTime := w.now },
        .error⟩] := rfl
@[simp] theorem World.failedCreate_wallets (w : World M) (t : Transaction M) :
    (w.failedCreate t).wallets = w.wallets := rfl
@[simp] theorem World.failedCreate_walletOf (w : World M) (t : Transaction M) (userID : Int) :
    (w.failedCreate t).walletOf userID = w.walletOf userID := rfl
@[simp] theorem World.failedCreate_transactions (w : World M) (t : Transaction M) :
    (w.failedCreate t).transactions = w.transactions := rfl

theorem World.afterInvalidate_trace (w : World M) (u : walletUsecase) (keys : List String) :
    (w.afterInvalidate u keys).trace =
      w.trace ++ (if u.redisClient then
        [⟨.redisDel keys, match w.nextFault with | some _ => .error | none => .ok⟩] else []) := by
  unfold World.afterInvalidate
  cases u.redisClient <;> simp [redisClient.Del_trace]
@[simp] theorem World.afterInvalidate_now (w : World M) (u : walletUsecase)
    (keys : List String) : (w.afterInvalidate u keys).now = w.now := by
  unfold World.afterInvalidate
  cases u.redisClient <;> simp
@[simp] theorem World.afterInvalidate_wallets (w : World M) (u : walletUsecase)
    (keys : List String) : (w.afterInvalidate u keys).wallets = w.wallets := by
  unfold World.afterInvalidate
  cases u.redisClient <;> simp
@[simp] theorem World.afterInvalidate_walletOf (w : World M) (u : walletUsecase)
    (keys : List String) (userID : Int) :
    (w.afterInvalidate u keys).walletOf userID = w.walletOf userID := by
  unfold World.afterInvalidate
  cases u.redisClient <;> simp
@[simp] theorem World.afterInvalidate_transactions (w : World M) (u : walletUsecase)
    (keys : List String) : (w.afterInvalidate u keys).transactions = w.transactions := by
  unfold World.afterInvalidate
  cases u.redisClient <;> simp
@[simp] theorem World.afterInvalidate_nextTransactionID (w : World M) (u : walletUsecase)
    (keys : List String) :
    (w.afterInvalidate u keys).nextTransactionID = w.nextTransactionID := by
  unfold World.afterInvalidate
  cases u.redisClient <;> simp

@[simp] theorem World.afterSetNX_trace (w : World M) (key value : String) (seconds : Nat) :
    (w.afterSetNX key value seconds).trace =
      w.trace ++ [⟨.redisSetNX key value seconds, .ok⟩] := rfl
@[simp] theorem World.afterSetNX_wallets (w : World M) (key value : String) (seconds : Nat) :
    (w.afterSetNX key value seconds).wallets = w.wallets := rfl
@[simp] theorem World.afterSetNX_walletOf (w : World M) (key value : String) (seconds : Nat)
    (userID : Int) : (w.afterSetNX key value seconds).walletOf userID = w.walletOf userID := rfl
@[simp] theorem World.afterSetNX_userOf (w : World M) (key value : String) (seconds : Nat)
    (id : Int) : (w.afterSetNX key value seconds).userOf id = w.userOf id := rfl
@[simp] theorem World.afterSetNX_transactions (w : World M) (key value : String)
    (seconds : Nat) : (w.afterSetNX key value seconds).transactions = w.transactions := rfl
@[simp] theorem World.afterSetNX_nextTransactionID (w : World M) (key value : String)
    (seconds : Nat) :
    (w.afterSetNX key value seconds).nextTransactionID = w.nextTransactionID := rfl
@[simp] theorem World.afterSetNX_now (w : World M) (key value : String) (seconds : Nat) :
    (w.afterSetNX key value seconds).now = w.now := rfl

theorem redisClient.SetNX_granted {key value : String} {seconds : Nat} {w w1 : World M}
    (h : redisClient.SetNX key value seconds w = (.ok true, w1)) :
    w.redis.lookup key = none ∧ w1 = w.afterSetNX key value seconds := by
  unfold redisClient.SetNX at h
  split at h
  · cases h
  · split at h
    · cases h
    · cases h; exact ⟨by assumption, rfl⟩

theorem redisClient.SetNX_refused {key value : String} {seconds : Nat} {w w1 : World M}
    {r : Except Err Bool} (h : redisClient.SetNX key value seconds w = (r, w1))
    (hr : r ≠ .ok true) :
    (r = .ok false ∧ w1 = w.emit (.redisSetNX key value seconds) .declined) ∨
    ((∃ err, r = .error err) ∧ w1 = w.emit (.redisSetNX key value seconds) .error) := by
  unfold redisClient.SetNX at h
  split at h
  · cases h; exact Or.inr ⟨⟨_, rfl⟩, rfl⟩
  · split at h
    · cases h; exact Or.inl ⟨rfl, rfl⟩
    · cases h; exact absurd rfl hr

theorem userRepository.GetByID_error {id : Int} {w w1 : World M} {err : Err}
    (h : userRepository.GetByID id w = (.error err, w1)) :
    w1 = w.emit (.userGetByID id) .error := by
  unfold userRepository.GetByID at h
  split at h
  · cases h; rfl
  · split at h
    · cases h; rfl
    · cases h

theorem userRepository.GetByID_ok {id : Int} {w w1 : World M} {user : User}
    (h : userRepository.GetByID id w = (.ok user, w1)) :
    w.users.find? (fun x => x.ID == id) = some user ∧ w1 = w.emit (.userGetByID id) .ok := by
  unfold userRepository.GetByID at h
  split at h
  · cases h
  · split at h
    · cases h
    · cases h; exact ⟨by assumption, rfl⟩

theorem walletRepository.GetByUserID_error {id : Int} {w w1 : World M} {err : Err}
    (h : walletRepository.GetByUserID id w = (.error err, w1)) :
    w1 = w.emit (.walletGetByUserID id) .error := by
  unfold walletRepository.GetByUserID at h
  split at h
  · cases h; rfl
  · split at h
    · cases h; rfl
    · cases h

theorem walletRepository.GetByUserID_ok {id : Int} {w w1 : World M} {wallet : Wallet M}
    (h : walletRepository.GetByUserID id w = (.ok wallet, w1)) :
    w.wallets.find? (fun x => x.UserID == id) = some wallet ∧
      w1 = w.emit (.walletGetByUserID id) .ok := by
  unfold walletRepository.GetByUserID at h
  split at h
  · cases h
  · split at h
    · cases h
    · cases h; exact ⟨by assumption, rfl⟩

theorem walletRepository.Update_error {wallet : Wallet M} {w w1 : World M} {err : Err}
    (h : walletRepository.Update wallet w = (.error err, w1)) :
    w1 = w.failedUpdate wallet := by
  unfold walletRepository.Update at h
  split at h
  · cases h; rfl
  · cases h

theorem walletRepository.Update_ok {wallet wallet1 : Wallet M} {w w1 : World M}
    (h : walletRepository.Update wallet w = (.ok wallet1, w1)) :
    wallet1 = { wallet with UpdatedAt := w.now } ∧ w1 = w.afterUpdate wallet := by
  unfold walletRepository.Update at h
  split at h
  · cases h
  · cases h; exact ⟨rfl, rfl⟩

theorem transactionRepository.Create_error {t : Transaction M} {w w1 : World M} {err : Err}
    (h : transactionRepository.Create t w = (.error err, w1)) :
    w1 = w.failedCreate t := by
  unfold transactionRepository.Create at h
  split at h
  · cases h; rfl
  · cases h

theorem transactionRepository.Create_ok {t t1 : Transaction M} {w w1 : World M}
    (h : transactionRepository.Create t w = (.ok t1, w1)) :
    t1 = w.stamped t ∧ w1 = w.afterCreate t := by
  unfold transactionRepository.Create at h
  split at h
  · cases h
  · cases h; exact ⟨rfl, rfl⟩

end StoreLemmas

/-! ## Exit paths of the engine operations -/

section DepositPaths

variable {M : Type} [Add M] [Zero M] [LE M] [∀ a b : M, Decidable (a ≤ b)]

/-- The exits of `Deposit` for an amount that passes validation: a failed user read, a failed
wallet read, a failed wallet update, a failed ledger append, or success; each with the world
it leaves. -/
theorem walletUsecase.Deposit_paths (u : walletUsecase) (req : DepositRequest M) (w : World M)
    (hna : ¬ req.Amount ≤ 0) :
    (∃ err, u.Deposit req w =
        (.error (if err.Is .ResourceNotFound then ErrUserNotFound
            else WrapError err "failed to get user"),
          w.emit (.userGetByID req.UserID) .error)) ∨
    (∃ user err, w.userOf req.UserID = some user ∧
      u.Deposit req w =
        (.error (if err.Is .ResourceNotFound then ErrWalletNotFound
            else WrapError err "failed to get wallet"),
          (w.emit (.userGetByID req.UserID) .ok).emit (.walletGetByUserID user.ID) .error)) ∨
    (∃ user wallet err, w.userOf req.UserID = some user ∧ w.walletOf user.ID = some wallet ∧
      u.Deposit req w =
        (.error (WrapError err "failed to update wallet"),
          (w.afterLookup req.UserID user).failedUpdate
            { wallet with Balance := wallet.Balance + req.Amount, UpdatedAt := w.now })) ∨
    (∃ user wallet err, w.userOf req.UserID = some user ∧ w.walletOf user.ID = some wallet ∧
      u.Deposit req w =
        (.error (WrapError err "failed to create transaction record"),
          (((w.afterLookup req.UserID user).afterUpdate
              { wallet with Balance := wallet.Balance + req.Amount, UpdatedAt := w.now }
            ).afterInvalidate u [balanceCacheKey req.UserID]).failedCreate
            { ID := 0, WalletID := wallet.ID, DestWalletID := none, Type_ := .Deposit,
              Amount := req.Amount, BalanceBefore := wallet.Balance,
              BalanceAfter := wallet.Balance + req.Amount, Description := req.Comment,
              TransactionTime := 0, CreatedAt := 0 })) ∨
    (∃ user wallet, w.userOf req.UserID = some user ∧ w.walletOf user.ID = some wallet ∧
      u.Deposit req w =
        (.ok
          { ID := w.nextTransactionID, WalletID := wallet.ID, DestWalletID := none,
            Type_ := .Deposit, Amount := req.Amount, BalanceBefore := wallet.Balance,
            BalanceAfter := wallet.Balance + req.Amount, Description := req.Comment,
            TransactionTime := w.now, CreatedAt := w.now },
          (((w.afterLookup req.UserID user).afterUpdate
              { wallet with Balance := wallet.Balance + req.Amount, UpdatedAt := w.now }
            ).afterInvalidate u [balanceCacheKey req.UserID]).afterCreate
            { ID := 0, WalletID := wallet.ID, DestWalletID := none, Type_ := .Deposit,
              Amount := req.Amount, BalanceBefore := wallet.Balance,
              BalanceAfter := wallet.Balance + req.Amount, Description := req.Comment,
              TransactionTime := 0, CreatedAt := 0 })) := by
  generalize hr : u.Deposit req w = r
  unfold walletUsecase.Deposit at hr
  rw [if_neg hna] at hr
  split at hr
  · next err w1 h1 =>
    cases userRepository.GetByID_error h1
    exact Or.inl ⟨err, hr.symm⟩
  · next user w1 h1 =>
    obtain ⟨hu, rfl⟩ := userRepository.GetByID_ok h1
    split at hr
    · next err w2 h2 =>
      cases walletRepository.GetByUserID_error h2
      exact Or.inr (Or.inl ⟨user, err, hu, hr.symm⟩)
    · next wallet w2 h2 =>
      obtain ⟨hw, rfl⟩ := walletRepository.GetByUserID_ok h2
      simp only [Wallet.Deposit, if_neg hna] at hr
      split at hr
      · next err w3 h3 =>
        cases walletRepository.Update_error h3
        exact Or.inr (Or.inr (Or.inl ⟨user, wallet, err, hu, hw, hr.symm⟩))
      · next wallet2 w3 h3 =>
        obtain ⟨rfl, rfl⟩ := walletRepository.Update_ok h3
        split at hr
        · next err w5 h5 =>
          cases transactionRepository.Create_error h5
          exact Or.inr (Or.inr (Or.inr (Or.inl ⟨user, wallet, err, hu, hw, hr.symm⟩)))
        · next t1 w5 h5 =>
          obtain ⟨rfl, rfl⟩ := transactionRepository.Create_ok h5
          refine Or.inr (Or.inr (Or.inr (Or.inr ⟨user, wallet, hu, hw, ?_⟩)))
          rw [← hr]
          cases hrc : u.redisClient <;>
            simp [World.stamped, World.afterInvalidate, World.afterLookup, hrc]

end DepositPaths

section WithdrawPaths

variable {M : Type} [Sub M] [Zero M] [LE M] [LT M]
  [∀ a b : M, Decidable (a ≤ b)] [∀ a b : M, Decidable (a < b)]

/-- The exits of `Withdraw` for an amount that passes validation: a failed user read, a failed
wallet read, insufficient funds, a failed wallet update, a failed ledger append, or success;
each with the world it leaves. -/
theorem walletUsecase.Withdraw_paths (u : walletUsecase) (req : WithdrawRequest M) (w : World M)
    (hna : ¬ req.Amount ≤ 0) :
    (∃ err, u.Withdraw req w =
        (.error (if err.Is .ResourceNotFound then ErrUserNotFound
            else WrapError err "failed to get user"),
          w.emit (.userGetByID req.UserID) .error)) ∨
    (∃ user err, w.userOf req.UserID = some user ∧
      u.Withdraw req w =
        (.error (if err.Is .ResourceNotFound then ErrWalletNotFound
            else WrapError err "failed to get wallet"),
          (w.emit (.userGetByID req.UserID) .ok).emit (.walletGetByUserID user.ID) .error)) ∨
    (∃ user wallet, w.userOf req.UserID = some user ∧ w.walletOf user.ID = some wallet ∧
      wallet.Balance < req.Amount ∧
      u.Withdraw req w = (.error ErrInsufficientFunds, w.afterLookup req.UserID user)) ∨
    (∃ user wallet err, w.userOf req.UserID = some user ∧ w.walletOf user.ID = some wallet ∧
      ¬ wallet.Balance < req.Amount ∧
      u.Withdraw req w =
        (.error (WrapError err "failed to update wallet"),
          (w.afterLookup req.UserID user).failedUpdate
            { wallet with Balance := wallet.Balance - req.Amount, UpdatedAt := w.now })) ∨
    (∃ user wallet err, w.userOf req.UserID = some user ∧ w.walletOf user.ID = some wallet ∧
      ¬ wallet.Balance < req.Amount ∧
      u.Withdraw req w =
        (.error (WrapError err "failed to create transaction record"),
          (((w.afterLookup req.UserID user).afterUpdate
              { wallet with Balance := wallet.Balance - req.Amount, UpdatedAt := w.now }
            ).afterInvalidate u [balanceCacheKey req.UserID]).failedCreate
            { ID := 0, WalletID := wallet.ID, DestWalletID := none, Type_ := .Withdrawal,
              Amount := req.Amount, BalanceBefore := wallet.Balance,
              BalanceAfter := wallet.Balance - req.Amount, Description := req.Comment,
              TransactionTime := 0, CreatedAt := 0 })) ∨
    (∃ user wallet, w.userOf req.UserID = some user ∧ w.walletOf user.ID = some wallet ∧
      ¬ wallet.Balance < req.Amount ∧
      u.Withdraw req w =
        (.ok
          { ID := w.nextTransactionID, WalletID := wallet.ID, DestWalletID := none,
            Type_ := .Withdrawal, Amount := req.Amount, BalanceBefore := wallet.Balance,
            BalanceAfter := wallet.Balance - req.Amount, Description := req.Comment,
            TransactionTime := w.now, CreatedAt := w.now },
          (((w.afterLookup req.UserID user).afterUpdate
              { wallet with Balance := wallet.Balance - req.Amount, UpdatedAt := w.now }
            ).afterInvalidate u [balanceCacheKey req.UserID]).afterCreate
            { ID := 0, WalletID := wallet.ID, DestWalletID := none, Type_ := .Withdrawal,
              Amount := req.Amount, BalanceBefore := wallet.Balance,
              BalanceAfter := wallet.Balance - req.Amount, Description := req.Comment,
              TransactionTime := 0, CreatedAt := 0 })) := by
  generalize hr : u.Withdraw req w = r
  unfold walletUsecase.Withdraw at hr
  rw [if_neg hna] at hr
  split at hr
  · next err w1 h1 =>
    cases userRepository.GetByID_error h1
    exact Or.inl ⟨err, hr.symm⟩
  · next user w1 h1 =>
    obtain ⟨hu, rfl⟩ := userRepository.GetByID_ok h1
    split at hr
    · next err w2 h2 =>
      cases walletRepository.GetByUserID_error h2
      exact Or.inr (Or.inl ⟨user, err, hu, hr.symm⟩)
    · next wallet w2 h2 =>
      obtain ⟨hw, rfl⟩ := walletRepository.GetByUserID_ok h2
      by_cases hlt : wallet.Balance < req.Amount
      · simp only [Wallet.Withdraw, if_neg hna, if_pos hlt] at hr
        exact Or.inr (Or.inr (Or.inl ⟨user, wallet, hu, hw, hlt, hr.symm⟩))
      · simp only [Wallet.Withdraw, if_neg hna, if_neg hlt] at hr
        split at hr
        · next err w3 h3 =>
          cases walletRepository.Update_error h3
          exact Or.inr (Or.inr (Or.inr (Or.inl ⟨user, wallet, err, hu, hw, hlt, hr.symm⟩)))
        · next wallet2 w3 h3 =>
          obtain ⟨rfl, rfl⟩ := walletRepository.Update_ok h3
          split at hr
          · next err w5 h5 =>
            cases transactionRepository.Create_error h5
            exact Or.inr (Or.inr (Or.inr (Or.inr (Or.inl
              ⟨user, wallet, err, hu, hw, hlt, hr.symm⟩))))
          · next t1 w5 h5 =>
            obtain ⟨rfl, rfl⟩ := transactionRepository.Create_ok h5
            refine Or.inr (Or.inr (Or.inr (Or.inr (Or.inr ⟨user, wallet, hu, hw, hlt, ?_⟩))))
            rw [← hr]
            cases hrc : u.redisClient <;>
              simp [World.stamped, World.afterInvalidate, World.afterLookup, hrc]

end WithdrawPaths

section TransferPaths

variable {M : Type} [Add M] [Sub M] [Zero M] [LE M] [LT M]
  [∀ a b : M, Decidable (a ≤ b)] [∀ a b : M, Decidable (a < b)]

/-- The exits of the body of `Transfer` for an amount that passes validation: a failed read
(sender, receiver, sender wallet, receiver wallet), insufficient funds, a failed update of the
sender wallet, a failed update of the receiver wallet, a failed ledger append, or success;
each with the world it leaves. -/
theorem walletUsecase.transferLocked_paths (u : walletUsecase) (req : TransferRequest M)
    (w : World M) (hna : ¬ req.Amount ≤ 0) :
    (∃ err, u.transferLocked req w =
        (.error (if err.Is .ResourceNotFound then ErrUserNotFound
            else WrapError err "failed to get sender"),
          w.emit (.userGetByID req.SenderID) .error)) ∨
    (∃ sender err, w.userOf req.SenderID = some sender ∧
      u.transferLocked req w =
        (.error (if err.Is .ResourceNotFound then ErrUserNotFound
            else WrapError err "failed to get receiver"),
          (w.emit (.userGetByID req.SenderID) .ok).emit (.userGetByID req.ReceiverID) .error)) ∨
    (∃ sender receiver err, w.userOf req.SenderID = some sender ∧
      w.userOf req.ReceiverID = some receiver ∧
      u.transferLocked req w =
        (.error (if err.Is .ResourceNotFound then ErrWalletNotFound
            else WrapError err "failed to get sender wallet"),
          ((w.emit (.userGetByID req.SenderID) .ok).emit (.userGetByID req.ReceiverID) .ok).emit
            (.walletGetByUserID sender.ID) .error)) ∨
    (∃ sender receiver senderWallet err, w.userOf req.SenderID = some sender ∧
      w.userOf req.ReceiverID = some receiver ∧ w.walletOf sender.ID = some senderWallet ∧
      u.transferLocked req w =
        (.error (if err.Is .ResourceNotFound then ErrWalletNotFound
            else WrapError err "failed to get receiver wallet"),
          (((w.emit (.userGetByID req.SenderID) .ok).emit (.userGetByID req.ReceiverID) .ok).emit
            (.walletGetByUserID sender.ID) .ok).emit (.walletGetByUserID receiver.ID) .error)) ∨
    (∃ sender receiver senderWallet receiverWallet, w.userOf req.SenderID = some sender ∧
      w.userOf req.ReceiverID = some receiver ∧ w.walletOf sender.ID = some senderWallet ∧
      w.walletOf receiver.ID = some receiverWallet ∧
      senderWallet.Balance < req.Amount ∧
      u.transferLocked req w =
        (.error ErrInsufficientFunds,
          w.afterLookups req.SenderID req.ReceiverID sender receiver)) ∨
    (∃ sender receiver senderWallet receiverWallet err, w.userOf req.SenderID = some sender ∧
      w.userOf req.ReceiverID = some receiver ∧ w.walletOf sender.ID = some senderWallet ∧
      w.walletOf receiver.ID = some receiverWallet ∧
      ¬ senderWallet.Balance < req.Amount ∧
      u.transferLocked req w =
        (.error (WrapError err "failed to update sender wallet"),
          (w.afterLookups req.SenderID req.ReceiverID sender receiver).failedUpdate
            { senderWallet with
              Balance := senderWallet.Balance - req.Amount, UpdatedAt := w.now })) ∨
    (∃ sender receiver senderWallet receiverWallet err, w.userOf req.SenderID = some sender ∧
      w.userOf req.ReceiverID = some receiver ∧ w.walletOf sender.ID = some senderWallet ∧
      w.walletOf receiver.ID = some receiverWallet ∧
      ¬ senderWallet.Balance < req.Amount ∧
      u.transferLocked req w =
        (.error (WrapError err "failed to update receiver wallet"),
          ((w.afterLookups req.SenderID req.ReceiverID sender receiver).afterUpdate
            { senderWallet with
              Balance := senderWallet.Balance - req.Amount, UpdatedAt := w.now }).failedUpdate
            { receiverWallet with
              Balance := receiverWallet.Balance + req.Amount, UpdatedAt := w.now })) ∨
    (∃ sender receiver senderWallet receiverWallet err, w.userOf req.SenderID = some sender ∧
      w.userOf req.ReceiverID = some receiver ∧ w.walletOf sender.ID = some senderWallet ∧
      w.walletOf receiver.ID = some receiverWallet ∧
      ¬ senderWallet.Balance < req.Amount ∧
      u.transferLocked req w =
        (.error (WrapError err "failed to create transaction record"),
          ((((w.afterLookups req.SenderID req.ReceiverID sender receiver).afterUpdate
            { senderWallet with
              Balance := senderWallet.Balance - req.Amount, UpdatedAt := w.now }).afterUpdate
            { receiverWallet with
              Balance := receiverWallet.Balance + req.Amount, UpdatedAt := w.now }
            ).afterInvalidate u
              [balanceCacheKey req.SenderID, balanceCacheKey req.ReceiverID]).failedCreate
            { ID := 0, WalletID := senderWallet.ID, DestWalletID := some receiverWallet.ID,
              Type_ := .Transfer, Amount := req.Amount, BalanceBefore := senderWallet.Balance,
              BalanceAfter := senderWallet.Balance - req.Amount, Description := req.Comment,
              TransactionTime := 0, CreatedAt := 0 })) ∨
    (∃ sender receiver senderWallet receiverWallet, w.userOf req.SenderID = some sender ∧
      w.userOf req.ReceiverID = some receiver ∧ w.walletOf sender.ID = some senderWallet ∧
      w.walletOf receiver.ID = some receiverWallet ∧
      ¬ senderWallet.Balance < req.Amount ∧
      u.transferLocked req w =
        (.ok
          { ID := w.nextTransactionID, WalletID := senderWallet.ID,
            DestWalletID := some receiverWallet.ID, Type_ := .Transfer, Amount := req.Amount,
            BalanceBefore := senderWallet.Balance,
            BalanceAfter := senderWallet.Balance - req.Amount, Description := req.Comment,
            TransactionTime := w.now, CreatedAt := w.now },
          ((((w.afterLookups req.SenderID req.ReceiverID sender receiver).afterUpdate
            { senderWallet with
              Balance := senderWallet.Balance - req.Amount, UpdatedAt := w.now }).afterUpdate
            { receiverWallet with
              Balance := receiverWallet.Balance + req.Amount, UpdatedAt := w.now }
            ).afterInvalidate u
              [balanceCacheKey req.SenderID, balanceCacheKey req.ReceiverID]).afterCreate
            { ID := 0, WalletID := senderWallet.ID, DestWalletID := some receiverWallet.ID,
              Type_ := .Transfer, Amount := req.Amount, BalanceBefore := senderWallet.Balance,
              BalanceAfter := senderWallet.Balance - req.Amount, Description := req.Comment,
              TransactionTime := 0, CreatedAt := 0 })) := by
  generalize hr : u.transferLocked req w = r
  unfold walletUsecase.transferLocked at hr
  split at hr
  · next err w1 h1 =>
    cases userRepository.GetByID_error h1
    exact Or.inl ⟨err, hr.symm⟩
  · next sender w1 h1 =>
    obtain ⟨hs, rfl⟩ := userRepository.GetByID_ok h1
    split at hr
    · next err w2 h2 =>
      cases userRepository.GetByID_error h2
      exact Or.inr (Or.inl ⟨sender, err, hs, hr.symm⟩)
    · next receiver w2 h2 =>
      obtain ⟨hrv, rfl⟩ := userRepository.GetByID_ok h2
      split at hr
      · next err w3 h3 =>
        cases walletRepository.GetByUserID_error h3
        exact Or.inr (Or.inr (Or.inl ⟨sender, receiver, err, hs, hrv, hr.symm⟩))
      · next senderWallet w3 h3 =>
        obtain ⟨hsw, rfl⟩ := walletRepository.GetByUserID_ok h3
        split at hr
        · next err w4 h4 =>
          cases walletRepository.GetByUserID_error h4
          exact Or.inr (Or.inr (Or.inr (Or.inl
            ⟨sender, receiver, senderWallet, err, hs, hrv, hsw, hr.symm⟩)))
        · next receiverWallet w4 h4 =>
          obtain ⟨hrw, rfl⟩ := walletRepository.GetByUserID_ok h4
          by_cases hlt : senderWallet.Balance < req.Amount
          · simp only [Wallet.Withdraw, if_neg hna, if_pos hlt] at hr
            exact Or.inr (Or.inr (Or.inr (Or.inr (Or.inl
              ⟨sender, receiver, senderWallet, receiverWallet, hs, hrv, hsw, hrw, hlt,
                hr.symm⟩))))
          · simp only [Wallet.Withdraw, Wallet.Deposit, if_neg hna, if_neg hlt] at hr
            split at hr
            · next err w5 h5 =>
              cases walletRepository.Update_error h5
              exact Or.inr (Or.inr (Or.inr (Or.inr (Or.inr (Or.inl
                ⟨sender, receiver, senderWallet, receiverWallet, err, hs, hrv, hsw, hrw, hlt,
                  hr.symm⟩)))))
            · next senderWallet2 w5 h5 =>
              obtain ⟨rfl, rfl⟩ := walletRepository.Update_ok h5
              split at hr
              · next err w6 h6 =>
                cases walletRepository.Update_error h6
                exact Or.inr (Or.inr (Or.inr (Or.inr (Or.inr (Or.inr (Or.inl
                  ⟨sender, receiver, senderWallet, receiverWallet, err, hs, hrv, hsw, hrw, hlt,
                    hr.symm⟩))))))
              · next receiverWallet2 w6 h6 =>
                obtain ⟨rfl, rfl⟩ := walletRepository.Update_ok h6
                split at hr
                · next err w8 h8 =>
                  cases transactionRepository.Create_error h8
                  exact Or.inr (Or.inr (Or.inr (Or.inr (Or.inr (Or.inr (Or.inr (Or.inl
                    ⟨sender, receiver, senderWallet, receiverWallet, err, hs, hrv, hsw, hrw,
                      hlt, hr.symm⟩)))))))
                · next t1 w8 h8 =>
                  obtain ⟨rfl, rfl⟩ := transactionRepository.Create_ok h8
                  refine Or.inr (Or.inr (Or.inr (Or.inr (Or.inr (Or.inr (Or.inr (Or.inr
                    ⟨sender, receiver, senderWallet, receiverWallet, hs, hrv, hsw, hrw, hlt,
                      ?_⟩)))))))
                  rw [← hr]
                  cases hrc : u.redisClient <;>
                    simp [World.stamped, World.afterInvalidate, World.afterLookups, hrc]

end TransferPaths

section TransferLocks

variable {M : Type} [Add M] [Sub M] [Zero M] [LE M] [LT M]
  [∀ a b : M, Decidable (a ≤ b)] [∀ a b : M, Decidable (a < b)]

/-- Without a Redis client a valid `Transfer` is its body. -/
theorem walletUsecase.Transfer_noRedis (u : walletUsecase) (req : TransferRequest M)
    (w : World M) (hna : ¬ req.Amount ≤ 0) (hne : req.SenderID ≠ req.ReceiverID)
    (hu : u.redisClient = false) :
    u.Transfer req w = u.transferLocked req w := by
  unfold walletUsecase.Transfer
  simp [hna, hne, hu]

/-- With a Redis client a valid `Transfer` either fails to take the first lock, or takes it,
fails to take the second and releases the first, or takes both, runs its body and releases
both (second first). -/
theorem walletUsecase.Transfer_redis (u : walletUsecase) (req : TransferRequest M)
    (w : World M) (hna : ¬ req.Amount ≤ 0) (hne : req.SenderID ≠ req.ReceiverID)
    (hu : u.redisClient = true) :
    (∃ o, o ≠ Outcome.ok ∧
      u.Transfer req w =
        (.error ErrLockAcquisitionFailed, w.emit (.redisSetNX req.firstLockKey "1" 10) o)) ∨
    (∃ o, o ≠ Outcome.ok ∧ w.redis.lookup req.firstLockKey = none ∧
      u.Transfer req w =
        (.error ErrLockAcquisitionFailed,
          redisClient.Del [req.firstLockKey]
            ((w.afterSetNX req.firstLockKey "1" 10).emit
              (.redisSetNX req.secondLockKey "1" 10) o))) ∨
    (w.redis.lookup req.firstLockKey = none ∧
      (w.afterSetNX req.firstLockKey "1" 10).redis.lookup req.secondLockKey = none ∧
      u.Transfer req w =
        ((u.transferLocked req
            ((w.afterSetNX req.firstLockKey "1" 10).afterSetNX req.secondLockKey "1" 10)).1,
          redisClient.Del [req.firstLockKey]
            (redisClient.Del [req.secondLockKey]
              (u.transferLocked req
                ((w.afterSetNX req.firstLockKey "1" 10).afterSetNX
                  req.secondLockKey "1" 10)).2))) := by
  generalize hr : u.Transfer req w = r
  unfold walletUsecase.Transfer at hr
  rw [if_neg hna, if_neg hne, if_pos hu] at hr
  simp only [] at hr
  split at hr
  · next w1 h1 =>
    obtain ⟨hk1, rfl⟩ := redisClient.SetNX_granted h1
    split at hr
    · next w2 h2 =>
      obtain ⟨hk2, rfl⟩ := redisClient.SetNX_granted h2
      exact Or.inr (Or.inr ⟨hk1, hk2, hr.symm⟩)
    · next r2 w2 hno h2 =>
      rcases redisClient.SetNX_refused h2 hno with ⟨_, rfl⟩ | ⟨_, rfl⟩
      · exact Or.inr (Or.inl ⟨.declined, by decide, hk1, hr.symm⟩)
      · exact Or.inr (Or.inl ⟨.error, by decide, hk1, hr.symm⟩)
  · next r1 w1 hno h1 =>
    rcases redisClient.SetNX_refused h1 hno with ⟨_, rfl⟩ | ⟨_, rfl⟩
    · exact Or.inl ⟨.declined, by decide, hr.symm⟩
    · exact Or.inl ⟨.error, by decide, hr.symm⟩

end TransferLocks


section TransferLemmas

variable {M : Type}

/-- The body of `Transfer` only appends to the trace. -/
theorem walletUsecase.transferLocked_trace [Add M] [Sub M] [Zero M] [LE M] [LT M]
    [∀ a b : M, Decidable (a ≤ b)] [∀ a b : M, Decidable (a < b)]
    (u : walletUsecase) (req : TransferRequest M) (w : World M) (hna : ¬ req.Amount ≤ 0) :
    ∃ es, (u.transferLocked req w).2.trace = w.trace ++ es := by
  rcases walletUsecase.transferLocked_paths u req w hna with
    ⟨err, h⟩ | ⟨s, err, _, h⟩ | ⟨s, r, err, _, _, h⟩ | ⟨s, r, sw, err, _, _, _, h⟩ |
    ⟨s, r, sw, rw, _, _, _, _, _, h⟩ | ⟨s, r, sw, rw, err, _, _, _, _, _, h⟩ |
    ⟨s, r, sw, rw, err, _, _, _, _, _, h⟩ | ⟨s, r, sw, rw, err, _, _, _, _, _, h⟩ |
    ⟨s, r, sw, rw, _, _, _, _, _, h⟩ <;>
  · rw [h]
    simp only [World.emit_trace, World.afterLookups_trace, World.failedUpdate_trace,
      World.afterUpdate_trace, World.failedCreate_trace, World.afterCreate_trace,
      World.afterInvalidate_trace, List.append_assoc]
    exact ⟨_, rfl⟩

/-- The body of `Transfer` on two distinct wallets with sufficient funds, when its store calls
succeed: the entry returned, the two balances stored, the ledger. -/
theorem walletUsecase.transferLocked_moves [Preorder M] [Add M] [Sub M] [Zero M]
    [∀ a b : M, Decidable (a ≤ b)] [∀ a b : M, Decidable (a < b)]
    (u : walletUsecase) (req : TransferRequest M) (w : World M) (A B : Wallet M)
    (hA : w.walletOf req.SenderID = some A) (hB : w.walletOf req.ReceiverID = some B)
    (hids : A.ID ≠ B.ID) (hpos : 0 < req.Amount) (hle : req.Amount ≤ A.Balance)
    (hok : storeCallsSucceed ((u.transferLocked req w).2.issuedSince w) = true) :
    (u.transferLocked req w).1 = .ok
        { ID := w.nextTransactionID, WalletID := A.ID, DestWalletID := some B.ID,
          Type_ := .Transfer, Amount := req.Amount, BalanceBefore := A.Balance,
          BalanceAfter := A.Balance - req.Amount, Description := req.Comment,
          TransactionTime := w.now, CreatedAt := w.now } ∧
      (u.transferLocked req w).2.walletOf req.SenderID =
        some { A with Balance := A.Balance - req.Amount, UpdatedAt := w.now } ∧
      (u.transferLocked req w).2.walletOf req.ReceiverID =
        some { B with Balance := B.Balance + req.Amount, UpdatedAt := w.now } ∧
      (u.transferLocked req w).2.transactions = w.transactions ++
        [{ ID := w.nextTransactionID, WalletID := A.ID, DestWalletID := some B.ID,
           Type_ := .Transfer, Amount := req.Amount, BalanceBefore := A.Balance,
           BalanceAfter := A.Balance - req.Amount, Description := req.Comment,
           TransactionTime := w.now, CreatedAt := w.now }] := by
  have hna : ¬ req.Amount ≤ 0 := not_le_of_lt hpos
  have hnlt : ¬ A.Balance < req.Amount := not_lt_of_le hle
  rcases walletUsecase.transferLocked_paths u req w hna with
    ⟨err, h⟩ | ⟨s, err, _, h⟩ | ⟨s, r, err, _, _, h⟩ | ⟨s, r, sw, err, _, _, _, h⟩ |
    ⟨s, r, sw, rw, hs, hr, hsw, hrw, hlt, h⟩ | ⟨s, r, sw, rw, err, _, _, _, _, _, h⟩ |
    ⟨s, r, sw, rw, err, _, _, _, _, _, h⟩ | ⟨s, r, sw, rw, err, _, _, _, _, _, h⟩ |
    ⟨s, r, sw, rw, hs, hr, hsw, hrw, hlt, h⟩
  · rw [h] at hok
    simp [World.issuedSince, storeCallsSucceed, Call.isStore] at hok
  · rw [h] at hok
    simp [World.issuedSince, storeCallsSucceed, Call.isStore] at hok
  · rw [h] at hok
    simp [World.issuedSince, storeCallsSucceed, Call.isStore] at hok
  · rw [h] at hok
    simp [World.issuedSince, storeCallsSucceed, Call.isStore] at hok
  · rw [World.userOf_ID hs, hA] at hsw
    cases hsw
    exact absurd hlt hnlt
  · rw [h] at hok
    simp [World.issuedSince, storeCallsSucceed, Call.isStore] at hok
  · rw [h] at hok
    simp [World.issuedSince, storeCallsSucceed, Call.isStore] at hok
  · rw [h] at hok
    simp [World.issuedSince, storeCallsSucceed, Call.isStore, World.afterInvalidate_trace]
      at hok
  · rw [World.userOf_ID hs, hA] at hsw
    rw [World.userOf_ID hr, hB] at hrw
    cases hsw
    cases hrw
    rw [h]
    refine ⟨rfl, ?_, ?_, ?_⟩
    · simp [hA, hids]
    · simp [hB, hids, Ne.symm hids]
    · simp [World.stamped]

/-- The body of `Transfer` when the sender's funds do not cover the amount and its reads
succeed: the error, and the world, which only has the four reads added to the trace. -/
theorem walletUsecase.transferLocked_insufficient [Preorder M] [Add M] [Sub M] [Zero M]
    [∀ a b : M, Decidable (a ≤ b)] [∀ a b : M, Decidable (a < b)]
    (u : walletUsecase) (req : TransferRequest M) (w : World M) (A : Wallet M)
    (hA : w.walletOf req.SenderID = some A) (hpos : 0 < req.Amount)
    (hlt : A.Balance < req.Amount)
    (hok : storeCallsSucceed ((u.transferLocked req w).2.issuedSince w) = true) :
    ∃ sender receiver, u.transferLocked req w =
      (.error ErrInsufficientFunds,
        w.afterLookups req.SenderID req.ReceiverID sender receiver) := by
  have hna : ¬ req.Amount ≤ 0 := not_le_of_lt hpos
  rcases walletUsecase.transferLocked_paths u req w hna with
    ⟨err, h⟩ | ⟨s, err, _, h⟩ | ⟨s, r, err, _, _, h⟩ | ⟨s, r, sw, err, _, _, _, h⟩ |
    ⟨s, r, sw, rw, hs, hr, hsw, hrw, _, h⟩ | ⟨s, r, sw, rw, err, hs, _, hsw, _, hnlt, h⟩ |
    ⟨s, r, sw, rw, err, hs, _, hsw, _, hnlt, h⟩ | ⟨s, r, sw, rw, err, hs, _, hsw, _, hnlt, h⟩ |
    ⟨s, r, sw, rw, hs, hr, hsw, hrw, hnlt, h⟩
  · rw [h] at hok
    simp [World.issuedSince, storeCallsSucceed, Call.isStore] at hok
  · rw [h] at hok
    simp [World.issuedSince, storeCallsSucceed, Call.isStore] at hok
  · rw [h] at hok
    simp [World.issuedSince, storeCallsSucceed, Call.isStore] at hok
  · rw [h] at hok
    simp [World.issuedSince, storeCallsSucceed, Call.isStore] at hok
  · exact ⟨s, r, h⟩
  all_goals
    rw [World.userOf_ID hs, hA] at hsw
    cases hsw
    exact absurd hlt hnlt

/-- With both locks granted, if the store calls of a `Transfer` succeed then so do those of
its body. -/
theorem walletUsecase.Transfer_body_calls [Add M] [Sub M] [Zero M] [LE M] [LT M]
    [∀ a b : M, Decidable (a ≤ b)] [∀ a b : M, Decidable (a < b)]
    (u : walletUsecase) (req : TransferRequest M) (w : World M) (hna : ¬ req.Amount ≤ 0)
    (h : u.Transfer req w =
        ((u.transferLocked req
            ((w.afterSetNX req.firstLockKey "1" 10).afterSetNX req.secondLockKey "1" 10)).1,
          redisClient.Del [req.firstLockKey]
            (redisClient.Del [req.secondLockKey]
              (u.transferLocked req
                ((w.afterSetNX req.firstLockKey "1" 10).afterSetNX
                  req.secondLockKey "1" 10)).2)))
    (hok : storeCallsSucceed ((u.Transfer req w).2.issuedSince w) = true) :
    storeCallsSucceed ((u.transferLocked req
        ((w.afterSetNX req.firstLockKey "1" 10).afterSetNX req.secondLockKey "1" 10)
        ).2.issuedSince
        ((w.afterSetNX req.firstLockKey "1" 10).afterSetNX req.secondLockKey "1" 10))
        = true := by
  obtain ⟨es, hes⟩ := walletUsecase.transferLocked_trace u req
    ((w.afterSetNX req.firstLockKey "1" 10).afterSetNX req.secondLockKey "1" 10) hna
  rw [h] at hok
  unfold World.issuedSince
  rw [hes, List.drop_left]
  simp only [World.issuedSince, redisClient.Del_trace, hes, storeCallsSucceed,
    World.afterSetNX_trace, List.append_assoc, List.drop_left, List.all_append,
    Bool.and_eq_true] at hok ⊢
  exact hok.2.2.1

/-- A body of `Transfer` that returns an entry went through every step: the entry and the
state it leaves, for two wallets that are distinct rows. -/
theorem walletUsecase.transferLocked_ok [Add M] [Sub M] [Zero M] [LE M] [LT M]
    [∀ a b : M, Decidable (a ≤ b)] [∀ a b : M, Decidable (a < b)]
    (u : walletUsecase) (req : TransferRequest M) (w : World M) (A B : Wallet M)
    (hA : w.walletOf req.SenderID = some A) (hB : w.walletOf req.ReceiverID = some B)
    (hids : A.ID ≠ B.ID) (hna : ¬ req.Amount ≤ 0) (t : Transaction M)
    (hs : (u.transferLocked req w).1 = .ok t) :
    (u.transferLocked req w).2.walletOf req.SenderID =
        some { A with Balance := A.Balance - req.Amount, UpdatedAt := w.now } ∧
      (u.transferLocked req w).2.walletOf req.ReceiverID =
        some { B with Balance := B.Balance + req.Amount, UpdatedAt := w.now } ∧
      (u.transferLocked req w).2.transactions = w.transactions ++ [t] := by
  rcases walletUsecase.transferLocked_paths u req w hna with
    ⟨err, h⟩ | ⟨s, err, _, h⟩ | ⟨s, r, err, _, _, h⟩ | ⟨s, r, sw, err, _, _, _, h⟩ |
    ⟨s, r, sw, rw, _, _, _, _, _, h⟩ | ⟨s, r, sw, rw, err, _, _, _, _, _, h⟩ |
    ⟨s, r, sw, rw, err, _, _, _, _, _, h⟩ | ⟨s, r, sw, rw, err, _, _, _, _, _, h⟩ |
    ⟨s, r, sw, rw, hs', hr, hsw, hrw, _, h⟩
  all_goals try (rw [h] at hs; cases hs; done)
  rw [World.userOf_ID hs', hA] at hsw
  rw [World.userOf_ID hr, hB] at hrw
  cases hsw
  cases hrw
  rw [h] at hs ⊢
  cases hs
  refine ⟨?_, ?_, ?_⟩
  · simp [hA, hids]
  · simp [hB, hids, Ne.symm hids]
  · simp [World.stamped]

/-- A `Transfer` that returns an entry left the sender's balance minus the amount and the
receiver's balance plus the amount stored, and appended the entry, for two wallets that are
distinct rows. -/
theorem walletUsecase.Transfer_ok [Add M] [Sub M] [Zero M] [LE M] [LT M]
    [∀ a b : M, Decidable (a ≤ b)] [∀ a b : M, Decidable (a < b)]
    (u : walletUsecase) (req : TransferRequest M) (w : World M) (A B : Wallet M)
    (hA : w.walletOf req.SenderID = some A) (hB : w.walletOf req.ReceiverID = some B)
    (hids : A.ID ≠ B.ID) (t : Transaction M) (hs : (u.Transfer req w).1 = .ok t) :
    (u.Transfer req w).2.walletOf req.SenderID =
        some { A with Balance := A.Balance - req.Amount, UpdatedAt := w.now } ∧
      (u.Transfer req w).2.walletOf req.ReceiverID =
        some { B with Balance := B.Balance + req.Amount, UpdatedAt := w.now } ∧
      (u.Transfer req w).2.transactions = w.transactions ++ [t] := by
  by_cases hna : req.Amount ≤ 0
  · unfold walletUsecase.Transfer at hs
    rw [if_pos hna] at hs
    cases hs
  by_cases hne : req.SenderID = req.ReceiverID
  · unfold walletUsecase.Transfer at hs
    rw [if_neg hna, if_pos hne] at hs
    cases hs
  cases hrc : u.redisClient with
  | false =>
    rw [walletUsecase.Transfer_noRedis u req w hna hne hrc] at hs ⊢
    exact walletUsecase.transferLocked_ok u req w A B hA hB hids hna t hs
  | true =>
    rcases walletUsecase.Transfer_redis u req w hna hne hrc with
      ⟨o, _, h⟩ | ⟨o, _, _, h⟩ | ⟨_, _, h⟩
    · rw [h] at hs
      cases hs
    · rw [h] at hs
      cases hs
    · rw [h] at hs ⊢
      have hbody := walletUsecase.transferLocked_ok u req
        ((w.afterSetNX req.firstLockKey "1" 10).afterSetNX req.secondLockKey "1" 10) A B
        (by simpa using hA) (by simpa using hB) hids hna t hs
      simpa using hbody

/-- The body of `Transfer` when the sender's stored funds do not cover the amount, whatever
the stores do: no wallet update and no ledger append is issued, and the wallet rows and the
ledger stay as they were. -/
theorem walletUsecase.transferLocked_short [Add M] [Sub M] [Zero M] [LE M] [LT M]
    [∀ a b : M, Decidable (a ≤ b)] [∀ a b : M, Decidable (a < b)]
    (u : walletUsecase) (req : TransferRequest M) (w : World M) (A : Wallet M)
    (hA : w.walletOf req.SenderID = some A) (hna : ¬ req.Amount ≤ 0)
    (hlt : A.Balance < req.Amount) :
    (∀ e ∈ (u.transferLocked req w).2.issuedSince w, e.call.isWrite = false) ∧
      (u.transferLocked req w).2.wallets = w.wallets ∧
      (u.transferLocked req w).2.transactions = w.transactions := by
  rcases walletUsecase.transferLocked_paths u req w hna with
    ⟨err, h⟩ | ⟨s, err, _, h⟩ | ⟨s, r, err, _, _, h⟩ | ⟨s, r, sw, err, _, _, _, h⟩ |
    ⟨s, r, sw, rw, hs, hr, hsw, hrw, _, h⟩ | ⟨s, r, sw, rw, err, hs, _, hsw, _, hnlt, h⟩ |
    ⟨s, r, sw, rw, err, hs, _, hsw, _, hnlt, h⟩ | ⟨s, r, sw, rw, err, hs, _, hsw, _, hnlt, h⟩ |
    ⟨s, r, sw, rw, hs, hr, hsw, hrw, hnlt, h⟩
  · rw [h]
    exact ⟨by simp [World.issuedSince, Call.isWrite], rfl, rfl⟩
  · rw [h]
    exact ⟨by simp [World.issuedSince, Call.isWrite], rfl, rfl⟩
  · rw [h]
    exact ⟨by simp [World.issuedSince, Call.isWrite], rfl, rfl⟩
  · rw [h]
    exact ⟨by simp [World.issuedSince, Call.isWrite], rfl, rfl⟩
  · rw [h]
    exact ⟨by simp [World.issuedSince, Call.isWrite], rfl, rfl⟩
  all_goals
    rw [World.userOf_ID hs, hA] at hsw
    cases hsw
    exact absurd hlt hnlt

/-- Every call the body of `Transfer` issues is a store call or the invalidation of the two
cached balances. -/
theorem walletUsecase.transferLocked_events [Add M] [Sub M] [Zero M] [LE M] [LT M]
    [∀ a b : M, Decidable (a ≤ b)] [∀ a b : M, Decidable (a < b)]
    (u : walletUsecase) (req : TransferRequest M) (w : World M) (hna : ¬ req.Amount ≤ 0) :
    ∀ e ∈ (u.transferLocked req w).2.issuedSince w,
      e.call.isStore = true ∨
      e.call = .redisDel [balanceCacheKey req.SenderID, balanceCacheKey req.ReceiverID] := by
  rcases walletUsecase.transferLocked_paths u req w hna with
    ⟨err, h⟩ | ⟨s, err, _, h⟩ | ⟨s, r, err, _, _, h⟩ | ⟨s, r, sw, err, _, _, _, h⟩ |
    ⟨s, r, sw, rw, _, _, _, _, _, h⟩ | ⟨s, r, sw, rw, err, _, _, _, _, _, h⟩ |
    ⟨s, r, sw, rw, err, _, _, _, _, _, h⟩ | ⟨s, r, sw, rw, err, _, _, _, _, _, h⟩ |
    ⟨s, r, sw, rw, _, _, _, _, _, h⟩ <;>
  · rw [h]
    simp only [World.issuedSince, World.emit_trace, World.afterLookups_trace,
      World.failedUpdate_trace, World.afterUpdate_trace, World.failedCreate_trace,
      World.afterCreate_trace, World.afterInvalidate_trace, List.append_assoc,
      List.drop_left]
    cases hrc : u.redisClient <;> simp [Call.isStore]

/-- The calls a valid `Transfer` issues when there is a Redis client: one refused lock
request; or a granted and a refused lock request and the release of the first lock; or two
granted lock requests, the calls of the body, and the release of the second and then of the
first lock. -/
theorem walletUsecase.Transfer_issued [Add M] [Sub M] [Zero M] [LE M] [LT M]
    [∀ a b : M, Decidable (a ≤ b)] [∀ a b : M, Decidable (a < b)]
    (u : walletUsecase) (req : TransferRequest M) (w : World M) (hna : ¬ req.Amount ≤ 0)
    (hne : req.SenderID ≠ req.ReceiverID) (hu : u.redisClient = true) :
    (∃ o, o ≠ Outcome.ok ∧ (u.Transfer req w).1 = .error ErrLockAcquisitionFailed ∧
      (u.Transfer req w).2.issuedSince w = [⟨.redisSetNX req.firstLockKey "1" 10, o⟩]) ∨
    (∃ o o1, o ≠ Outcome.ok ∧ (u.Transfer req w).1 = .error ErrLockAcquisitionFailed ∧
      (u.Transfer req w).2.issuedSince w =
        [⟨.redisSetNX req.firstLockKey "1" 10, .ok⟩, ⟨.redisSetNX req.secondLockKey "1" 10, o⟩,
          ⟨.redisDel [req.firstLockKey], o1⟩]) ∨
    (∃ es o2 o1,
      (∀ e ∈ es, e.call.isStore = true ∨
        e.call = .redisDel [balanceCacheKey req.SenderID, balanceCacheKey req.ReceiverID]) ∧
      (u.Transfer req w).2.issuedSince w =
        [⟨.redisSetNX req.firstLockKey "1" 10, .ok⟩, ⟨.redisSetNX req.secondLockKey "1" 10, .ok⟩]
          ++ es ++ [⟨.redisDel [req.secondLockKey], o2⟩, ⟨.redisDel [req.firstLockKey], o1⟩]) := by
  rcases walletUsecase.Transfer_redis u req w hna hne hu with
    ⟨o, ho, h⟩ | ⟨o, ho, _, h⟩ | ⟨_, _, h⟩
  · have hi : (u.Transfer req w).2.issuedSince w =
        [⟨.redisSetNX req.firstLockKey "1" 10, o⟩] := by
      rw [h]
      simp only [World.issuedSince, World.emit_trace, List.drop_left]
    exact Or.inl ⟨o, ho, by rw [h], hi⟩
  · have hi : ∃ o1, (u.Transfer req w).2.issuedSince w =
        [⟨.redisSetNX req.firstLockKey "1" 10, .ok⟩, ⟨.redisSetNX req.secondLockKey "1" 10, o⟩,
          ⟨.redisDel [req.firstLockKey], o1⟩] := by
      rw [h]
      simp only [World.issuedSince, redisClient.Del_trace, World.emit_trace,
        World.afterSetNX_trace, List.append_assoc, List.drop_left]
      exact ⟨_, rfl⟩
    obtain ⟨o1, hi⟩ := hi
    exact Or.inr (Or.inl ⟨o, o1, ho, by rw [h], hi⟩)
  · obtain ⟨es, hes⟩ := walletUsecase.transferLocked_trace u req
      ((w.afterSetNX req.firstLockKey "1" 10).afterSetNX req.secondLockKey "1" 10) hna
    have hev := walletUsecase.transferLocked_events u req
      ((w.afterSetNX req.firstLockKey "1" 10).afterSetNX req.secondLockKey "1" 10) hna
    unfold World.issuedSince at hev
    rw [hes, List.drop_left] at hev
    have hi : ∃ o2 o1, (u.Transfer req w).2.issuedSince w =
        [⟨.redisSetNX req.firstLockKey "1" 10, .ok⟩, ⟨.redisSetNX req.secondLockKey "1" 10, .ok⟩]
          ++ es ++ [⟨.redisDel [req.secondLockKey], o2⟩, ⟨.redisDel [req.firstLockKey], o1⟩] := by
      rw [h]
      simp only [World.issuedSince, redisClient.Del_trace, hes, World.afterSetNX_trace,
        List.append_assoc, List.drop_left]
      exact ⟨_, _, rfl⟩
    obtain ⟨o2, o1, hi⟩ := hi
    exact Or.inr (Or.inr ⟨es, o2, o1, hev, hi⟩)

/-- A cached-balance key is never a lock name: the two prefixes differ in the first
character. -/
theorem balanceCacheKey_ne_walletLockKey (a b : Int) : balanceCacheKey a ≠ walletLockKey b := by
  intro h
  have h2 := congrArg (fun s => s.data.head?) h
  simp [balanceCacheKey, walletLockKey, String.data_append] at h2

/-- Calls that are store calls or cache invalidations ask for no lock. -/
theorem lockAttempts_eq_nil (es : List (Event M)) (keys : List String)
    (h : ∀ e ∈ es, e.call.isStore = true ∨ e.call = .redisDel keys) : lockAttempts es = [] := by
  unfold lockAttempts
  rw [List.filterMap_eq_nil_iff]
  intro e he
  rcases h e he with h1 | h1
  · unfold Event.lockName?
    revert h1
    cases e.call <;> simp [Call.isStore]
  · unfold Event.lockName?
    rw [h1]

/-- The first lock name is that of the smaller id, the second that of the larger. -/
theorem TransferRequest.lockKeys_eq (req : TransferRequest M) :
    req.firstLockKey = walletLockKey (min req.SenderID req.ReceiverID) ∧
      req.secondLockKey = walletLockKey (max req.SenderID req.ReceiverID) := by
  unfold TransferRequest.firstLockKey TransferRequest.secondLockKey
  by_cases h : req.SenderID < req.ReceiverID
  · rw [if_pos h, if_pos h, min_eq_left (le_of_lt h), max_eq_right (le_of_lt h)]
    exact ⟨rfl, rfl⟩
  · rw [if_neg h, if_neg h, min_eq_right (not_lt.mp h), max_eq_left (not_lt.mp h)]
    exact ⟨rfl, rfl⟩

/-- The lock names a valid `Transfer` asks for when there is a Redis client: the first, or
the first and then the second. -/
theorem walletUsecase.Transfer_lockAttempts [Add M] [Sub M] [Zero M] [LE M] [LT M]
    [∀ a b : M, Decidable (a ≤ b)] [∀ a b : M, Decidable (a < b)]
    (u : walletUsecase) (req : TransferRequest M) (w : World M) (hna : ¬ req.Amount ≤ 0)
    (hne : req.SenderID ≠ req.ReceiverID) (hu : u.redisClient = true) :
    lockAttempts ((u.Transfer req w).2.issuedSince w) = [req.firstLockKey] ∨
      lockAttempts ((u.Transfer req w).2.issuedSince w) =
        [req.firstLockKey, req.secondLockKey] := by
  rcases walletUsecase.Transfer_issued u req w hna hne hu with
    ⟨o, _, _, h⟩ | ⟨o, o1, _, _, h⟩ | ⟨es, o2, o1, hes, h⟩
  · rw [h]
    exact Or.inl rfl
  · rw [h]
    exact Or.inr rfl
  · rw [h]
    right
    have hnil := lockAttempts_eq_nil es _ hes
    unfold lockAttempts at hnil ⊢
    rw [List.filterMap_append, List.filterMap_append, hnil]
    rfl

/-- The calls of any `Transfer`, valid or not, with or without a Redis client: calls of the
body only (none for a rejected request), or one of the three shapes of `Transfer_issued`. -/
theorem walletUsecase.Transfer_shapes [Add M] [Sub M] [Zero M] [LE M] [LT M]
    [∀ a b : M, Decidable (a ≤ b)] [∀ a b : M, Decidable (a < b)]
    (u : walletUsecase) (req : TransferRequest M) (w : World M) :
    (∃ es, (∀ e ∈ es, e.call.isStore = true ∨
        e.call = .redisDel [balanceCacheKey req.SenderID, balanceCacheKey req.ReceiverID]) ∧
      (u.Transfer req w).2.issuedSince w = es) ∨
    (∃ o, o ≠ Outcome.ok ∧
      (u.Transfer req w).2.issuedSince w = [⟨.redisSetNX req.firstLockKey "1" 10, o⟩]) ∨
    (∃ o o1, o ≠ Outcome.ok ∧
      (u.Transfer req w).2.issuedSince w =
        [⟨.redisSetNX req.firstLockKey "1" 10, .ok⟩, ⟨.redisSetNX req.secondLockKey "1" 10, o⟩,
          ⟨.redisDel [req.firstLockKey], o1⟩]) ∨
    (∃ es o2 o1,
      (∀ e ∈ es, e.call.isStore = true ∨
        e.call = .redisDel [balanceCacheKey req.SenderID, balanceCacheKey req.ReceiverID]) ∧
      (u.Transfer req w).2.issuedSince w =
        [⟨.redisSetNX req.firstLockKey "1" 10, .ok⟩, ⟨.redisSetNX req.secondLockKey "1" 10, .ok⟩]
          ++ es ++ [⟨.redisDel [req.secondLockKey], o2⟩, ⟨.redisDel [req.firstLockKey], o1⟩]) := by
  by_cases hna : req.Amount ≤ 0
  · refine Or.inl ⟨[], by simp, ?_⟩
    unfold walletUsecase.Transfer
    rw [if_pos hna]
    simp [World.issuedSince]
  by_cases hne : req.SenderID = req.ReceiverID
  · refine Or.inl ⟨[], by simp, ?_⟩
    unfold walletUsecase.Transfer
    rw [if_neg hna, if_pos hne]
    simp [World.issuedSince]
  cases hu : u.redisClient with
  | false =>
    refine Or.inl ⟨_, ?_, rfl⟩
    rw [walletUsecase.Transfer_noRedis u req w hna hne hu]
    exact walletUsecase.transferLocked_events u req w hna
  | true =>
    rcases walletUsecase.Transfer_issued u req w hna hne hu with
      ⟨o, ho, _, h⟩ | ⟨o, o1, ho, _, h⟩ | ⟨es, o2, o1, hes, h⟩
    · exact Or.inr (Or.inl ⟨o, ho, h⟩)
    · exact Or.inr (Or.inr (Or.inl ⟨o, o1, ho, h⟩))
    · exact Or.inr (Or.inr (Or.inr ⟨es, o2, o1, hes, h⟩))

end TransferLemmas

/-! ## Lemmas on the cache and on `GetBalance` -/

section BalanceLemmas

variable {M : Type}

/-- A cache read appends its one event and changes nothing else; it returns bytes exactly
when the event is `ok`, and these are the stored bytes. -/
theorem redisClient.Get_cases (key : String) (w : World M) :
    (∃ data, w.redis.lookup key = some data ∧
      redisClient.Get key w = (.ok data, w.emit (.redisGet key) .ok)) ∨
    (∃ err o, o ≠ Outcome.ok ∧
      redisClient.Get key w = (.error err, w.emit (.redisGet key) o)) := by
  unfold redisClient.Get
  split
  · exact Or.inr ⟨_, .error, by simp, rfl⟩
  · split
    · exact Or.inr ⟨_, .declined, by simp, rfl⟩
    · next data h => exact Or.inl ⟨data, h, rfl⟩

/-- A cache write appends its one event; when it succeeds the key holds the value. -/
theorem redisClient.Set_cases (key value : String) (seconds : Nat) (w : World M) :
    redisClient.Set key value seconds w = w.emit (.redisSet key value seconds) .error ∨
    redisClient.Set key value seconds w =
      (w.setRedis ((key, value) :: w.redis.filter (fun kv => !(kv.1 == key)))).emit
        (.redisSet key value seconds) .ok := by
  unfold redisClient.Set
  split
  · exact Or.inl rfl
  · exact Or.inr rfl

/-- The exits of the store part of `GetBalance`: a failed user read, a failed wallet read, or
the stored wallet, after which the cache is written when there is a Redis client and the wallet
serializes. -/
theorem walletUsecase.getBalanceFromStore_paths (codec : JSONCodec M) (u : walletUsecase)
    (userID : Int) (w : World M) :
    (∃ err, u.getBalanceFromStore codec userID w =
        (.error err, w.emit (.userGetByID userID) .error)) ∨
    (∃ user err, w.userOf userID = some user ∧
      u.getBalanceFromStore codec userID w =
        (.error err,
          (w.emit (.userGetByID userID) .ok).emit (.walletGetByUserID user.ID) .error)) ∨
    (∃ user wallet, w.userOf userID = some user ∧ w.walletOf user.ID = some wallet ∧
      (u.redisClient = false ∨ ∃ err, codec.Marshal wallet = .error err) ∧
      u.getBalanceFromStore codec userID w = (.ok wallet, w.afterLookup userID user)) ∨
    (∃ user wallet walletData, w.userOf userID = some user ∧
      w.walletOf user.ID = some wallet ∧
      u.redisClient = true ∧ codec.Marshal wallet = .ok walletData ∧
      u.getBalanceFromStore codec userID w =
        (.ok wallet,
          redisClient.Set (balanceCacheKey userID) walletData balanceCacheTTL
            (w.afterLookup userID user))) := by
  generalize hr : u.getBalanceFromStore codec userID w = r
  unfold walletUsecase.getBalanceFromStore at hr
  split at hr
  · next err w1 h1 =>
    cases userRepository.GetByID_error h1
    exact Or.inl ⟨_, hr.symm⟩
  · next user w1 h1 =>
    obtain ⟨hu, rfl⟩ := userRepository.GetByID_ok h1
    split at hr
    · next err w2 h2 =>
      cases walletRepository.GetByUserID_error h2
      exact Or.inr (Or.inl ⟨user, _, hu, hr.symm⟩)
    · next wallet w2 h2 =>
      obtain ⟨hw, rfl⟩ := walletRepository.GetByUserID_ok h2
      cases hrc : u.redisClient with
      | false =>
        refine Or.inr (Or.inr (Or.inl ⟨user, wallet, hu, hw, Or.inl rfl, ?_⟩))
        rw [← hr]
        simp [hrc, World.afterLookup]
      | true =>
        cases hm : codec.Marshal wallet with
        | error err =>
          refine Or.inr (Or.inr (Or.inl ⟨user, wallet, hu, hw, Or.inr ⟨err, hm⟩, ?_⟩))
          rw [← hr]
          simp [hrc, hm, World.afterLookup]
        | ok walletData =>
          refine Or.inr (Or.inr (Or.inr ⟨user, wallet, walletData, hu, hw, rfl, hm, ?_⟩))
          rw [← hr]
          simp [hrc, hm, World.afterLookup]

/-- The result of the store part of `GetBalance` is that of an engine without a Redis
client. -/
theorem walletUsecase.getBalanceFromStore_result (codec : JSONCodec M) (u : walletUsecase)
    (userID : Int) (w : World M) :
    (u.getBalanceFromStore codec userID w).1 =
      ((walletUsecase.mk false).GetBalance codec userID w).1 := by
  unfold walletUsecase.GetBalance
  rw [if_neg (by simp)]
  unfold walletUsecase.getBalanceFromStore
  split
  · rfl
  · split <;> rfl

/-- The two ways of `GetBalance`: a cache hit that deserializes, returned at once; or the
store part, run from the world `w1` the cache read left: without a Redis client `w` itself,
otherwise after a read that failed, missed or returned bytes that do not deserialize. -/
theorem walletUsecase.GetBalance_paths (codec : JSONCodec M) (u : walletUsecase)
    (userID : Int) (w : World M) :
    (∃ data wallet, u.redisClient = true ∧
      redisClient.Get (balanceCacheKey userID) w =
        (.ok data, w.emit (.redisGet (balanceCacheKey userID)) .ok) ∧
      w.redis.lookup (balanceCacheKey userID) = some data ∧
      codec.Unmarshal data = .ok wallet ∧
      u.GetBalance codec userID w =
        (.ok wallet, w.emit (.redisGet (balanceCacheKey userID)) .ok)) ∨
    (u.redisClient = false ∧ u.GetBalance codec userID w = u.getBalanceFromStore codec userID w) ∨
    (∃ o, u.redisClient = true ∧
      (redisClient.Get (balanceCacheKey userID) w).2 =
        w.emit (.redisGet (balanceCacheKey userID)) o ∧
      (∀ data wallet, (redisClient.Get (balanceCacheKey userID) w).1 = .ok data →
        codec.Unmarshal data ≠ .ok wallet) ∧
      u.GetBalance codec userID w =
        u.getBalanceFromStore codec userID (w.emit (.redisGet (balanceCacheKey userID)) o)) := by
  cases hrc : u.redisClient with
  | false =>
    refine Or.inr (Or.inl ⟨rfl, ?_⟩)
    unfold walletUsecase.GetBalance
    simp [hrc]
  | true =>
    rcases redisClient.Get_cases (balanceCacheKey userID) w with
      ⟨data, hl, hg⟩ | ⟨err, o, ho, hg⟩
    · cases hun : codec.Unmarshal data with
      | ok wallet =>
        refine Or.inl ⟨data, wallet, rfl, hg, hl, hun, ?_⟩
        unfold walletUsecase.GetBalance
        rw [if_pos hrc, hg]
        simp only [hun]
      | error err =>
        refine Or.inr (Or.inr ⟨.ok, rfl, by rw [hg], ?_, ?_⟩)
        · intro data1 wallet h1 h2
          rw [hg] at h1
          cases h1
          rw [hun] at h2
          cases h2
        · unfold walletUsecase.GetBalance
          rw [if_pos hrc, hg]
          simp only [hun]
    · refine Or.inr (Or.inr ⟨o, rfl, by rw [hg], ?_, ?_⟩)
      · intro data1 wallet h1
        rw [hg] at h1
        cases h1
      · unfold walletUsecase.GetBalance
        rw [if_pos hrc, hg]

/-- The calls of the store part of `GetBalance`: the store reads and then at most one cache
write; when both reads succeed the stored wallet is returned. -/
theorem walletUsecase.getBalanceFromStore_issued (codec : JSONCodec M) (u : walletUsecase)
    (userID : Int) (w : World M) :
    (∃ err, (u.getBalanceFromStore codec userID w).1 = .error err ∧
      (u.getBalanceFromStore codec userID w).2.redis = w.redis ∧
      ((u.getBalanceFromStore codec userID w).2.trace = w.trace ++ [⟨.userGetByID userID, .error⟩] ∨
        ∃ user, w.userOf userID = some user ∧
          (u.getBalanceFromStore codec userID w).2.trace =
            w.trace ++ [⟨.userGetByID userID, .ok⟩, ⟨.walletGetByUserID user.ID, .error⟩])) ∨
    (∃ user wallet, w.userOf userID = some user ∧ w.walletOf user.ID = some wallet ∧
      (u.getBalanceFromStore codec userID w).1 = .ok wallet ∧
      (((u.redisClient = false ∨ ∃ err, codec.Marshal wallet = .error err) ∧
          (u.getBalanceFromStore codec userID w).2.redis = w.redis ∧
          (u.getBalanceFromStore codec userID w).2.trace =
            w.trace ++ [⟨.userGetByID userID, .ok⟩, ⟨.walletGetByUserID user.ID, .ok⟩]) ∨
        (∃ walletData o, u.redisClient = true ∧ codec.Marshal wallet = .ok walletData ∧
          (o = Outcome.ok →
            (u.getBalanceFromStore codec userID w).2.redis.lookup (balanceCacheKey userID) =
              some walletData) ∧
          (u.getBalanceFromStore codec userID w).2.trace =
            w.trace ++ [⟨.userGetByID userID, .ok⟩, ⟨.walletGetByUserID user.ID, .ok⟩,
              ⟨.redisSet (balanceCacheKey userID) walletData balanceCacheTTL, o⟩]))) := by
  rcases walletUsecase.getBalanceFromStore_paths codec u userID w with
    ⟨err, h⟩ | ⟨user, err, hu, h⟩ | ⟨user, wallet, hu, hw, hc, h⟩ |
    ⟨user, wallet, walletData, hu, hw, hrc, hm, h⟩
  · rw [h]
    exact Or.inl ⟨err, rfl, rfl, Or.inl rfl⟩
  · rw [h]
    exact Or.inl ⟨err, rfl, rfl, Or.inr ⟨user, hu, by simp⟩⟩
  · rw [h]
    exact Or.inr ⟨user, wallet, hu, hw, rfl, Or.inl ⟨hc, by simp, by simp [World.afterLookup]⟩⟩
  · rw [h]
    refine Or.inr ⟨user, wallet, hu, hw, rfl, Or.inr ?_⟩
    rcases redisClient.Set_cases (balanceCacheKey userID) walletData balanceCacheTTL
      (w.afterLookup userID user) with hs | hs
    · rw [hs]
      exact ⟨walletData, .error, hrc, hm, by simp, by simp [World.afterLookup]⟩
    · rw [hs]
      exact ⟨walletData, .ok, hrc, hm, by simp [World.setRedis, List.lookup],
        by simp [World.afterLookup, World.setRedis]⟩

/-- When every store call of the store part of `GetBalance` succeeds, run after some calls `es`
that left the store as it was, the result is the stored wallet of the user. -/
theorem walletUsecase.getBalanceFromStore_succeeds (codec : JSONCodec M) (u : walletUsecase)
    (userID : Int) (w w1 : World M) (es : List (Event M)) (ht : w1.trace = w.trace ++ es)
    (hus : w1.users = w.users) (hws : w1.wallets = w.wallets)
    (hs : storeCallsSucceed ((u.getBalanceFromStore codec userID w1).2.issuedSince w) = true) :
    ∃ user wallet, w.userOf userID = some user ∧ w.walletOf user.ID = some wallet ∧
      (u.getBalanceFromStore codec userID w1).1 = .ok wallet := by
  have hu1 : ∀ id, w1.userOf id = w.userOf id := by
    intro id
    unfold World.userOf
    rw [hus]
  have hw1 : ∀ id, w1.walletOf id = w.walletOf id := by
    intro id
    unfold World.walletOf
    rw [hws]
  unfold World.issuedSince at hs
  rcases walletUsecase.getBalanceFromStore_issued codec u userID w1 with
    ⟨err, _, _, h | ⟨user, _, h⟩⟩ | ⟨user, wallet, hu, hw, hr, _⟩
  · rw [h, ht, List.append_assoc, List.drop_left] at hs
    simp [storeCallsSucceed, Call.isStore] at hs
  · rw [h, ht, List.append_assoc, List.drop_left] at hs
    simp [storeCallsSucceed, Call.isStore] at hs
  · exact ⟨user, wallet, (hu1 _) ▸ hu, (hw1 _) ▸ hw, hr⟩

/-- A cache read that is not failed and finds bytes that deserialize is returned. -/
theorem walletUsecase.GetBalance_hit (codec : JSONCodec M) (u : walletUsecase) (userID : Int)
    (w : World M) (data : String) (cached : Wallet M) (hu : u.redisClient = true)
    (hf : w.nextFault = none) (hl : w.redis.lookup (balanceCacheKey userID) = some data)
    (hun : codec.Unmarshal data = .ok cached) :
    (u.GetBalance codec userID w).1 = .ok cached := by
  unfold walletUsecase.GetBalance redisClient.Get
  rw [if_pos hu]
  simp only [hf, hl, hun]

end BalanceLemmas

/-! ## Lemmas on `GetTransactionHistory` -/

section HistoryLemmas

variable {M : Type}

theorem transactionRepository.GetByWalletID_error {id limit offset : Int} {w w1 : World M}
    {err : Err} (h : transactionRepository.GetByWalletID id limit offset w = (.error err, w1)) :
    w1 = w.emit (.transactionGetByWalletID id limit offset) .error := by
  unfold transactionRepository.GetByWalletID at h
  split at h
  · cases h; rfl
  · split at h
    · cases h; rfl
    · cases h

theorem transactionRepository.GetByWalletID_ok {id limit offset : Int} {w w1 : World M}
    {transactions : List (Transaction M)}
    (h : transactionRepository.GetByWalletID id limit offset w = (.ok transactions, w1)) :
    transactions = ((w.transactionsOf id).drop offset.toNat).take limit.toNat ∧
      w1 = w.emit (.transactionGetByWalletID id limit offset) .ok := by
  unfold transactionRepository.GetByWalletID at h
  split at h
  · cases h
  · split at h
    · cases h
    · cases h; exact ⟨rfl, rfl⟩

theorem transactionRepository.CountByWalletID_error {id : Int} {w w1 : World M} {err : Err}
    (h : transactionRepository.CountByWalletID id w = (.error err, w1)) :
    w1 = w.emit (.transactionCountByWalletID id) .error := by
  unfold transactionRepository.CountByWalletID at h
  split at h
  · cases h; rfl
  · cases h

theorem transactionRepository.CountByWalletID_ok {id : Int} {w w1 : World M} {total : Int}
    (h : transactionRepository.CountByWalletID id w = (.ok total, w1)) :
    total = ((w.transactions.filter (fun t => t.WalletID == id)).length : Int) ∧
      w1 = w.emit (.transactionCountByWalletID id) .ok := by
  unfold transactionRepository.CountByWalletID at h
  split at h
  · cases h
  · cases h; exact ⟨rfl, rfl⟩

/-- The exits of `GetTransactionHistory`: a failed user read, wallet read, page query or count
query, or the response; each with the world it leaves. -/
theorem walletUsecase.GetTransactionHistory_paths (u : walletUsecase) (userID : Int)
    (pagination : PaginationRequest) (w : World M) :
    (∃ err, u.GetTransactionHistory userID pagination w =
        (.error err, w.emit (.userGetByID userID) .error)) ∨
    (∃ user err, w.userOf userID = some user ∧
      u.GetTransactionHistory userID pagination w =
        (.error err,
          (w.emit (.userGetByID userID) .ok).emit (.walletGetByUserID user.ID) .error)) ∨
    (∃ user wallet err, w.userOf userID = some user ∧ w.walletOf user.ID = some wallet ∧
      u.GetTransactionHistory userID pagination w =
        (.error err,
          (w.afterLookup userID user).emit
            (.transactionGetByWalletID wallet.ID pagination.effectiveLimit
              pagination.effectiveOffset) .error)) ∨
    (∃ user wallet err, w.userOf userID = some user ∧ w.walletOf user.ID = some wallet ∧
      u.GetTransactionHistory userID pagination w =
        (.error err,
          ((w.afterLookup userID user).emit
            (.transactionGetByWalletID wallet.ID pagination.effectiveLimit
              pagination.effectiveOffset) .ok).emit
            (.transactionCountByWalletID wallet.ID) .error)) ∨
    (∃ user wallet, w.userOf userID = some user ∧ w.walletOf user.ID = some wallet ∧
      u.GetTransactionHistory userID pagination w =
        (.ok
          { Transactions :=
              ((w.transactionsOf wallet.ID).drop pagination.effectiveOffset.toNat).take
                pagination.effectiveLimit.toNat,
            Total := ((w.ledgerOf wallet.ID).length : Int),
            Limit := pagination.effectiveLimit,
            Offset := pagination.effectiveOffset },
          ((w.afterLookup userID user).emit
            (.transactionGetByWalletID wallet.ID pagination.effectiveLimit
              pagination.effectiveOffset) .ok).emit
            (.transactionCountByWalletID wallet.ID) .ok)) := by
  have hL : (if (if pagination.Limit ≤ 0 then { pagination with Limit := 10 }
      else pagination).Offset < 0
      then { (if pagination.Limit ≤ 0 then { pagination with Limit := 10 }
        else pagination) with Offset := 0 }
      else (if pagination.Limit ≤ 0 then { pagination with Limit := 10 }
        else pagination) : PaginationRequest) =
      ⟨pagination.effectiveLimit, pagination.effectiveOffset⟩ := by
    unfold PaginationRequest.effectiveLimit PaginationRequest.effectiveOffset
    by_cases h1 : pagination.Limit ≤ 0 <;> by_cases h2 : pagination.Offset < 0 <;>
      simp [h1, h2]
  generalize hr : u.GetTransactionHistory userID pagination w = r
  unfold walletUsecase.GetTransactionHistory at hr
  simp only [hL] at hr
  split at hr
  · next err w1 h1 =>
    cases userRepository.GetByID_error h1
    exact Or.inl ⟨_, hr.symm⟩
  · next user w1 h1 =>
    obtain ⟨hu, rfl⟩ := userRepository.GetByID_ok h1
    split at hr
    · next err w2 h2 =>
      cases walletRepository.GetByUserID_error h2
      exact Or.inr (Or.inl ⟨user, _, hu, hr.symm⟩)
    · next wallet w2 h2 =>
      obtain ⟨hw, rfl⟩ := walletRepository.GetByUserID_ok h2
      split at hr
      · next err w3 h3 =>
        cases transactionRepository.GetByWalletID_error h3
        exact Or.inr (Or.inr (Or.inl ⟨user, wallet, _, hu, hw, hr.symm⟩))
      · next transactions w3 h3 =>
        obtain ⟨rfl, rfl⟩ := transactionRepository.GetByWalletID_ok h3
        split at hr
        · next err w4 h4 =>
          cases transactionRepository.CountByWalletID_error h4
          exact Or.inr (Or.inr (Or.inr (Or.inl ⟨user, wallet, _, hu, hw, hr.symm⟩)))
        · next total w4 h4 =>
          obtain ⟨rfl, rfl⟩ := transactionRepository.CountByWalletID_ok h4
          exact Or.inr (Or.inr (Or.inr (Or.inr ⟨user, wallet, hu, hw, hr.symm⟩)))

instance Transaction.newerFirst_total : IsTotal (Transaction M) Transaction.newerFirst :=
  ⟨fun a b => Nat.le_total b.TransactionTime a.TransactionTime⟩

instance Transaction.newerFirst_trans : IsTrans (Transaction M) Transaction.newerFirst :=
  ⟨fun _ _ _ hab hbc => Nat.le_trans hbc hab⟩

end HistoryLemmas

/-! ## The store calls and the mutations do not read Redis -/

section RedisLemmas

variable {M : Type}

@[simp] theorem World.setRedis_now (w : World M) (c : List (String × String)) :
    (w.setRedis c).now = w.now := rfl

@[simp] theorem World.setRedis_setRedis (w : World M) (c d : List (String × String)) :
    (w.setRedis c).setRedis d = w.setRedis d := rfl

theorem World.setRedis_nextFault (w : World M) (c : List (String × String)) :
    (w.setRedis c).nextFault = w.nextFault := rfl

theorem userRepository.GetByID_setRedis (id : Int) (w : World M) (c : List (String × String)) :
    userRepository.GetByID id (w.setRedis c) =
      ((userRepository.GetByID id w).1, (userRepository.GetByID id w).2.setRedis c) := by
  have hu : (w.setRedis c).users = w.users := rfl
  unfold userRepository.GetByID
  rw [World.setRedis_nextFault, hu]
  cases w.nextFault with
  | some err => rfl
  | none => cases w.users.find? (fun u => u.ID == id) <;> rfl

theorem walletRepository.GetByUserID_setRedis (id : Int) (w : World M)
    (c : List (String × String)) :
    walletRepository.GetByUserID id (w.setRedis c) =
      ((walletRepository.GetByUserID id w).1,
        (walletRepository.GetByUserID id w).2.setRedis c) := by
  have hu : (w.setRedis c).wallets = w.wallets := rfl
  unfold walletRepository.GetByUserID
  rw [World.setRedis_nextFault, hu]
  cases w.nextFault with
  | some err => rfl
  | none => cases w.wallets.find? (fun (x : Wallet M) => x.UserID == id) <;> rfl

theorem walletRepository.Update_setRedis (wallet : Wallet M) (w : World M)
    (c : List (String × String)) :
    walletRepository.Update wallet (w.setRedis c) =
      ((walletRepository.Update wallet w).1,
        (walletRepository.Update wallet w).2.setRedis c) := by
  unfold walletRepository.Update
  simp only [World.setRedis_nextFault]
  cases w.nextFault <;> rfl

theorem transactionRepository.Create_setRedis (transaction : Transaction M) (w : World M)
    (c : List (String × String)) :
    transactionRepository.Create transaction (w.setRedis c) =
      ((transactionRepository.Create transaction w).1,
        (transactionRepository.Create transaction w).2.setRedis c) := by
  unfold transactionRepository.Create
  simp only [World.setRedis_nextFault]
  cases w.nextFault <;> rfl

theorem redisClient.Del_setRedis (keys : List String) (w : World M)
    (c : List (String × String)) :
    ∃ d, redisClient.Del keys (w.setRedis c) = (redisClient.Del keys w).setRedis d := by
  unfold redisClient.Del
  rw [World.setRedis_nextFault]
  cases w.nextFault with
  | some err => exact ⟨c, rfl⟩
  | none => exact ⟨c.filter (fun kv => !keys.contains kv.1), rfl⟩

/-- `Deposit` does not read Redis: with other Redis contents it returns the same result and
leaves the same world up to the Redis contents. -/
theorem walletUsecase.Deposit_setRedis [Add M] [Zero M] [LE M] [∀ a b : M, Decidable (a ≤ b)]
    (u : walletUsecase) (req : DepositRequest M) (w : World M) (c : List (String × String)) :
    ∃ d, u.Deposit req (w.setRedis c) =
      ((u.Deposit req w).1, (u.Deposit req w).2.setRedis d) := by
  unfold walletUsecase.Deposit
  by_cases hna : req.Amount ≤ 0
  · rw [if_pos hna, if_pos hna]
    exact ⟨c, rfl⟩
  rw [if_neg hna, if_neg hna, userRepository.GetByID_setRedis]
  rcases userRepository.GetByID req.UserID w with ⟨r1, w1⟩
  cases r1 with
  | error err => exact ⟨c, rfl⟩
  | ok user =>
    simp only []
    rw [walletRepository.GetByUserID_setRedis]
    rcases walletRepository.GetByUserID user.ID w1 with ⟨r2, w2⟩
    cases r2 with
    | error err => exact ⟨c, rfl⟩
    | ok wallet =>
      simp only [World.setRedis_now]
      cases wallet.Deposit req.Amount w2.now with
      | error err => exact ⟨c, rfl⟩
      | ok wallet1 =>
        simp only []
        rw [walletRepository.Update_setRedis]
        rcases walletRepository.Update wallet1 w2 with ⟨r3, w3⟩
        cases r3 with
        | error err => exact ⟨c, rfl⟩
        | ok wallet2 =>
          simp only []
          cases u.redisClient with
          | false =>
            simp only [Bool.false_eq_true, if_false]
            rw [transactionRepository.Create_setRedis]
            rcases transactionRepository.Create _ w3 with ⟨r4, w4⟩
            cases r4 <;> exact ⟨c, rfl⟩
          | true =>
            simp only [if_true]
            obtain ⟨d, hd⟩ := redisClient.Del_setRedis [balanceCacheKey req.UserID] w3 c
            rw [hd, transactionRepository.Create_setRedis]
            rcases transactionRepository.Create _ (redisClient.Del _ w3) with ⟨r4, w4⟩
            cases r4 <;> exact ⟨d, rfl⟩

/-- `Withdraw` does not read Redis. -/
theorem walletUsecase.Withdraw_setRedis [Add M] [Sub M] [Zero M] [LE M] [LT M]
    [∀ a b : M, Decidable (a ≤ b)] [∀ a b : M, Decidable (a < b)]
    (u : walletUsecase) (req : WithdrawRequest M) (w : World M) (c : List (String × String)) :
    ∃ d, u.Withdraw req (w.setRedis c) =
      ((u.Withdraw req w).1, (u.Withdraw req w).2.setRedis d) := by
  unfold walletUsecase.Withdraw
  by_cases hna : req.Amount ≤ 0
  · rw [if_pos hna, if_pos hna]
    exact ⟨c, rfl⟩
  rw [if_neg hna, if_neg hna, userRepository.GetByID_setRedis]
  rcases userRepository.GetByID req.UserID w with ⟨r1, w1⟩
  cases r1 with
  | error err => exact ⟨c, rfl⟩
  | ok user =>
    simp only []
    rw [walletRepository.GetByUserID_setRedis]
    rcases walletRepository.GetByUserID user.ID w1 with ⟨r2, w2⟩
    cases r2 with
    | error err => exact ⟨c, rfl⟩
    | ok wallet =>
      simp only [World.setRedis_now]
      cases wallet.Withdraw req.Amount w2.now with
      | error err => exact ⟨c, rfl⟩
      | ok wallet1 =>
        simp only []
        rw [walletRepository.Update_setRedis]
        rcases walletRepository.Update wallet1 w2 with ⟨r3, w3⟩
        cases r3 with
        | error err => exact ⟨c, rfl⟩
        | ok wallet2 =>
          simp only []
          cases u.redisClient with
          | false =>
            simp only [Bool.false_eq_true, if_false]
            rw [transactionRepository.Create_setRedis]
            rcases transactionRepository.Create _ w3 with ⟨r4, w4⟩
            cases r4 <;> exact ⟨c, rfl⟩
          | true =>
            simp only [if_true]
            obtain ⟨d, hd⟩ := redisClient.Del_setRedis [balanceCacheKey req.UserID] w3 c
            rw [hd, transactionRepository.Create_setRedis]
            rcases transactionRepository.Create _ (redisClient.Del _ w3) with ⟨r4, w4⟩
            cases r4 <;> exact ⟨d, rfl⟩

/-- The body of `Transfer` does not read Redis. -/
theorem walletUsecase.transferLocked_setRedis [Add M] [Sub M] [Zero M] [LE M] [LT M]
    [∀ a b : M, Decidable (a ≤ b)] [∀ a b : M, Decidable (a < b)]
    (u : walletUsecase) (req : TransferRequest M) (w : World M) (c : List (String × String)) :
    ∃ d, u.transferLocked req (w.setRedis c) =
      ((u.transferLocked req w).1, (u.transferLocked req w).2.setRedis d) := by
  unfold walletUsecase.transferLocked
  rw [userRepository.GetByID_setRedis]
  rcases userRepository.GetByID req.SenderID w with ⟨r1, w1⟩
  cases r1 with
  | error err => exact ⟨c, rfl⟩
  | ok sender =>
    simp only []
    rw [userRepository.GetByID_setRedis]
    rcases userRepository.GetByID req.ReceiverID w1 with ⟨r2, w2⟩
    cases r2 with
    | error err => exact ⟨c, rfl⟩
    | ok receiver =>
      simp only []
      rw [walletRepository.GetByUserID_setRedis]
      rcases walletRepository.GetByUserID sender.ID w2 with ⟨r3, w3⟩
      cases r3 with
      | error err => exact ⟨c, rfl⟩
      | ok senderWallet =>
        simp only []
        rw [walletRepository.GetByUserID_setRedis]
        rcases walletRepository.GetByUserID receiver.ID w3 with ⟨r4, w4⟩
        cases r4 with
        | error err => exact ⟨c, rfl⟩
        | ok receiverWallet =>
          simp only [World.setRedis_now]
          cases senderWallet.Withdraw req.Amount w4.now with
          | error err => exact ⟨c, rfl⟩
          | ok senderWallet1 =>
            simp only []
            cases receiverWallet.Deposit req.Amount w4.now with
            | error err => exact ⟨c, rfl⟩
            | ok receiverWallet1 =>
              simp only []
              rw [walletRepository.Update_setRedis]
              rcases walletRepository.Update senderWallet1 w4 with ⟨r5, w5⟩
              cases r5 with
              | error err => exact ⟨c, rfl⟩
              | ok senderWallet2 =>
                simp only []
                rw [walletRepository.Update_setRedis]
                rcases walletRepository.Update receiverWallet1 w5 with ⟨r6, w6⟩
                cases r6 with
                | error err => exact ⟨c, rfl⟩
                | ok receiverWallet2 =>
                  simp only []
                  cases u.redisClient with
                  | false =>
                    simp only [Bool.false_eq_true, if_false]
                    rw [transactionRepository.Create_setRedis]
                    rcases transactionRepository.Create _ w6 with ⟨r7, w7⟩
                    cases r7 <;> exact ⟨c, rfl⟩
                  | true =>
                    simp only [if_true]
                    obtain ⟨d, hd⟩ := redisClient.Del_setRedis
                      [balanceCacheKey req.SenderID, balanceCacheKey req.ReceiverID] w6 c
                    rw [hd, transactionRepository.Create_setRedis]
                    rcases transactionRepository.Create _ (redisClient.Del _ w6) with ⟨r7, w7⟩
                    cases r7 <;> exact ⟨d, rfl⟩

/-- A lock request on two Redis contents that agree on the lock name: the same result and the
same world up to the Redis contents, which gain the name on both sides when it is granted. -/
theorem redisClient.SetNX_setRedis (key value : String) (seconds : Nat) (w : World M)
    (c1 c2 : List (String × String)) (h : c1.lookup key = c2.lookup key) :
    ∃ (r : Except Err Bool) (w1 : World M),
      ((r = .ok true ∧
          redisClient.SetNX key value seconds (w.setRedis c1) =
            (r, w1.setRedis ((key, value) :: c1)) ∧
          redisClient.SetNX key value seconds (w.setRedis c2) =
            (r, w1.setRedis ((key, value) :: c2))) ∨
        (r ≠ .ok true ∧
          redisClient.SetNX key value seconds (w.setRedis c1) = (r, w1.setRedis c1) ∧
          redisClient.SetNX key value seconds (w.setRedis c2) = (r, w1.setRedis c2))) := by
  have hr1 : (w.setRedis c1).redis = c1 := rfl
  have hr2 : (w.setRedis c2).redis = c2 := rfl
  unfold redisClient.SetNX
  rw [World.setRedis_nextFault, World.setRedis_nextFault, hr1, hr2, h]
  cases w.nextFault with
  | some err =>
    exact ⟨.error err, w.emit (.redisSetNX key value seconds) .error,
      Or.inr ⟨by simp, rfl, rfl⟩⟩
  | none =>
    cases c2.lookup key with
    | some x =>
      exact ⟨.ok false, w.emit (.redisSetNX key value seconds) .declined,
        Or.inr ⟨by simp, rfl, rfl⟩⟩
    | none =>
      exact ⟨.ok true, w.emit (.redisSetNX key value seconds) .ok, Or.inl ⟨rfl, rfl, rfl⟩⟩

/-- `Transfer` on two Redis contents that agree on the two lock names of the request: the same
result and the same world up to the Redis contents. -/
theorem walletUsecase.Transfer_setRedis [Add M] [Sub M] [Zero M] [LE M] [LT M]
    [∀ a b : M, Decidable (a ≤ b)] [∀ a b : M, Decidable (a < b)]
    (u : walletUsecase) (req : TransferRequest M) (w : World M)
    (c1 c2 : List (String × String))
    (h1 : c1.lookup req.firstLockKey = c2.lookup req.firstLockKey)
    (h2 : c1.lookup req.secondLockKey = c2.lookup req.secondLockKey) :
    (u.Transfer req (w.setRedis c1)).1 = (u.Transfer req (w.setRedis c2)).1 ∧
      (u.Transfer req (w.setRedis c1)).2.setRedis [] =
        (u.Transfer req (w.setRedis c2)).2.setRedis [] := by
  by_cases hna : req.Amount ≤ 0
  · unfold walletUsecase.Transfer
    rw [if_pos hna, if_pos hna]
    exact ⟨rfl, rfl⟩
  by_cases hne : req.SenderID = req.ReceiverID
  · unfold walletUsecase.Transfer
    rw [if_neg hna, if_neg hna, if_pos hne, if_pos hne]
    exact ⟨rfl, rfl⟩
  have hbody : ∀ (w0 : World M) (d1 d2 : List (String × String)),
      ∃ e1 e2, u.transferLocked req (w0.setRedis d1) =
          ((u.transferLocked req w0).1, (u.transferLocked req w0).2.setRedis e1) ∧
        u.transferLocked req (w0.setRedis d2) =
          ((u.transferLocked req w0).1, (u.transferLocked req w0).2.setRedis e2) := by
    intro w0 d1 d2
    obtain ⟨e1, he1⟩ := walletUsecase.transferLocked_setRedis u req w0 d1
    obtain ⟨e2, he2⟩ := walletUsecase.transferLocked_setRedis u req w0 d2
    exact ⟨e1, e2, he1, he2⟩
  cases hu : u.redisClient with
  | false =>
    rw [walletUsecase.Transfer_noRedis u req _ hna hne hu,
      walletUsecase.Transfer_noRedis u req _ hna hne hu]
    obtain ⟨e1, e2, he1, he2⟩ := hbody w c1 c2
    rw [he1, he2]
    exact ⟨rfl, rfl⟩
  | true =>
    unfold walletUsecase.Transfer
    rw [if_neg hna, if_neg hna, if_neg hne, if_neg hne, if_pos hu, if_pos hu]
    simp only []
    unfold TransferRequest.firstLockKey at h1
    unfold TransferRequest.secondLockKey at h2
    obtain ⟨r1, w1, hcase⟩ := redisClient.SetNX_setRedis _ "1" 10 w c1 c2 h1
    rcases hcase with ⟨rfl, hc1, hc2⟩ | ⟨hr1, hc1, hc2⟩
    · rw [hc1, hc2]
      simp only []
      have h2b : List.lookup
          (walletLockKey (if req.SenderID < req.ReceiverID then req.ReceiverID
            else req.SenderID))
          ((walletLockKey (if req.SenderID < req.ReceiverID then req.SenderID
            else req.ReceiverID), "1") :: c1) =
          List.lookup
          (walletLockKey (if req.SenderID < req.ReceiverID then req.ReceiverID
            else req.SenderID))
          ((walletLockKey (if req.SenderID < req.ReceiverID then req.SenderID
            else req.ReceiverID), "1") :: c2) := by
        simp only [List.lookup]
        split
        · rfl
        · exact h2
      obtain ⟨r2, w2, hcase2⟩ := redisClient.SetNX_setRedis _ "1" 10 w1 _ _ h2b
      rcases hcase2 with ⟨rfl, hd1, hd2⟩ | ⟨hr2, hd1, hd2⟩
      · rw [hd1, hd2]
        simp only []
        obtain ⟨e1, e2, he1, he2⟩ := hbody w2 _ _
        rw [he1, he2]
        simp only []
        obtain ⟨f1, hf1⟩ := redisClient.Del_setRedis
          [walletLockKey (if req.SenderID < req.ReceiverID then req.ReceiverID
            else req.SenderID)] (u.transferLocked req w2).2 e1
        obtain ⟨f2, hf2⟩ := redisClient.Del_setRedis
          [walletLockKey (if req.SenderID < req.ReceiverID then req.ReceiverID
            else req.SenderID)] (u.transferLocked req w2).2 e2
        rw [hf1, hf2]
        obtain ⟨g1, hg1⟩ := redisClient.Del_setRedis
          [walletLockKey (if req.SenderID < req.ReceiverID then req.SenderID
            else req.ReceiverID)] (redisClient.Del
          [walletLockKey (if req.SenderID < req.ReceiverID then req.ReceiverID
            else req.SenderID)] (u.transferLocked req w2).2) f1
        obtain ⟨g2, hg2⟩ := redisClient.Del_setRedis
          [walletLockKey (if req.SenderID < req.ReceiverID then req.SenderID
            else req.ReceiverID)] (redisClient.Del
          [walletLockKey (if req.SenderID < req.ReceiverID then req.ReceiverID
            else req.SenderID)] (u.transferLocked req w2).2) f2
        rw [hg1, hg2]
        exact ⟨trivial, rfl⟩
      · rw [hd1, hd2]
        obtain ⟨g1, hg1⟩ := redisClient.Del_setRedis
          [walletLockKey (if req.SenderID < req.ReceiverID then req.SenderID
            else req.ReceiverID)] w2
          ((walletLockKey (if req.SenderID < req.ReceiverID then req.SenderID
            else req.ReceiverID), "1") :: c1)
        obtain ⟨g2, hg2⟩ := redisClient.Del_setRedis
          [walletLockKey (if req.SenderID < req.ReceiverID then req.SenderID
            else req.ReceiverID)] w2
          ((walletLockKey (if req.SenderID < req.ReceiverID then req.SenderID
            else req.ReceiverID), "1") :: c2)
        rcases r2 with err | (_ | _)
        · simp only []
          rw [hg1, hg2]
          exact ⟨trivial, rfl⟩
        · simp only []
          rw [hg1, hg2]
          exact ⟨trivial, rfl⟩
        · exact absurd rfl hr2
    · rw [hc1, hc2]
      rcases r1 with err | (_ | _)
      · exact ⟨rfl, rfl⟩
      · exact ⟨rfl, rfl⟩
      · exact absurd rfl hr1

end RedisLemmas

/-! ## The balance invariant -/

section InvariantLemmas

variable {M : Type}

theorem World.walletOf_mem {w : World M} {userID : Int} {wallet : Wallet M}
    (h : w.walletOf userID = some wallet) : wallet ∈ w.wallets :=
  List.mem_of_find?_eq_some h

theorem World.balancesNonnegative_of_wallets [LE M] [Zero M] {w w1 : World M} (h : w1.wallets = w.wallets)
    (hinv : w.balancesNonnegative) : w1.balancesNonnegative := by
  unfold World.balancesNonnegative
  rw [h]
  exact hinv

/-- A wallet update that writes a balance that is not negative keeps the invariant. -/
theorem World.balancesNonnegative_afterUpdate [LE M] [Zero M] {w : World M} (wallet : Wallet M)
    (hinv : w.balancesNonnegative) (hb : 0 ≤ wallet.Balance) :
    (w.afterUpdate wallet).balancesNonnegative := by
  intro x hx
  have hx2 : x ∈ w.wallets.map (fun (y : Wallet M) =>
      if y.ID == wallet.ID then { y with Balance := wallet.Balance, UpdatedAt := w.now }
      else y) := hx
  obtain ⟨y, hy, rfl⟩ := List.mem_map.mp hx2
  split
  · exact hb
  · exact hinv y hy

/-- `Deposit` keeps the invariant when a sum of a balance that is not negative and an accepted
amount is not negative. -/
theorem walletUsecase.Deposit_balancesNonnegative [Add M] [Zero M] [LE M]
    [∀ a b : M, Decidable (a ≤ b)]
    (hadd : ∀ b a : M, 0 ≤ b → ¬ a ≤ 0 → 0 ≤ b + a)
    (u : walletUsecase) (req : DepositRequest M) (w : World M)
    (hinv : w.balancesNonnegative) : (u.Deposit req w).2.balancesNonnegative := by
  by_cases hna : req.Amount ≤ 0
  · unfold walletUsecase.Deposit
    rw [if_pos hna]
    exact hinv
  rcases walletUsecase.Deposit_paths u req w hna with
    ⟨err, h⟩ | ⟨user, err, _, h⟩ | ⟨user, wallet, err, _, hw, h⟩ |
    ⟨user, wallet, err, _, hw, h⟩ | ⟨user, wallet, _, hw, h⟩
  · rw [h]; exact hinv
  · rw [h]; exact hinv
  · rw [h]; exact hinv
  · rw [h]
    refine World.balancesNonnegative_of_wallets (w := (w.afterLookup req.UserID user).afterUpdate
      { wallet with Balance := wallet.Balance + req.Amount, UpdatedAt := w.now }) (by simp) ?_
    exact World.balancesNonnegative_afterUpdate _ hinv
      (hadd _ _ (hinv wallet (World.walletOf_mem hw)) hna)
  · rw [h]
    refine World.balancesNonnegative_of_wallets (w := (w.afterLookup req.UserID user).afterUpdate
      { wallet with Balance := wallet.Balance + req.Amount, UpdatedAt := w.now }) (by simp) ?_
    exact World.balancesNonnegative_afterUpdate _ hinv
      (hadd _ _ (hinv wallet (World.walletOf_mem hw)) hna)

/-- `Withdraw` keeps the invariant when a difference of a balance and an accepted amount that
does not exceed it is not negative. -/
theorem walletUsecase.Withdraw_balancesNonnegative [Sub M] [Zero M] [LE M] [LT M]
    [∀ a b : M, Decidable (a ≤ b)] [∀ a b : M, Decidable (a < b)]
    (hsub : ∀ b a : M, ¬ a ≤ 0 → ¬ b < a → 0 ≤ b - a)
    (u : walletUsecase) (req : WithdrawRequest M) (w : World M)
    (hinv : w.balancesNonnegative) : (u.Withdraw req w).2.balancesNonnegative := by
  by_cases hna : req.Amount ≤ 0
  · unfold walletUsecase.Withdraw
    rw [if_pos hna]
    exact hinv
  rcases walletUsecase.Withdraw_paths u req w hna with
    ⟨err, h⟩ | ⟨user, err, _, h⟩ | ⟨user, wallet, _, _, _, h⟩ |
    ⟨user, wallet, err, _, hw, hlt, h⟩ | ⟨user, wallet, err, _, hw, hlt, h⟩ |
    ⟨user, wallet, _, hw, hlt, h⟩
  · rw [h]; exact hinv
  · rw [h]; exact hinv
  · rw [h]; exact hinv
  · rw [h]; exact hinv
  · rw [h]
    refine World.balancesNonnegative_of_wallets (w := (w.afterLookup req.UserID user).afterUpdate
      { wallet with Balance := wallet.Balance - req.Amount, UpdatedAt := w.now }) (by simp) ?_
    exact World.balancesNonnegative_afterUpdate _ hinv (hsub _ _ hna hlt)
  · rw [h]
    refine World.balancesNonnegative_of_wallets (w := (w.afterLookup req.UserID user).afterUpdate
      { wallet with Balance := wallet.Balance - req.Amount, UpdatedAt := w.now }) (by simp) ?_
    exact World.balancesNonnegative_afterUpdate _ hinv (hsub _ _ hna hlt)

/-- The body of `Transfer` keeps the invariant. -/
theorem walletUsecase.transferLocked_balancesNonnegative [Add M] [Sub M] [Zero M] [LE M]
    [LT M] [∀ a b : M, Decidable (a ≤ b)] [∀ a b : M, Decidable (a < b)]
    (hadd : ∀ b a : M, 0 ≤ b → ¬ a ≤ 0 → 0 ≤ b + a)
    (hsub : ∀ b a : M, ¬ a ≤ 0 → ¬ b < a → 0 ≤ b - a)
    (u : walletUsecase) (req : TransferRequest M) (w : World M) (hna : ¬ req.Amount ≤ 0)
    (hinv : w.balancesNonnegative) : (u.transferLocked req w).2.balancesNonnegative := by
  rcases walletUsecase.transferLocked_paths u req w hna with
    ⟨err, h⟩ | ⟨s, err, _, h⟩ | ⟨s, r, err, _, _, h⟩ | ⟨s, r, sw, err, _, _, _, h⟩ |
    ⟨s, r, sw, rw, _, _, _, _, _, h⟩ | ⟨s, r, sw, rw, err, _, _, _, _, _, h⟩ |
    ⟨s, r, sw, rw, err, _, _, hsw, hrw, hlt, h⟩ | ⟨s, r, sw, rw, err, _, _, hsw, hrw, hlt, h⟩ |
    ⟨s, r, sw, rw, _, _, hsw, hrw, hlt, h⟩
  · rw [h]; exact hinv
  · rw [h]; exact hinv
  · rw [h]; exact hinv
  · rw [h]; exact hinv
  · rw [h]; exact hinv
  · rw [h]; exact hinv
  · rw [h]
    refine World.balancesNonnegative_of_wallets
      (w := (w.afterLookups req.SenderID req.ReceiverID s r).afterUpdate
        { sw with Balance := sw.Balance - req.Amount, UpdatedAt := w.now }) (by simp) ?_
    exact World.balancesNonnegative_afterUpdate _ hinv (hsub _ _ hna hlt)
  all_goals
    rw [h]
    refine World.balancesNonnegative_of_wallets
      (w := ((w.afterLookups req.SenderID req.ReceiverID s r).afterUpdate
        { sw with Balance := sw.Balance - req.Amount, UpdatedAt := w.now }).afterUpdate
        { rw with Balance := rw.Balance + req.Amount, UpdatedAt := w.now }) (by simp) ?_
    refine World.balancesNonnegative_afterUpdate _ ?_
      (hadd _ _ (hinv rw (World.walletOf_mem hrw)) hna)
    exact World.balancesNonnegative_afterUpdate _ hinv (hsub _ _ hna hlt)

/-- `Transfer` keeps the invariant. -/
theorem walletUsecase.Transfer_balancesNonnegative [Add M] [Sub M] [Zero M] [LE M]
    [LT M] [∀ a b : M, Decidable (a ≤ b)] [∀ a b : M, Decidable (a < b)]
    (hadd : ∀ b a : M, 0 ≤ b → ¬ a ≤ 0 → 0 ≤ b + a)
    (hsub : ∀ b a : M, ¬ a ≤ 0 → ¬ b < a → 0 ≤ b - a)
    (u : walletUsecase) (req : TransferRequest M) (w : World M)
    (hinv : w.balancesNonnegative) : (u.Transfer req w).2.balancesNonnegative := by
  by_cases hna : req.Amount ≤ 0
  · unfold walletUsecase.Transfer
    rw [if_pos hna]
    exact hinv
  by_cases hne : req.SenderID = req.ReceiverID
  · unfold walletUsecase.Transfer
    rw [if_neg hna, if_pos hne]
    exact hinv
  cases hu : u.redisClient with
  | false =>
    rw [walletUsecase.Transfer_noRedis u req w hna hne hu]
    exact walletUsecase.transferLocked_balancesNonnegative hadd hsub u req w hna hinv
  | true =>
    rcases walletUsecase.Transfer_redis u req w hna hne hu with
      ⟨o, _, h⟩ | ⟨o, _, _, h⟩ | ⟨_, _, h⟩
    · rw [h]; exact hinv
    · rw [h]
      exact World.balancesNonnegative_of_wallets (by simp) hinv
    · rw [h]
      refine World.balancesNonnegative_of_wallets
        (w := (u.transferLocked req
          ((w.afterSetNX req.firstLockKey "1" 10).afterSetNX req.secondLockKey "1" 10)).2)
        (by simp) ?_
      exact walletUsecase.transferLocked_balancesNonnegative hadd hsub u req _ hna hinv

/-- `GetBalance` leaves the wallet rows as they are. -/
theorem walletUsecase.GetBalance_wallets (codec : JSONCodec M) (u : walletUsecase)
    (userID : Int) (w : World M) : (u.GetBalance codec userID w).2.wallets = w.wallets := by
  have hstore : ∀ w1 : World M,
      (u.getBalanceFromStore codec userID w1).2.wallets = w1.wallets := by
    intro w1
    rcases walletUsecase.getBalanceFromStore_paths codec u userID w1 with
      ⟨err, h⟩ | ⟨user, err, _, h⟩ | ⟨user, wallet, _, _, _, h⟩ |
      ⟨user, wallet, walletData, _, _, _, _, h⟩
    · rw [h]; rfl
    · rw [h]; rfl
    · rw [h]; rfl
    · rw [h]
      rcases redisClient.Set_cases (balanceCacheKey userID) walletData balanceCacheTTL
        (w1.afterLookup userID user) with hs | hs <;> rw [hs] <;> rfl
  rcases walletUsecase.GetBalance_paths codec u userID w with
    ⟨data, wallet, _, _, _, _, h⟩ | ⟨_, h⟩ | ⟨o, _, _, _, h⟩
  · rw [h]; rfl
  · rw [h]; exact hstore w
  · rw [h, hstore]; rfl

/-- `GetTransactionHistory` leaves the wallet rows as they are. -/
theorem walletUsecase.GetTransactionHistory_wallets (u : walletUsecase) (userID : Int)
    (pagination : PaginationRequest) (w : World M) :
    (u.GetTransactionHistory userID pagination w).2.wallets = w.wallets := by
  rcases walletUsecase.GetTransactionHistory_paths u userID pagination w with
    ⟨err, h⟩ | ⟨user, err, _, h⟩ | ⟨user, wallet, err, _, _, h⟩ |
    ⟨user, wallet, err, _, _, h⟩ | ⟨user, wallet, _, _, h⟩ <;>
  · rw [h]; rfl

end InvariantLemmas

/-! ## Calls of `Withdraw` step by step -/

section ConcurrencyLemmas

variable {M : Type}

/-- A call of `Withdraw` that runs alone takes at most five steps, and these give the result
and the world of `walletUsecase.Withdraw`. -/
theorem walletUsecase.WithdrawRun_alone [Sub M] [Zero M] [LE M] [LT M]
    [∀ a b : M, Decidable (a ≤ b)] [∀ a b : M, Decidable (a < b)]
    (u : walletUsecase) (req : WithdrawRequest M) (w : World M) :
    u.WithdrawRun [0, 0, 0, 0, 0] [.start req] w =
      ([.returned (u.Withdraw req w).1], (u.Withdraw req w).2) := by
  simp only [walletUsecase.WithdrawRun, List.get?, List.set]
  unfold walletUsecase.Withdraw
  by_cases hna : req.Amount ≤ 0
  · simp only [walletUsecase.WithdrawStep, if_pos hna]
  simp only [walletUsecase.WithdrawStep, if_neg hna]
  rcases userRepository.GetByID req.UserID w with ⟨r1, w1⟩
  cases r1 with
  | error err => simp only [walletUsecase.WithdrawStep]
  | ok user =>
    simp only [walletUsecase.WithdrawStep]
    rcases walletRepository.GetByUserID user.ID w1 with ⟨r2, w2⟩
    cases r2 with
    | error err => simp only [walletUsecase.WithdrawStep]
    | ok wallet =>
      simp only [walletUsecase.WithdrawStep]
      cases wallet.Withdraw req.Amount w2.now with
      | error err => simp only [walletUsecase.WithdrawStep]
      | ok wallet1 =>
        simp only []
        rcases walletRepository.Update wallet1 w2 with ⟨r3, w3⟩
        cases r3 with
        | error err => simp only [walletUsecase.WithdrawStep]
        | ok wallet2 =>
          simp only [walletUsecase.WithdrawStep]
          cases u.redisClient with
          | false =>
            simp only [Bool.false_eq_true, if_false, walletUsecase.withdrawRecord]
            rcases transactionRepository.Create _ w3 with ⟨r4, w4⟩
            cases r4 <;> simp only [walletUsecase.WithdrawStep]
          | true =>
            simp only [if_true, walletUsecase.WithdrawStep, walletUsecase.withdrawRecord]
            rcases transactionRepository.Create _ (redisClient.Del _ w3) with ⟨r4, w4⟩
            cases r4 <;> simp only [walletUsecase.WithdrawStep]

end ConcurrencyLemmas

/-! ## Lemmas on `pkg/errors` -/

section ErrorLemmas

/-- Wrapping does not change what an error matches. -/
theorem Err.Is_WrapError (err : Err) (message : String) (s : Sentinel) :
    (WrapError err message).Is s = err.Is s := rfl

/-- An error matches at most one sentinel: its chain ends in one error. -/
theorem Err.Is_unique (err : Err) (s t : Sentinel) (hs : err.Is s = true)
    (ht : err.Is t = true) : s = t := by
  induction err with
  | sentinel x =>
    simp only [Err.Is, beq_iff_eq] at hs ht
    rw [← hs, ← ht]
  | driver message => simp [Err.Is] at hs
  | wrapped message inner ih => exact ih hs ht

/-- An error that matches a sentinel matches no other. -/
theorem Err.Is_other (err : Err) (s t : Sentinel) (hs : err.Is s = true) (hne : s ≠ t) :
    err.Is t = false :=
  Bool.eq_false_iff.mpr (fun ht => hne (Err.Is_unique err s t hs ht))

/-- The text of a wrapped error. -/
theorem Err.Error_WrapError (err : Err) (message : String) :
    (WrapError err message).Error = message ++ ": " ++ err.Error := rfl

/-- Two texts with the same ending are equal when they are equal with the ending. -/
theorem text_append_right_cancel (a b c : String) (h : a ++ c = b ++ c) : a = b := by
  have h2 := congrArg String.data h
  simp only [String.data_append] at h2
  exact String.ext (List.append_cancel_right h2)

end ErrorLemmas

/-! ## The order of the store writes -/

section WriteOrderLemmas

variable {M : Type}

theorem writesOf_append (es fs : List (Event M)) :
    writesOf (es ++ fs) = writesOf es ++ writesOf fs := by
  unfold writesOf
  exact List.filter_append es fs

/-- The store writes of `Deposit`: none; or a failed wallet update; or a successful wallet
update followed by the ledger append.  The wallet written is the stored wallet of the user. -/
theorem walletUsecase.Deposit_writes [Add M] [Zero M] [LE M] [∀ a b : M, Decidable (a ≤ b)]
    (u : walletUsecase) (req : DepositRequest M) (w : World M) :
    writesOf ((u.Deposit req w).2.issuedSince w) = [] ∨
    ∃ user stored wallet, w.userOf req.UserID = some user ∧
      w.walletOf user.ID = some stored ∧ wallet.ID = stored.ID ∧
      (writesOf ((u.Deposit req w).2.issuedSince w) = [⟨.walletUpdate wallet, .error⟩] ∨
        ∃ t o, writesOf ((u.Deposit req w).2.issuedSince w) =
          [⟨.walletUpdate wallet, .ok⟩, ⟨.transactionCreate t, o⟩]) := by
  by_cases hna : req.Amount ≤ 0
  · left
    unfold walletUsecase.Deposit
    rw [if_pos hna]
    simp [World.issuedSince, writesOf]
  rcases walletUsecase.Deposit_paths u req w hna with
    ⟨err, h⟩ | ⟨user, err, _, h⟩ | ⟨user, wallet, err, hu, hw, h⟩ |
    ⟨user, wallet, err, hu, hw, h⟩ | ⟨user, wallet, hu, hw, h⟩
  · left
    rw [h]
    simp [World.issuedSince, writesOf, Call.isWrite]
  · left
    rw [h]
    simp [World.issuedSince, writesOf, Call.isWrite]
  · right
    have hws : ∃ wallet1 : Wallet M,
        writesOf ((u.Deposit req w).2.issuedSince w) = [⟨.walletUpdate wallet1, .error⟩] ∧
          wallet1.ID = wallet.ID := by
      rw [h]
      simp only [World.issuedSince, World.failedUpdate_trace, World.afterLookup_trace,
        List.append_assoc, List.drop_left]
      exact ⟨_, rfl, rfl⟩
    obtain ⟨wallet1, h1, h2⟩ := hws
    exact ⟨user, wallet, wallet1, hu, hw, h2, Or.inl h1⟩
  · right
    have hws : ∃ (wallet1 : Wallet M) (t : Transaction M),
        writesOf ((u.Deposit req w).2.issuedSince w) =
          [⟨.walletUpdate wallet1, .ok⟩, ⟨.transactionCreate t, .error⟩] ∧
          wallet1.ID = wallet.ID := by
      rw [h]
      simp only [World.issuedSince, World.failedCreate_trace, World.afterInvalidate_trace,
        World.afterUpdate_trace, World.afterLookup_trace, List.append_assoc, List.drop_left]
      cases hrc : u.redisClient
      · exact ⟨_, _, rfl, rfl⟩
      · exact ⟨_, _, rfl, rfl⟩
    obtain ⟨wallet1, t, h1, h2⟩ := hws
    exact ⟨user, wallet, wallet1, hu, hw, h2, Or.inr ⟨t, .error, h1⟩⟩
  · right
    have hws : ∃ (wallet1 : Wallet M) (t : Transaction M),
        writesOf ((u.Deposit req w).2.issuedSince w) =
          [⟨.walletUpdate wallet1, .ok⟩, ⟨.transactionCreate t, .ok⟩] ∧
          wallet1.ID = wallet.ID := by
      rw [h]
      simp only [World.issuedSince, World.afterCreate_trace, World.afterInvalidate_trace,
        World.afterUpdate_trace, World.afterLookup_trace, List.append_assoc, List.drop_left]
      cases hrc : u.redisClient
      · exact ⟨_, _, rfl, rfl⟩
      · exact ⟨_, _, rfl, rfl⟩
    obtain ⟨wallet1, t, h1, h2⟩ := hws
    exact ⟨user, wallet, wallet1, hu, hw, h2, Or.inr ⟨t, .ok, h1⟩⟩

/-- The store writes of `Withdraw`: as for `Deposit`. -/
theorem walletUsecase.Withdraw_writes [Sub M] [Zero M] [LE M] [LT M]
    [∀ a b : M, Decidable (a ≤ b)] [∀ a b : M, Decidable (a < b)]
    (u : walletUsecase) (req : WithdrawRequest M) (w : World M) :
    writesOf ((u.Withdraw req w).2.issuedSince w) = [] ∨
    ∃ user stored wallet, w.userOf req.UserID = some user ∧
      w.walletOf user.ID = some stored ∧ wallet.ID = stored.ID ∧
      (writesOf ((u.Withdraw req w).2.issuedSince w) = [⟨.walletUpdate wallet, .error⟩] ∨
        ∃ t o, writesOf ((u.Withdraw req w).2.issuedSince w) =
          [⟨.walletUpdate wallet, .ok⟩, ⟨.transactionCreate t, o⟩]) := by
  by_cases hna : req.Amount ≤ 0
  · left
    unfold walletUsecase.Withdraw
    rw [if_pos hna]
    simp [World.issuedSince, writesOf]
  rcases walletUsecase.Withdraw_paths u req w hna with
    ⟨err, h⟩ | ⟨user, err, _, h⟩ | ⟨user, wallet, _, _, _, h⟩ |
    ⟨user, wallet, err, hu, hw, _, h⟩ | ⟨user, wallet, err, hu, hw, _, h⟩ |
    ⟨user, wallet, hu, hw, _, h⟩
  · left
    rw [h]
    simp [World.issuedSince, writesOf, Call.isWrite]
  · left
    rw [h]
    simp [World.issuedSince, writesOf, Call.isWrite]
  · left
    rw [h]
    simp [World.issuedSince, writesOf, Call.isWrite]
  · right
    have hws : ∃ wallet1 : Wallet M,
        writesOf ((u.Withdraw req w).2.issuedSince w) = [⟨.walletUpdate wallet1, .error⟩] ∧
          wallet1.ID = wallet.ID := by
      rw [h]
      simp only [World.issuedSince, World.failedUpdate_trace, World.afterLookup_trace,
        List.append_assoc, List.drop_left]
      exact ⟨_, rfl, rfl⟩
    obtain ⟨wallet1, h1, h2⟩ := hws
    exact ⟨user, wallet, wallet1, hu, hw, h2, Or.inl h1⟩
  · right
    have hws : ∃ (wallet1 : Wallet M) (t : Transaction M),
        writesOf ((u.Withdraw req w).2.issuedSince w) =
          [⟨.walletUpdate wallet1, .ok⟩, ⟨.transactionCreate t, .error⟩] ∧
          wallet1.ID = wallet.ID := by
      rw [h]
      simp only [World.issuedSince, World.failedCreate_trace, World.afterInvalidate_trace,
        World.afterUpdate_trace, World.afterLookup_trace, List.append_assoc, List.drop_left]
      cases hrc : u.redisClient
      · exact ⟨_, _, rfl, rfl⟩
      · exact ⟨_, _, rfl, rfl⟩
    obtain ⟨wallet1, t, h1, h2⟩ := hws
    exact ⟨user, wallet, wallet1, hu, hw, h2, Or.inr ⟨t, .error, h1⟩⟩
  · right
    have hws : ∃ (wallet1 : Wallet M) (t : Transaction M),
        writesOf ((u.Withdraw req w).2.issuedSince w) =
          [⟨.walletUpdate wallet1, .ok⟩, ⟨.transactionCreate t, .ok⟩] ∧
          wallet1.ID = wallet.ID := by
      rw [h]
      simp only [World.issuedSince, World.afterCreate_trace, World.afterInvalidate_trace,
        World.afterUpdate_trace, World.afterLookup_trace, List.append_assoc, List.drop_left]
      cases hrc : u.redisClient
      · exact ⟨_, _, rfl, rfl⟩
      · exact ⟨_, _, rfl, rfl⟩
    obtain ⟨wallet1, t, h1, h2⟩ := hws
    exact ⟨user, wallet, wallet1, hu, hw, h2, Or.inr ⟨t, .ok, h1⟩⟩

/-- The store writes of the body of `Transfer`: none; or a failed update of the sender's
wallet; or that update succeeded and the update of the receiver's wallet failed; or both
succeeded, in this order, followed by the ledger append. -/
theorem walletUsecase.transferLocked_writes [Add M] [Sub M] [Zero M] [LE M] [LT M]
    [∀ a b : M, Decidable (a ≤ b)] [∀ a b : M, Decidable (a < b)]
    (u : walletUsecase) (req : TransferRequest M) (w : World M) (hna : ¬ req.Amount ≤ 0) :
    writesOf ((u.transferLocked req w).2.issuedSince w) = [] ∨
    ∃ sender receiver senderStored receiverStored senderWallet receiverWallet,
      w.userOf req.SenderID = some sender ∧ w.userOf req.ReceiverID = some receiver ∧
      w.walletOf sender.ID = some senderStored ∧
      w.walletOf receiver.ID = some receiverStored ∧
      senderWallet.ID = senderStored.ID ∧ receiverWallet.ID = receiverStored.ID ∧
      (writesOf ((u.transferLocked req w).2.issuedSince w) =
          [⟨.walletUpdate senderWallet, .error⟩] ∨
        writesOf ((u.transferLocked req w).2.issuedSince w) =
          [⟨.walletUpdate senderWallet, .ok⟩, ⟨.walletUpdate receiverWallet, .error⟩] ∨
        ∃ t o, writesOf ((u.transferLocked req w).2.issuedSince w) =
          [⟨.walletUpdate senderWallet, .ok⟩, ⟨.walletUpdate receiverWallet, .ok⟩,
            ⟨.transactionCreate t, o⟩]) := by
  rcases walletUsecase.transferLocked_paths u req w hna with
    ⟨err, h⟩ | ⟨s, err, _, h⟩ | ⟨s, r, err, _, _, h⟩ | ⟨s, r, sw, err, _, _, _, h⟩ |
    ⟨s, r, sw, rw, _, _, _, _, _, h⟩ | ⟨s, r, sw, rw, err, hs, hr, hsw, hrw, _, h⟩ |
    ⟨s, r, sw, rw, err, hs, hr, hsw, hrw, _, h⟩ |
    ⟨s, r, sw, rw, err, hs, hr, hsw, hrw, _, h⟩ |
    ⟨s, r, sw, rw, hs, hr, hsw, hrw, _, h⟩
  · left
    rw [h]
    simp [World.issuedSince, writesOf, Call.isWrite]
  · left
    rw [h]
    simp [World.issuedSince, writesOf, Call.isWrite]
  · left
    rw [h]
    simp [World.issuedSince, writesOf, Call.isWrite]
  · left
    rw [h]
    simp [World.issuedSince, writesOf, Call.isWrite]
  · left
    rw [h]
    simp [World.issuedSince, writesOf, Call.isWrite]
  · right
    have hws : ∃ wallet1 : Wallet M,
        writesOf ((u.transferLocked req w).2.issuedSince w) =
          [⟨.walletUpdate wallet1, .error⟩] ∧ wallet1.ID = sw.ID := by
      rw [h]
      simp only [World.issuedSince, World.failedUpdate_trace, World.afterLookups_trace,
        List.append_assoc, List.drop_left]
      exact ⟨_, rfl, rfl⟩
    obtain ⟨wallet1, h1, h2⟩ := hws
    exact ⟨s, r, sw, rw, wallet1, rw, hs, hr, hsw, hrw, h2, rfl, Or.inl h1⟩
  · right
    have hws : ∃ wallet1 wallet2 : Wallet M,
        writesOf ((u.transferLocked req w).2.issuedSince w) =
          [⟨.walletUpdate wallet1, .ok⟩, ⟨.walletUpdate wallet2, .error⟩] ∧
          wallet1.ID = sw.ID ∧ wallet2.ID = rw.ID := by
      rw [h]
      simp only [World.issuedSince, World.failedUpdate_trace, World.afterUpdate_trace,
        World.afterLookups_trace, List.append_assoc, List.drop_left]
      exact ⟨_, _, rfl, rfl, rfl⟩
    obtain ⟨wallet1, wallet2, h1, h2, h3⟩ := hws
    exact ⟨s, r, sw, rw, wallet1, wallet2, hs, hr, hsw, hrw, h2, h3, Or.inr (Or.inl h1)⟩
  · right
    have hws : ∃ (wallet1 wallet2 : Wallet M) (t : Transaction M),
        writesOf ((u.transferLocked req w).2.issuedSince w) =
          [⟨.walletUpdate wallet1, .ok⟩, ⟨.walletUpdate wallet2, .ok⟩,
            ⟨.transactionCreate t, .error⟩] ∧
          wallet1.ID = sw.ID ∧ wallet2.ID = rw.ID := by
      rw [h]
      simp only [World.issuedSince, World.failedCreate_trace, World.afterInvalidate_trace,
        World.afterUpdate_trace, World.afterLookups_trace, List.append_assoc, List.drop_left]
      cases hrc : u.redisClient
      · exact ⟨_, _, _, rfl, rfl, rfl⟩
      · exact ⟨_, _, _, rfl, rfl, rfl⟩
    obtain ⟨wallet1, wallet2, t, h1, h2, h3⟩ := hws
    exact ⟨s, r, sw, rw, wallet1, wallet2, hs, hr, hsw, hrw, h2, h3,
      Or.inr (Or.inr ⟨t, .error, h1⟩)⟩
  · right
    have hws : ∃ (wallet1 wallet2 : Wallet M) (t : Transaction M),
        writesOf ((u.transferLocked req w).2.issuedSince w) =
          [⟨.walletUpdate wallet1, .ok⟩, ⟨.walletUpdate wallet2, .ok⟩,
            ⟨.transactionCreate t, .ok⟩] ∧
          wallet1.ID = sw.ID ∧ wallet2.ID = rw.ID := by
      rw [h]
      simp only [World.issuedSince, World.afterCreate_trace, World.afterInvalidate_trace,
        World.afterUpdate_trace, World.afterLookups_trace, List.append_assoc, List.drop_left]
      cases hrc : u.redisClient
      · exact ⟨_, _, _, rfl, rfl, rfl⟩
      · exact ⟨_, _, _, rfl, rfl, rfl⟩
    obtain ⟨wallet1, wallet2, t, h1, h2, h3⟩ := hws
    exact ⟨s, r, sw, rw, wallet1, wallet2, hs, hr, hsw, hrw, h2, h3,
      Or.inr (Or.inr ⟨t, .ok, h1⟩)⟩

/-- The store writes of `Transfer` are those of its body, run from the world `w1` the lock
section left, which has the users and wallets of `w`; or there are none. -/
theorem walletUsecase.Transfer_writes_body [Add M] [Sub M] [Zero M] [LE M] [LT M]
    [∀ a b : M, Decidable (a ≤ b)] [∀ a b : M, Decidable (a < b)]
    (u : walletUsecase) (req : TransferRequest M) (w : World M) :
    writesOf ((u.Transfer req w).2.issuedSince w) = [] ∨
    (¬ req.Amount ≤ 0 ∧ ∃ w1 : World M, (∀ id, w1.userOf id = w.userOf id) ∧
      (∀ id, w1.walletOf id = w.walletOf id) ∧
      writesOf ((u.Transfer req w).2.issuedSince w) =
        writesOf ((u.transferLocked req w1).2.issuedSince w1)) := by
  by_cases hna : req.Amount ≤ 0
  · left
    unfold walletUsecase.Transfer
    rw [if_pos hna]
    simp [World.issuedSince, writesOf]
  by_cases hne : req.SenderID = req.ReceiverID
  · left
    unfold walletUsecase.Transfer
    rw [if_neg hna, if_pos hne]
    simp [World.issuedSince, writesOf]
  cases hu : u.redisClient with
  | false =>
    right
    refine ⟨hna, w, fun _ => rfl, fun _ => rfl, ?_⟩
    rw [walletUsecase.Transfer_noRedis u req w hna hne hu]
  | true =>
    rcases walletUsecase.Transfer_redis u req w hna hne hu with
      ⟨o, _, h⟩ | ⟨o, _, _, h⟩ | ⟨_, _, h⟩
    · left
      rw [h]
      simp [World.issuedSince, writesOf, Call.isWrite]
    · left
      rw [h]
      simp [World.issuedSince, writesOf, Call.isWrite, redisClient.Del_trace]
    · right
      refine ⟨hna, (w.afterSetNX req.firstLockKey "1" 10).afterSetNX req.secondLockKey "1" 10,
        fun _ => rfl, fun _ => rfl, ?_⟩
      obtain ⟨es, hes⟩ := walletUsecase.transferLocked_trace u req
        ((w.afterSetNX req.firstLockKey "1" 10).afterSetNX req.secondLockKey "1" 10) hna
      have hR : (u.transferLocked req
          ((w.afterSetNX req.firstLockKey "1" 10).afterSetNX req.secondLockKey "1"
            10)).2.issuedSince
          ((w.afterSetNX req.firstLockKey "1" 10).afterSetNX req.secondLockKey "1" 10) =
          es := by
        unfold World.issuedSince
        rw [hes, List.drop_left]
      rw [hR, h]
      unfold World.issuedSince
      rw [redisClient.Del_trace, redisClient.Del_trace, hes]
      simp only [World.afterSetNX_trace, List.append_assoc, List.drop_left]
      simp [writesOf, Call.isWrite]

end WriteOrderLemmas

/-! ## Lemmas on the history handler -/

section HandlerLemmas

/-- Every early return of the history handler before the engine is a reply with status 400. -/
theorem WalletHandler.historyArguments_error (sc : Strconv)
    (requestID userIDStr limitStr offsetStr : String) (errResp : ErrorResponse)
    (h : WalletHandler.historyArguments sc requestID userIDStr limitStr offsetStr =
      .error errResp) :
    errResp.Code = 400 ∧ errResp.RequestID = requestID := by
  unfold WalletHandler.historyArguments at h
  cases hp : sc.ParseInt userIDStr with
  | none =>
    simp only [hp] at h
    cases h
    exact ⟨rfl, rfl⟩
  | some userID =>
    simp only [hp] at h
    by_cases hl : limitStr = ""
    · by_cases ho : offsetStr = ""
      · simp [hl, ho] at h
      · cases ha : sc.Atoi offsetStr with
        | none =>
          simp [hl, ho, ha] at h
          cases h
          exact ⟨rfl, rfl⟩
        | some n =>
          by_cases hn : n < 0
          · simp [hl, ho, ha, hn] at h
            cases h
            exact ⟨rfl, rfl⟩
          · simp [hl, ho, ha, hn] at h
    · cases hb : sc.Atoi limitStr with
      | none =>
        simp [hl, hb] at h
        cases h
        exact ⟨rfl, rfl⟩
      | some m =>
        by_cases hm : m ≤ 0
        · simp [hl, hb, hm] at h
          cases h
          exact ⟨rfl, rfl⟩
        · by_cases ho : offsetStr = ""
          · simp [hl, hb, hm, ho] at h
          · cases ha : sc.Atoi offsetStr with
            | none =>
              simp [hl, hb, hm, ho, ha] at h
              cases h
              exact ⟨rfl, rfl⟩
            | some n =>
              by_cases hn : n < 0
              · simp [hl, hb, hm, ho, ha, hn] at h
                cases h
                exact ⟨rfl, rfl⟩
              · simp [hl, hb, hm, ho, ha, hn] at h

/-- When the history handler goes on to the engine: the user id parsed, the limit is absent
or a positive number, and the offset is absent or a non-negative number; the pagination is
built from them. -/
theorem WalletHandler.historyArguments_ok (sc : Strconv)
    (requestID userIDStr limitStr offsetStr : String) (userID : Int)
    (pagination : PaginationRequest) :
    WalletHandler.historyArguments sc requestID userIDStr limitStr offsetStr =
        .ok (userID, pagination) ↔
      sc.ParseInt userIDStr = some userID ∧
      ((limitStr = "" ∧ pagination.Limit = 10) ∨
        (limitStr ≠ "" ∧ ∃ m, sc.Atoi limitStr = some m ∧ 0 < m ∧
          pagination.Limit = if m > 100 then 100 else m)) ∧
      ((offsetStr = "" ∧ pagination.Offset = 0) ∨
        (offsetStr ≠ "" ∧ ∃ n, sc.Atoi offsetStr = some n ∧ 0 ≤ n ∧ pagination.Offset = n)) := by
  obtain ⟨limit, offset⟩ := pagination
  unfold WalletHandler.historyArguments
  cases hp : sc.ParseInt userIDStr with
  | none => simp
  | some userID1 =>
    by_cases hl : limitStr = ""
    · by_cases ho : offsetStr = ""
      · simp [hl, ho]
        tauto
      · cases ha : sc.Atoi offsetStr with
        | none => simp [hl, ho, ha]
        | some n =>
          by_cases hn : n < 0
          · simp [hl, ho, ha, hn]
          · simp [hl, ho, ha, hn]
            intro _
            constructor
            · rintro ⟨h2, h3⟩
              exact ⟨h2.symm, by omega, h3.symm⟩
            · rintro ⟨h2, _, h3⟩
              exact ⟨h2.symm, h3.symm⟩
    · cases hb : sc.Atoi limitStr with
      | none => simp [hl, hb]
      | some m =>
        by_cases hm : m ≤ 0
        · simp [hl, hb, hm]
        · by_cases ho : offsetStr = ""
          · simp [hl, hb, hm, ho]
            intro _
            constructor
            · rintro ⟨h2, h3⟩
              exact ⟨⟨by omega, h2.symm⟩, h3.symm⟩
            · rintro ⟨⟨_, h2⟩, h3⟩
              exact ⟨h2.symm, h3.symm⟩
          · cases ha : sc.Atoi offsetStr with
            | none => simp [hl, hb, hm, ho, ha]
            | some n =>
              by_cases hn : n < 0
              · simp [hl, hb, hm, ho, ha, hn]
              · simp [hl, hb, hm, ho, ha, hn]
                intro _
                constructor
                · rintro ⟨h2, h3⟩
                  exact ⟨⟨by omega, h2.symm⟩, by omega, h3.symm⟩
                · rintro ⟨⟨_, h2⟩, _, h3⟩
                  exact ⟨h2.symm, h3.symm⟩

end HandlerLemmas

/-! ## `Transfer` with and without the lock service -/

section LockstepLemmas

variable {M : Type}

/-- Store calls that are all store calls. -/
theorem storeCallsOf_of_store (es : List (Event M)) (h : ∀ e ∈ es, e.call.isStore = true) :
    storeCallsOf es = es := by
  unfold storeCallsOf
  exact List.filter_eq_self.mpr h

theorem storeCallsOf_append (es fs : List (Event M)) :
    storeCallsOf (es ++ fs) = storeCallsOf es ++ storeCallsOf fs := by
  unfold storeCallsOf
  exact List.filter_append es fs

/-- Two worlds with the same store that have issued nothing yet are in step. -/
theorem World.inStep_start (w W : World M) (h : w.sameStore W) : World.inStep w W w W 0 :=
  ⟨h, rfl, rfl, [], rfl, by simp, by simp, by simp⟩

/-- Runs in step meet the same driver answer next when the faults of the two worlds agree at
their next positions. -/
theorem World.inStep_nextFault {w0 W0 w W : World M} {k : Nat} (h : World.inStep w0 W0 w W k)
    (hf : W0.fault (W0.trace.length + k) = w0.fault (w0.trace.length + k)) :
    W.nextFault = w.nextFault := by
  obtain ⟨_, hfw, hfW, es, hlen, _, htw, htW⟩ := h
  unfold World.nextFault
  rw [hfw, hfW, htw, htW, List.length_append, List.length_append, hlen]
  exact hf

/-- Runs in step stay in step when both record the same store call. -/
theorem World.inStep_emit {w0 W0 w W : World M} {k : Nat} (h : World.inStep w0 W0 w W k)
    (c : Call M) (o : Outcome) (hc : c.isStore = true) :
    World.inStep w0 W0 (w.emit c o) (W.emit c o) (k + 1) := by
  obtain ⟨hs, hfw, hfW, es, hlen, hst, htw, htW⟩ := h
  refine ⟨hs, hfw, hfW, es ++ [⟨c, o⟩], ?_, ?_, ?_, ?_⟩
  · rw [List.length_append, hlen]
    rfl
  · intro e he
    rcases List.mem_append.mp he with h1 | h1
    · exact hst e h1
    · rw [List.mem_singleton.mp h1]
      exact hc
  · rw [World.emit_trace, htw, List.append_assoc]
  · rw [World.emit_trace, htW, List.append_assoc]

/-- Runs in step stay in step when both update the same wallet row. -/
theorem World.inStep_updateWalletRow {w0 W0 w W : World M} {k : Nat}
    (h : World.inStep w0 W0 w W k) (b : M) (t : Nat) (id : Int) :
    World.inStep w0 W0 (w.updateWalletRow b t id) (W.updateWalletRow b t id) k := by
  obtain ⟨⟨h1, h2, h3, h4, h5⟩, hfw, hfW, es, hlen, hst, htw, htW⟩ := h
  refine ⟨⟨h1, ?_, h3, h4, h5⟩, hfw, hfW, es, hlen, hst, htw, htW⟩
  rw [World.updateWalletRow_wallets, World.updateWalletRow_wallets, h2]

/-- Runs in step stay in step when both insert the same ledger row. -/
theorem World.inStep_insertTransactionRow {w0 W0 w W : World M} {k : Nat}
    (h : World.inStep w0 W0 w W k) (t : Transaction M) :
    World.inStep w0 W0 (w.insertTransactionRow t) (W.insertTransactionRow t) k := by
  obtain ⟨⟨h1, h2, h3, h4, h5⟩, hfw, hfW, es, hlen, hst, htw, htW⟩ := h
  refine ⟨⟨h1, h2, ?_, ?_, h5⟩, hfw, hfW, es, hlen, hst, htw, htW⟩
  · rw [World.insertTransactionRow_transactions, World.insertTransactionRow_transactions, h3]
  · show W.nextTransactionID + 1 = w.nextTransactionID + 1
    rw [h4]

/-- What runs in step have done so far. -/
theorem World.inStep_issued {w0 W0 w W : World M} {k : Nat} (h : World.inStep w0 W0 w W k) :
    w.sameStore W ∧ storeCallsOf (W.issuedSince W0) = w.issuedSince w0 := by
  obtain ⟨hs, _, _, es, _, hst, htw, htW⟩ := h
  refine ⟨hs, ?_⟩
  unfold World.issuedSince
  rw [htw, htW, List.drop_left, List.drop_left]
  exact storeCallsOf_of_store es hst

theorem userRepository.GetByID_inStep (id : Int) {w0 W0 w W : World M} {k : Nat}
    (h : World.inStep w0 W0 w W k)
    (hf : W0.fault (W0.trace.length + k) = w0.fault (w0.trace.length + k)) :
    (userRepository.GetByID id W).1 = (userRepository.GetByID id w).1 ∧
      World.inStep w0 W0 (userRepository.GetByID id w).2 (userRepository.GetByID id W).2
        (k + 1) := by
  have hnf := World.inStep_nextFault h hf
  have hu : W.users = w.users := h.1.1
  unfold userRepository.GetByID
  rw [hnf, hu]
  cases w.nextFault with
  | some err => exact ⟨rfl, World.inStep_emit h _ _ rfl⟩
  | none =>
    cases w.users.find? (fun u => u.ID == id) with
    | none => exact ⟨rfl, World.inStep_emit h _ _ rfl⟩
    | some user => exact ⟨rfl, World.inStep_emit h _ _ rfl⟩

theorem walletRepository.GetByUserID_inStep (id : Int) {w0 W0 w W : World M} {k : Nat}
    (h : World.inStep w0 W0 w W k)
    (hf : W0.fault (W0.trace.length + k) = w0.fault (w0.trace.length + k)) :
    (walletRepository.GetByUserID id W).1 = (walletRepository.GetByUserID id w).1 ∧
      World.inStep w0 W0 (walletRepository.GetByUserID id w).2
        (walletRepository.GetByUserID id W).2 (k + 1) := by
  have hnf := World.inStep_nextFault h hf
  have hu : W.wallets = w.wallets := h.1.2.1
  unfold walletRepository.GetByUserID
  rw [hnf, hu]
  cases w.nextFault with
  | some err => exact ⟨rfl, World.inStep_emit h _ _ rfl⟩
  | none =>
    cases w.wallets.find? (fun (x : Wallet M) => x.UserID == id) with
    | none => exact ⟨rfl, World.inStep_emit h _ _ rfl⟩
    | some wallet => exact ⟨rfl, World.inStep_emit h _ _ rfl⟩

theorem walletRepository.Update_inStep (wallet : Wallet M) {w0 W0 w W : World M} {k : Nat}
    (h : World.inStep w0 W0 w W k)
    (hf : W0.fault (W0.trace.length + k) = w0.fault (w0.trace.length + k)) :
    (walletRepository.Update wallet W).1 = (walletRepository.Update wallet w).1 ∧
      World.inStep w0 W0 (walletRepository.Update wallet w).2
        (walletRepository.Update wallet W).2 (k + 1) := by
  have hnf := World.inStep_nextFault h hf
  have hnow : W.now = w.now := h.1.2.2.2.2
  unfold walletRepository.Update
  rw [hnf, hnow]
  cases w.nextFault with
  | some err => exact ⟨rfl, World.inStep_emit h _ _ rfl⟩
  | none =>
    exact ⟨rfl, World.inStep_emit (World.inStep_updateWalletRow h _ _ _) _ _ rfl⟩

/-- The ledger append of two runs that were in step before one of them issued one more call
that is not a store call: the same result, the same store after, and the same store calls. -/
theorem transactionRepository.Create_inStep (transaction : Transaction M)
    {w0 W0 w W W1 : World M} {k : Nat} (h : World.inStep w0 W0 w W k)
    (es : List (Event M)) (hes : ∀ e ∈ es, e.call.isStore = false)
    (hs : W.sameStore W1) (hfault : W1.fault = W.fault) (htrace : W1.trace = W.trace ++ es)
    (hf : W0.fault (W0.trace.length + k + es.length) = w0.fault (w0.trace.length + k)) :
    (transactionRepository.Create transaction W1).1 =
        (transactionRepository.Create transaction w).1 ∧
      World.sameStore (transactionRepository.Create transaction w).2
        (transactionRepository.Create transaction W1).2 ∧
      storeCallsOf ((transactionRepository.Create transaction W1).2.issuedSince W0) =
        (transactionRepository.Create transaction w).2.issuedSince w0 := by
  obtain ⟨⟨h1, h2, h3, h4, h5⟩, hfw, hfW, fs, hlen, hst, htw, htW⟩ := h
  obtain ⟨g1, g2, g3, g4, g5⟩ := hs
  have hnf : W1.nextFault = w.nextFault := by
    unfold World.nextFault
    rw [hfault, hfW, hfw, htrace, htW, htw, List.length_append, List.length_append,
      List.length_append, hlen]
    exact hf
  have hnow : W1.now = w.now := by rw [g5, h5]
  have hid : W1.nextTransactionID = w.nextTransactionID := by rw [g4, h4]
  have hfil : storeCallsOf es = [] := by
    unfold storeCallsOf
    rw [List.filter_eq_nil_iff]
    intro e he
    rw [hes e he]
    simp
  unfold transactionRepository.Create
  rw [hnf, hnow, hid]
  cases w.nextFault with
  | some err =>
    refine ⟨rfl, ⟨by rw [World.emit_users, World.emit_users, g1, h1],
      by rw [World.emit_wallets, World.emit_wallets, g2, h2],
      by rw [World.emit_transactions, World.emit_transactions, g3, h3],
      by rw [World.emit_nextTransactionID, World.emit_nextTransactionID, g4, h4],
      by rw [World.emit_now, World.emit_now, g5, h5]⟩, ?_⟩
    unfold World.issuedSince
    rw [World.emit_trace, World.emit_trace, htrace, htW, htw, List.append_assoc,
      List.append_assoc, List.append_assoc, List.drop_left, List.drop_left,
      storeCallsOf_append, storeCallsOf_append, hfil, storeCallsOf_of_store fs hst]
    rfl
  | none =>
    refine ⟨rfl, ⟨?_, ?_, ?_, ?_, ?_⟩, ?_⟩
    · show W1.users = w.users
      rw [g1, h1]
    · show W1.wallets = w.wallets
      rw [g2, h2]
    · show W1.transactions ++ [_] = w.transactions ++ [_]
      rw [g3, h3]
    · show W1.nextTransactionID + 1 = w.nextTransactionID + 1
      rw [g4, h4]
    · show W1.now = w.now
      rw [g5, h5]
    · unfold World.issuedSince
      rw [World.emit_trace, World.emit_trace, World.insertTransactionRow_trace,
        World.insertTransactionRow_trace, htrace, htW, htw, List.append_assoc,
        List.append_assoc, List.append_assoc, List.drop_left, List.drop_left,
        storeCallsOf_append, storeCallsOf_append, hfil, storeCallsOf_of_store fs hst]
      rfl

/-- The cache invalidation leaves the store as it is. -/
theorem redisClient.Del_sameStore (keys : List String) (w : World M) :
    w.sameStore (redisClient.Del keys w) :=
  ⟨redisClient.Del_users keys w, redisClient.Del_wallets keys w,
    redisClient.Del_transactions keys w, redisClient.Del_nextTransactionID keys w,
    redisClient.Del_now keys w⟩

/-- The body of `Transfer` with and without a Redis client, on worlds with the same store in
which the store calls meet the same driver answers (the ledger append comes one call later
with a client, after the cache invalidation): the same result, the same store after, and the
same store calls with the same outcomes. -/
theorem walletUsecase.transferLocked_inStep [Add M] [Sub M] [Zero M] [LE M] [LT M]
    [∀ a b : M, Decidable (a ≤ b)] [∀ a b : M, Decidable (a < b)]
    (u U : walletUsecase) (hu : u.redisClient = false) (hU : U.redisClient = true)
    (req : TransferRequest M) (w W : World M) (hs : w.sameStore W)
    (hf : ∀ i, i < 6 → W.fault (W.trace.length + i) = w.fault (w.trace.length + i))
    (hf6 : W.fault (W.trace.length + 7) = w.fault (w.trace.length + 6)) :
    (U.transferLocked req W).1 = (u.transferLocked req w).1 ∧
      World.sameStore (u.transferLocked req w).2 (U.transferLocked req W).2 ∧
      storeCallsOf ((U.transferLocked req W).2.issuedSince W) =
        (u.transferLocked req w).2.issuedSince w := by
  have h0 := World.inStep_start w W hs
  unfold walletUsecase.transferLocked
  obtain ⟨e1, i1⟩ := userRepository.GetByID_inStep req.SenderID h0 (hf 0 (by omega))
  generalize userRepository.GetByID req.SenderID w = a at e1 i1 ⊢
  generalize userRepository.GetByID req.SenderID W = b at e1 i1 ⊢
  obtain ⟨r1, w1⟩ := a
  obtain ⟨R1, W1⟩ := b
  simp only at e1 i1
  subst e1
  cases R1 with
  | error err => exact ⟨rfl, World.inStep_issued i1⟩
  | ok sender =>
    simp only []
    obtain ⟨e2, i2⟩ := userRepository.GetByID_inStep req.ReceiverID i1 (hf 1 (by omega))
    generalize userRepository.GetByID req.ReceiverID w1 = a at e2 i2 ⊢
    generalize userRepository.GetByID req.ReceiverID W1 = b at e2 i2 ⊢
    obtain ⟨r2, w2⟩ := a
    obtain ⟨R2, W2⟩ := b
    simp only at e2 i2
    subst e2
    cases R2 with
    | error err => exact ⟨rfl, World.inStep_issued i2⟩
    | ok receiver =>
      simp only []
      obtain ⟨e3, i3⟩ := walletRepository.GetByUserID_inStep sender.ID i2 (hf 2 (by omega))
      generalize walletRepository.GetByUserID sender.ID w2 = a at e3 i3 ⊢
      generalize walletRepository.GetByUserID sender.ID W2 = b at e3 i3 ⊢
      obtain ⟨r3, w3⟩ := a
      obtain ⟨R3, W3⟩ := b
      simp only at e3 i3
      subst e3
      cases R3 with
      | error err => exact ⟨rfl, World.inStep_issued i3⟩
      | ok senderWallet =>
        simp only []
        obtain ⟨e4, i4⟩ :=
          walletRepository.GetByUserID_inStep receiver.ID i3 (hf 3 (by omega))
        generalize walletRepository.GetByUserID receiver.ID w3 = a at e4 i4 ⊢
        generalize walletRepository.GetByUserID receiver.ID W3 = b at e4 i4 ⊢
        obtain ⟨r4, w4⟩ := a
        obtain ⟨R4, W4⟩ := b
        simp only at e4 i4
        subst e4
        cases R4 with
        | error err => exact ⟨rfl, World.inStep_issued i4⟩
        | ok receiverWallet =>
          simp only []
          have hnow : W4.now = w4.now := i4.1.2.2.2.2
          rw [hnow]
          cases senderWallet.Withdraw req.Amount w4.now with
          | error err => exact ⟨rfl, World.inStep_issued i4⟩
          | ok senderWallet1 =>
            simp only []
            cases receiverWallet.Deposit req.Amount w4.now with
            | error err => exact ⟨rfl, World.inStep_issued i4⟩
            | ok receiverWallet1 =>
              simp only []
              obtain ⟨e5, i5⟩ :=
                walletRepository.Update_inStep senderWallet1 i4 (hf 4 (by omega))
              generalize walletRepository.Update senderWallet1 w4 = a at e5 i5 ⊢
              generalize walletRepository.Update senderWallet1 W4 = b at e5 i5 ⊢
              obtain ⟨r5, w5⟩ := a
              obtain ⟨R5, W5⟩ := b
              simp only at e5 i5
              subst e5
              cases R5 with
              | error err => exact ⟨rfl, World.inStep_issued i5⟩
              | ok senderWallet2 =>
                simp only []
                obtain ⟨e6, i6⟩ :=
                  walletRepository.Update_inStep receiverWallet1 i5 (hf 5 (by omega))
                generalize walletRepository.Update receiverWallet1 w5 = a at e6 i6 ⊢
                generalize walletRepository.Update receiverWallet1 W5 = b at e6 i6 ⊢
                obtain ⟨r6, w6⟩ := a
                obtain ⟨R6, W6⟩ := b
                simp only at e6 i6
                subst e6
                cases R6 with
                | error err => exact ⟨rfl, World.inStep_issued i6⟩
                | ok receiverWallet2 =>
                  simp only [hu, hU, if_true, Bool.false_eq_true, if_false]
                  obtain ⟨e7, s7, c7⟩ := transactionRepository.Create_inStep
                    { ID := 0, WalletID := senderWallet2.ID,
                      DestWalletID := some receiverWallet2.ID, Type_ := .Transfer,
                      Amount := req.Amount, BalanceBefore := senderWallet.Balance,
                      BalanceAfter := senderWallet2.Balance, Description := req.Comment,
                      TransactionTime := 0, CreatedAt := 0 } i6
                    [⟨.redisDel [balanceCacheKey req.SenderID, balanceCacheKey req.ReceiverID],
                      match W6.nextFault with | some _ => .error | none => .ok⟩]
                    (by simp [Call.isStore])
                    (redisClient.Del_sameStore
                      [balanceCacheKey req.SenderID, balanceCacheKey req.ReceiverID] W6)
                    (redisClient.Del_fault _ W6) (redisClient.Del_trace _ W6) hf6
                  generalize transactionRepository.Create _ w6 = a at e7 s7 c7 ⊢
                  generalize transactionRepository.Create _ (redisClient.Del _ W6) = b
                    at e7 s7 c7 ⊢
                  obtain ⟨r7, w7⟩ := a
                  obtain ⟨R7, W7⟩ := b
                  simp only at e7 s7 c7
                  subst e7
                  cases R7 with
                  | error err => exact ⟨rfl, s7, c7⟩
                  | ok transaction1 => exact ⟨rfl, s7, c7⟩

/-- A store call is no call to Redis: no lock request and no cache operation. -/
theorem Call.isRedis_of_isStore (c : Call M) (h : c.isStore = true) :
    c.isRedis = false ∧ c.isLock = false := by
  cases c <;> simp [Call.isStore, Call.isRedis, Call.isLock] at h ⊢

/-- The store writes are among the store calls. -/
theorem writesOf_storeCallsOf (es : List (Event M)) : writesOf (storeCallsOf es) = writesOf es := by
  unfold writesOf storeCallsOf
  rw [List.filter_filter]
  congr 1
  funext e
  cases e.call <;> rfl

/-- Without a Redis client every call of the body of `Transfer` is a store call. -/
theorem walletUsecase.transferLocked_noRedis_events [Add M] [Sub M] [Zero M] [LE M] [LT M]
    [∀ a b : M, Decidable (a ≤ b)] [∀ a b : M, Decidable (a < b)]
    (u : walletUsecase) (req : TransferRequest M) (w : World M) (hna : ¬ req.Amount ≤ 0)
    (hu : u.redisClient = false) :
    ∀ e ∈ (u.transferLocked req w).2.issuedSince w, e.call.isStore = true := by
  rcases walletUsecase.transferLocked_paths u req w hna with
    ⟨err, h⟩ | ⟨s, err, _, h⟩ | ⟨s, r, err, _, _, h⟩ | ⟨s, r, sw, err, _, _, _, h⟩ |
    ⟨s, r, sw, rw, _, _, _, _, _, h⟩ | ⟨s, r, sw, rw, err, _, _, _, _, _, h⟩ |
    ⟨s, r, sw, rw, err, _, _, _, _, _, h⟩ | ⟨s, r, sw, rw, err, _, _, _, _, _, h⟩ |
    ⟨s, r, sw, rw, _, _, _, _, _, h⟩ <;>
  · rw [h]
    simp only [World.issuedSince, World.emit_trace, World.afterLookups_trace,
      World.failedUpdate_trace, World.afterUpdate_trace, World.failedCreate_trace,
      World.afterCreate_trace, World.afterInvalidate_trace, List.append_assoc,
      List.drop_left]
    simp [Call.isStore, hu]

/-- The body of `Transfer` never returns `ErrLockAcquisitionFailed`. -/
theorem walletUsecase.transferLocked_not_lock_error [Add M] [Sub M] [Zero M] [LE M] [LT M]
    [∀ a b : M, Decidable (a ≤ b)] [∀ a b : M, Decidable (a < b)]
    (u : walletUsecase) (req : TransferRequest M) (w : World M) (hna : ¬ req.Amount ≤ 0) :
    (u.transferLocked req w).1 ≠ .error ErrLockAcquisitionFailed := by
  rcases walletUsecase.transferLocked_paths u req w hna with
    ⟨err, h⟩ | ⟨s, err, _, h⟩ | ⟨s, r, err, _, _, h⟩ | ⟨s, r, sw, err, _, _, _, h⟩ |
    ⟨s, r, sw, rw, _, _, _, _, _, h⟩ | ⟨s, r, sw, rw, err, _, _, _, _, _, h⟩ |
    ⟨s, r, sw, rw, err, _, _, _, _, _, h⟩ | ⟨s, r, sw, rw, err, _, _, _, _, _, h⟩ |
    ⟨s, r, sw, rw, _, _, _, _, _, h⟩ <;>
  · rw [h]
    intro hc
    simp only [] at hc
    first
      | (split at hc <;> cases hc)
      | cases hc

/-- A valid `Transfer` without a Redis client and one with a client whose two lock requests
are granted, on worlds with the same store in which the store calls meet the same driver
answers: the same result, the same store after, the same store calls with the same outcomes. -/
theorem walletUsecase.Transfer_inStep [Add M] [Sub M] [Zero M] [LE M] [LT M]
    [∀ a b : M, Decidable (a ≤ b)] [∀ a b : M, Decidable (a < b)]
    (u U : walletUsecase) (hu : u.redisClient = false) (hU : U.redisClient = true)
    (req : TransferRequest M) (w W : World M) (hna : ¬ req.Amount ≤ 0)
    (hne : req.SenderID ≠ req.ReceiverID) (hs : w.sameStore W)
    (hf : ∀ i, i < 6 → W.fault (W.trace.length + 2 + i) = w.fault (w.trace.length + i))
    (hf6 : W.fault (W.trace.length + 9) = w.fault (w.trace.length + 6))
    (hlock : lockCallsSucceed ((U.Transfer req W).2.issuedSince W) = true) :
    (U.Transfer req W).1 = (u.Transfer req w).1 ∧
      World.sameStore (u.Transfer req w).2 (U.Transfer req W).2 ∧
      storeCallsOf ((U.Transfer req W).2.issuedSince W) = (u.Transfer req w).2.issuedSince w := by
  rw [walletUsecase.Transfer_noRedis u req w hna hne hu]
  rcases walletUsecase.Transfer_redis U req W hna hne hU with
    ⟨o, ho, h⟩ | ⟨o, ho, _, h⟩ | ⟨_, _, h⟩
  · rw [h] at hlock
    simp [World.issuedSince, lockCallsSucceed, Call.isLock] at hlock
    exact absurd hlock ho
  · rw [h] at hlock
    simp [World.issuedSince, lockCallsSucceed, Call.isLock, redisClient.Del_trace] at hlock
    exact absurd hlock ho
  · have hl : ((W.afterSetNX req.firstLockKey "1" 10).afterSetNX
        req.secondLockKey "1" 10).trace.length = W.trace.length + 2 := by
      simp [World.afterSetNX_trace]
    have hs2 : w.sameStore
        ((W.afterSetNX req.firstLockKey "1" 10).afterSetNX req.secondLockKey "1" 10) := hs
    have hf2 : ∀ i, i < 6 →
        ((W.afterSetNX req.firstLockKey "1" 10).afterSetNX req.secondLockKey "1" 10).fault
          (((W.afterSetNX req.firstLockKey "1" 10).afterSetNX
            req.secondLockKey "1" 10).trace.length + i) = w.fault (w.trace.length + i) := by
      intro i hi
      rw [hl]
      exact hf i hi
    have hf62 :
        ((W.afterSetNX req.firstLockKey "1" 10).afterSetNX req.secondLockKey "1" 10).fault
          (((W.afterSetNX req.firstLockKey "1" 10).afterSetNX
            req.secondLockKey "1" 10).trace.length + 7) = w.fault (w.trace.length + 6) := by
      rw [hl]
      exact hf6
    obtain ⟨hres, hst, hcalls⟩ := walletUsecase.transferLocked_inStep u U hu hU req w
      ((W.afterSetNX req.firstLockKey "1" 10).afterSetNX req.secondLockKey "1" 10)
      hs2 hf2 hf62
    obtain ⟨es, hes⟩ := walletUsecase.transferLocked_trace U req
      ((W.afterSetNX req.firstLockKey "1" 10).afterSetNX req.secondLockKey "1" 10) hna
    have hR : (U.transferLocked req ((W.afterSetNX req.firstLockKey "1" 10).afterSetNX
        req.secondLockKey "1" 10)).2.issuedSince
          ((W.afterSetNX req.firstLockKey "1" 10).afterSetNX req.secondLockKey "1" 10) = es := by
      unfold World.issuedSince
      rw [hes, List.drop_left]
    rw [hR] at hcalls
    rw [h]
    refine ⟨hres, ?_, ?_⟩
    · obtain ⟨g1, g2, g3, g4, g5⟩ := hst
      exact ⟨by simpa using g1, by simpa using g2, by simpa using g3, by simpa using g4,
        by simpa using g5⟩
    · rw [← hcalls]
      unfold World.issuedSince
      simp only []
      rw [redisClient.Del_trace, redisClient.Del_trace, hes]
      simp only [World.afterSetNX_trace, List.append_assoc, List.drop_left]
      simp [storeCallsOf, Call.isStore]

/-- An error of `userRepository.GetByID` matches no sentinel that the driver errors do not
match. -/
theorem userRepository.GetByID_error_Is {id : Int} {w w1 : World M} {err : Err} (s : Sentinel)
    (h : userRepository.GetByID id w = (.error err, w1))
    (hd : ∀ n e, w.fault n = some e → e.Is s = false) : err.Is s = false := by
  unfold userRepository.GetByID at h
  split at h
  · next e he =>
    cases h
    exact hd _ e he
  · split at h
    · cases h; rfl
    · cases h

theorem walletRepository.GetByUserID_error_Is {id : Int} {w w1 : World M} {err : Err}
    (s : Sentinel) (h : walletRepository.GetByUserID id w = (.error err, w1))
    (hd : ∀ n e, w.fault n = some e → e.Is s = false) : err.Is s = false := by
  unfold walletRepository.GetByUserID at h
  split at h
  · next e he =>
    cases h
    exact hd _ e he
  · split at h
    · cases h; rfl
    · cases h

theorem walletRepository.Update_error_Is {wallet : Wallet M} {w w1 : World M} {err : Err}
    (s : Sentinel) (h : walletRepository.Update wallet w = (.error err, w1))
    (hd : ∀ n e, w.fault n = some e → e.Is s = false) : err.Is s = false := by
  unfold walletRepository.Update at h
  split at h
  · next e he =>
    cases h
    exact hd _ e he
  · cases h

theorem transactionRepository.Create_error_Is {t : Transaction M} {w w1 : World M} {err : Err}
    (s : Sentinel) (h : transactionRepository.Create t w = (.error err, w1))
    (hd : ∀ n e, w.fault n = some e → e.Is s = false) : err.Is s = false := by
  unfold transactionRepository.Create at h
  split at h
  · next e he =>
    cases h
    exact hd _ e he
  · cases h

/-- When no driver error matches `ErrLockAcquisitionFailed`, no error of the body of
`Transfer` does. -/
theorem walletUsecase.transferLocked_not_lock_Is [Add M] [Sub M] [Zero M] [LE M] [LT M]
    [∀ a b : M, Decidable (a ≤ b)] [∀ a b : M, Decidable (a < b)]
    (u : walletUsecase) (req : TransferRequest M) (w : World M) (hna : ¬ req.Amount ≤ 0)
    (hd : ∀ n e, w.fault n = some e → e.Is .LockAcquisitionFailed = false) :
    errorMatches (u.transferLocked req w).1 .LockAcquisitionFailed = false := by
  have hif : ∀ (err : Err) (t : Sentinel) (x : Err) (message : String),
      err.Is .LockAcquisitionFailed = false → x.Is .LockAcquisitionFailed = false →
      (if err.Is t then x else WrapError err message).Is .LockAcquisitionFailed = false := by
    intro err t x message h1 h2
    split
    · exact h2
    · exact h1
  generalize hr : u.transferLocked req w = r
  unfold walletUsecase.transferLocked at hr
  split at hr
  · next err w1 h1 =>
    rw [← hr]
    exact hif err _ _ _ (userRepository.GetByID_error_Is _ h1 hd) rfl
  · next sender w1 h1 =>
    obtain ⟨hs, rfl⟩ := userRepository.GetByID_ok h1
    split at hr
    · next err w2 h2 =>
      rw [← hr]
      exact hif err _ _ _ (userRepository.GetByID_error_Is _ h2 hd) rfl
    · next receiver w2 h2 =>
      obtain ⟨hrv, rfl⟩ := userRepository.GetByID_ok h2
      split at hr
      · next err w3 h3 =>
        rw [← hr]
        exact hif err _ _ _ (walletRepository.GetByUserID_error_Is _ h3 hd) rfl
      · next senderWallet w3 h3 =>
        obtain ⟨hsw, rfl⟩ := walletRepository.GetByUserID_ok h3
        split at hr
        · next err w4 h4 =>
          rw [← hr]
          exact hif err _ _ _ (walletRepository.GetByUserID_error_Is _ h4 hd) rfl
        · next receiverWallet w4 h4 =>
          obtain ⟨hrw, rfl⟩ := walletRepository.GetByUserID_ok h4
          by_cases hlt : senderWallet.Balance < req.Amount
          · simp only [Wallet.Withdraw, if_neg hna, if_pos hlt] at hr
            rw [← hr]
            rfl
          · simp only [Wallet.Withdraw, Wallet.Deposit, if_neg hna, if_neg hlt] at hr
            split at hr
            · next err w5 h5 =>
              rw [← hr]
              show err.Is .LockAcquisitionFailed = false
              exact walletRepository.Update_error_Is _ h5 hd
            · next senderWallet2 w5 h5 =>
              obtain ⟨rfl, rfl⟩ := walletRepository.Update_ok h5
              split at hr
              · next err w6 h6 =>
                rw [← hr]
                show err.Is .LockAcquisitionFailed = false
                exact walletRepository.Update_error_Is _ h6 hd
              · next receiverWallet2 w6 h6 =>
                obtain ⟨rfl, rfl⟩ := walletRepository.Update_ok h6
                split at hr
                · next err w8 h8 =>
                  rw [← hr]
                  show err.Is .LockAcquisitionFailed = false
                  refine transactionRepository.Create_error_Is _ h8 ?_
                  cases hrc : u.redisClient
                  · exact hd
                  · intro n e he
                    simp only [if_true, redisClient.Del_fault] at he
                    exact hd n e he
                · next t1 w8 h8 =>
                  rw [← hr]
                  rfl

end LockstepLemmas

/-! ## The claims -/

section Claims

variable {M : Type}

/-- C1. For a user whose wallet is stored with balance `b` and an amount `a > 0`, when every
store call of the run succeeds, `Deposit` returns the ledger entry with type Deposit, the
wallet's id, amount `a`, balance before `b`, balance after `b + a` and the request comment as
description, leaves balance `b + a` stored for that wallet, and appends that entry to the
ledger. -/
theorem deposit_credits_wallet [Preorder M] [Add M] [Zero M] [∀ a b : M, Decidable (a ≤ b)]
    (u : walletUsecase) (req : DepositRequest M) (w : World M) (wallet : Wallet M)
    (hwallet : w.walletOf req.UserID = some wallet)
    (hpos : 0 < req.Amount)
    (hok : storeCallsSucceed ((u.Deposit req w).2.issuedSince w) = true) :
    (u.Deposit req w).1 = .ok
        { ID := w.nextTransactionID, WalletID := wallet.ID, DestWalletID := none,
          Type_ := .Deposit, Amount := req.Amount, BalanceBefore := wallet.Balance,
          BalanceAfter := wallet.Balance + req.Amount, Description := req.Comment,
          TransactionTime := w.now, CreatedAt := w.now } ∧
      (u.Deposit req w).2.walletOf req.UserID =
        some { wallet with Balance := wallet.Balance + req.Amount, UpdatedAt := w.now } ∧
      (u.Deposit req w).2.transactions = w.transactions ++
        [{ ID := w.nextTransactionID, WalletID := wallet.ID, DestWalletID := none,
           Type_ := .Deposit, Amount := req.Amount, BalanceBefore := wallet.Balance,
           BalanceAfter := wallet.Balance + req.Amount, Description := req.Comment,
           TransactionTime := w.now, CreatedAt := w.now }] := by
  have hna : ¬ req.Amount ≤ 0 := not_le_of_lt hpos
  rcases walletUsecase.Deposit_paths u req w hna with
    ⟨err, h⟩ | ⟨user, err, hu, h⟩ | ⟨user, wallet', err, hu, hw, h⟩ |
    ⟨user, wallet', err, hu, hw, h⟩ | ⟨user, wallet', hu, hw, h⟩
  · rw [h] at hok
    simp [World.issuedSince, storeCallsSucceed, Call.isStore] at hok
  · rw [h] at hok
    simp [World.issuedSince, storeCallsSucceed, Call.isStore] at hok
  · rw [h] at hok
    simp [World.issuedSince, storeCallsSucceed, Call.isStore] at hok
  · rw [h] at hok
    simp [World.issuedSince, storeCallsSucceed, Call.isStore, World.afterInvalidate_trace]
      at hok
  · rw [World.userOf_ID hu, hwallet] at hw
    cases hw
    rw [h]
    refine ⟨rfl, ?_, ?_⟩
    · simp [hwallet]
    · simp [World.stamped]

/-- A run of C1: the test fixture, user 1 deposits 50 into a wallet holding 100. -/
theorem deposit_credits_wallet_witness :
    ((walletUsecase.mk true).Deposit ⟨1, 50, "Test deposit"⟩ testWorld).1 = .ok
        { ID := 1, WalletID := 1, DestWalletID := none, Type_ := .Deposit, Amount := 50,
          BalanceBefore := 100, BalanceAfter := 100 + 50, Description := "Test deposit",
          TransactionTime := 1, CreatedAt := 1 } ∧
      ((walletUsecase.mk true).Deposit ⟨1, 50, "Test deposit"⟩ testWorld).2.walletOf 1 =
        some ⟨1, 1, 100 + 50, "USD", 0, 1⟩ ∧
      ((walletUsecase.mk true).Deposit ⟨1, 50, "Test deposit"⟩ testWorld).2.transactions =
        [] ++ [(⟨1, 1, none, .Deposit, 50, 100, 100 + 50, "Test deposit", 1, 1⟩ :
          Transaction Int)] :=
  deposit_credits_wallet (walletUsecase.mk true) ⟨1, 50, "Test deposit"⟩ testWorld
    ⟨1, 1, 100, "USD", 0, 0⟩ (by decide) (by decide) (by decide)

/-- C2. For a user whose wallet is stored with balance `b` and an amount `a` with
`0 < a ≤ b`, when every store call of the run succeeds, `Withdraw` returns the ledger entry
with type Withdrawal, amount `a`, balance before `b` and balance after `b - a`, and leaves
balance `b - a` stored for that wallet; for `a = b` that balance is `0` in any arithmetic in
which `x - x = 0`. -/
theorem withdraw_debits_wallet [Preorder M] [Sub M] [Zero M] [∀ a b : M, Decidable (a ≤ b)]
    [∀ a b : M, Decidable (a < b)]
    (u : walletUsecase) (req : WithdrawRequest M) (w : World M) (wallet : Wallet M)
    (hwallet : w.walletOf req.UserID = some wallet)
    (hpos : 0 < req.Amount) (hle : req.Amount ≤ wallet.Balance)
    (hok : storeCallsSucceed ((u.Withdraw req w).2.issuedSince w) = true) :
    (u.Withdraw req w).1 = .ok
        { ID := w.nextTransactionID, WalletID := wallet.ID, DestWalletID := none,
          Type_ := .Withdrawal, Amount := req.Amount, BalanceBefore := wallet.Balance,
          BalanceAfter := wallet.Balance - req.Amount, Description := req.Comment,
          TransactionTime := w.now, CreatedAt := w.now } ∧
      (u.Withdraw req w).2.walletOf req.UserID =
        some { wallet with Balance := wallet.Balance - req.Amount, UpdatedAt := w.now } ∧
      ((∀ x : M, x - x = 0) → req.Amount = wallet.Balance →
        ((u.Withdraw req w).2.walletOf req.UserID).map (fun x => x.Balance) = some 0) := by
  have hna : ¬ req.Amount ≤ 0 := not_le_of_lt hpos
  have hnlt : ¬ wallet.Balance < req.Amount := not_lt_of_le hle
  rcases walletUsecase.Withdraw_paths u req w hna with
    ⟨err, h⟩ | ⟨user, err, hu, h⟩ | ⟨user, wallet', hu, hw, hlt, h⟩ |
    ⟨user, wallet', err, hu, hw, hlt, h⟩ | ⟨user, wallet', err, hu, hw, hlt, h⟩ |
    ⟨user, wallet', hu, hw, hlt, h⟩
  · rw [h] at hok
    simp [World.issuedSince, storeCallsSucceed, Call.isStore] at hok
  · rw [h] at hok
    simp [World.issuedSince, storeCallsSucceed, Call.isStore] at hok
  · rw [World.userOf_ID hu, hwallet] at hw
    cases hw
    exact absurd hlt hnlt
  · rw [h] at hok
    simp [World.issuedSince, storeCallsSucceed, Call.isStore] at hok
  · rw [h] at hok
    simp [World.issuedSince, storeCallsSucceed, Call.isStore, World.afterInvalidate_trace]
      at hok
  · rw [World.userOf_ID hu, hwallet] at hw
    cases hw
    rw [h]
    refine ⟨rfl, ?_, ?_⟩
    · simp [hwallet]
    · intro hsub hab
      simp [hwallet, hab, hsub]

/-- A run of C2: the test fixture, user 1 withdraws the whole balance of 100 and is left
with 0. -/
theorem withdraw_debits_wallet_witness :
    ((walletUsecase.mk true).Withdraw ⟨1, 100, "Test withdrawal"⟩ testWorld).1 = .ok
        { ID := 1, WalletID := 1, DestWalletID := none, Type_ := .Withdrawal, Amount := 100,
          BalanceBefore := 100, BalanceAfter := 100 - 100, Description := "Test withdrawal",
          TransactionTime := 1, CreatedAt := 1 } ∧
      ((walletUsecase.mk true).Withdraw ⟨1, 100, "Test withdrawal"⟩ testWorld).2.walletOf 1 =
        some ⟨1, 1, 100 - 100, "USD", 0, 1⟩ ∧
      (((walletUsecase.mk true).Withdraw ⟨1, 100, "Test withdrawal"⟩ testWorld).2.walletOf
        1).map (fun x => x.Balance) = some 0 :=
  have h := withdraw_debits_wallet (walletUsecase.mk true) ⟨1, 100, "Test withdrawal"⟩
    testWorld ⟨1, 1, 100, "USD", 0, 0⟩ (by decide) (by decide) (by decide) (by decide)
  ⟨h.1, h.2.1, h.2.2 Int.sub_self rfl⟩

/-- C3. For a user whose wallet is stored with balance `b` and an amount `a > 0` with
`b < a`: `Withdraw` issues neither a wallet update nor a ledger append and leaves the wallet
rows (so the balance `b`) and the ledger as they were; and, the reads of the run returning
that user and wallet, it returns the `ErrInsufficientFunds` value itself and no ledger
entry. -/
theorem withdraw_insufficient_funds [Preorder M] [Sub M] [Zero M]
    [∀ a b : M, Decidable (a ≤ b)] [∀ a b : M, Decidable (a < b)]
    (u : walletUsecase) (req : WithdrawRequest M) (w : World M) (wallet : Wallet M)
    (hwallet : w.walletOf req.UserID = some wallet)
    (hpos : 0 < req.Amount) (hlt : wallet.Balance < req.Amount) :
    (∀ e ∈ (u.Withdraw req w).2.issuedSince w, e.call.isWrite = false) ∧
      (u.Withdraw req w).2.wallets = w.wallets ∧
      (u.Withdraw req w).2.walletOf req.UserID = some wallet ∧
      (u.Withdraw req w).2.transactions = w.transactions ∧
      (storeCallsSucceed ((u.Withdraw req w).2.issuedSince w) = true →
        (u.Withdraw req w).1 = .error ErrInsufficientFunds) := by
  have hna : ¬ req.Amount ≤ 0 := not_le_of_lt hpos
  rcases walletUsecase.Withdraw_paths u req w hna with
    ⟨err, h⟩ | ⟨user, err, hu, h⟩ | ⟨user, wallet', hu, hw, _, h⟩ |
    ⟨user, wallet', err, hu, hw, hnlt, h⟩ | ⟨user, wallet', err, hu, hw, hnlt, h⟩ |
    ⟨user, wallet', hu, hw, hnlt, h⟩
  · rw [h]
    refine ⟨by simp [World.issuedSince, Call.isWrite], rfl, hwallet, rfl, ?_⟩
    intro hok
    simp [World.issuedSince, storeCallsSucceed, Call.isStore] at hok
  · rw [h]
    refine ⟨by simp [World.issuedSince, Call.isWrite], rfl, hwallet, rfl, ?_⟩
    intro hok
    simp [World.issuedSince, storeCallsSucceed, Call.isStore] at hok
  · rw [h]
    exact ⟨by simp [World.issuedSince, Call.isWrite], rfl, hwallet, rfl, fun _ => rfl⟩
  all_goals
    rw [World.userOf_ID hu, hwallet] at hw
    cases hw
    exact absurd hlt hnlt

/-- A run of C3: the test fixture, user 1 asks for 150 from a wallet holding 100; the reads
succeed and the error is `ErrInsufficientFunds`. -/
theorem withdraw_insufficient_funds_witness :
    (∀ e ∈ ((walletUsecase.mk true).Withdraw ⟨1, 150, "Insufficient withdrawal"⟩
        testWorld).2.issuedSince testWorld, e.call.isWrite = false) ∧
      ((walletUsecase.mk true).Withdraw ⟨1, 150, "Insufficient withdrawal"⟩
        testWorld).2.wallets = testWorld.wallets ∧
      ((walletUsecase.mk true).Withdraw ⟨1, 150, "Insufficient withdrawal"⟩
        testWorld).2.walletOf 1 = some ⟨1, 1, 100, "USD", 0, 0⟩ ∧
      ((walletUsecase.mk true).Withdraw ⟨1, 150, "Insufficient withdrawal"⟩
        testWorld).2.transactions = testWorld.transactions ∧
      ((walletUsecase.mk true).Withdraw ⟨1, 150, "Insufficient withdrawal"⟩ testWorld).1 =
        .error ErrInsufficientFunds :=
  have h := withdraw_insufficient_funds (walletUsecase.mk true)
    ⟨1, 150, "Insufficient withdrawal"⟩ testWorld ⟨1, 1, 100, "USD", 0, 0⟩
    (by decide) (by decide) (by decide)
  ⟨h.1, h.2.1, h.2.2.1, h.2.2.2.1, h.2.2.2.2 (by decide)⟩

/-- C4. For an amount `a ≤ 0` and any other request content, `Deposit`, `Withdraw` and
`Transfer` each return `ErrInvalidAmount` and hand back the world they were given: no call is
added to the trace and no row, Redis key or lock changes. -/
theorem nonpositive_amount_rejected [LE M] [LT M] [Add M] [Sub M] [Zero M]
    [∀ a b : M, Decidable (a ≤ b)] [∀ a b : M, Decidable (a < b)]
    (u : walletUsecase) (w : World M) (a : M) (userID senderID receiverID : Int)
    (comment : String) (ha : a ≤ 0) :
    u.Deposit ⟨userID, a, comment⟩ w = (.error ErrInvalidAmount, w) ∧
      u.Withdraw ⟨userID, a, comment⟩ w = (.error ErrInvalidAmount, w) ∧
      u.Transfer ⟨senderID, receiverID, a, comment⟩ w = (.error ErrInvalidAmount, w) := by
  refine ⟨?_, ?_, ?_⟩
  · unfold walletUsecase.Deposit
    rw [if_pos ha]
  · unfold walletUsecase.Withdraw
    rw [if_pos ha]
  · unfold walletUsecase.Transfer
    rw [if_pos ha]

/-- A run of C4: amount `-5`, sender equal to receiver. -/
theorem nonpositive_amount_rejected_witness :
    (walletUsecase.mk true).Deposit ⟨1, -5, "x"⟩ testWorld = (.error ErrInvalidAmount, testWorld) ∧
      (walletUsecase.mk true).Withdraw ⟨1, -5, "x"⟩ testWorld =
        (.error ErrInvalidAmount, testWorld) ∧
      (walletUsecase.mk true).Transfer ⟨2, 2, -5, "x"⟩ testWorld =
        (.error ErrInvalidAmount, testWorld) :=
  nonpositive_amount_rejected (walletUsecase.mk true) testWorld (-5) 1 2 2 "x" (by decide)

/-- C5. For two distinct users whose wallets `A` (sender) and `B` (receiver) are distinct
rows stored with balances `x` and `y`, and an amount `a` with `0 < a ≤ x`, when every lock
acquisition and every store call of the run succeeds, `Transfer` leaves `x - a` stored for `A`
and `y + a` for `B`, appends exactly one ledger entry, and returns it: type Transfer, source
`A`, destination `B`, amount `a`, balance before `x`, balance after `x - a`. -/
theorem transfer_moves_funds [Preorder M] [Add M] [Sub M] [Zero M]
    [∀ a b : M, Decidable (a ≤ b)] [∀ a b : M, Decidable (a < b)]
    (u : walletUsecase) (req : TransferRequest M) (w : World M) (A B : Wallet M)
    (hne : req.SenderID ≠ req.ReceiverID)
    (hA : w.walletOf req.SenderID = some A) (hB : w.walletOf req.ReceiverID = some B)
    (hids : A.ID ≠ B.ID) (hpos : 0 < req.Amount) (hle : req.Amount ≤ A.Balance)
    (hlock : lockCallsSucceed ((u.Transfer req w).2.issuedSince w) = true)
    (hok : storeCallsSucceed ((u.Transfer req w).2.issuedSince w) = true) :
    (u.Transfer req w).1 = .ok
        { ID := w.nextTransactionID, WalletID := A.ID, DestWalletID := some B.ID,
          Type_ := .Transfer, Amount := req.Amount, BalanceBefore := A.Balance,
          BalanceAfter := A.Balance - req.Amount, Description := req.Comment,
          TransactionTime := w.now, CreatedAt := w.now } ∧
      (u.Transfer req w).2.walletOf req.SenderID =
        some { A with Balance := A.Balance - req.Amount, UpdatedAt := w.now } ∧
      (u.Transfer req w).2.walletOf req.ReceiverID =
        some { B with Balance := B.Balance + req.Amount, UpdatedAt := w.now } ∧
      (u.Transfer req w).2.transactions = w.transactions ++
        [{ ID := w.nextTransactionID, WalletID := A.ID, DestWalletID := some B.ID,
           Type_ := .Transfer, Amount := req.Amount, BalanceBefore := A.Balance,
           BalanceAfter := A.Balance - req.Amount, Description := req.Comment,
           TransactionTime := w.now, CreatedAt := w.now }] := by
  have hna : ¬ req.Amount ≤ 0 := not_le_of_lt hpos
  cases hrc : u.redisClient with
  | false =>
    rw [walletUsecase.Transfer_noRedis u req w hna hne hrc] at hok ⊢
    exact walletUsecase.transferLocked_moves u req w A B hA hB hids hpos hle hok
  | true =>
    rcases walletUsecase.Transfer_redis u req w hna hne hrc with
      ⟨o, ho, h⟩ | ⟨o, ho, _, h⟩ | ⟨_, _, h⟩
    · rw [h] at hlock
      simp [World.issuedSince, lockCallsSucceed, Call.isLock] at hlock
      exact absurd hlock ho
    · rw [h] at hlock
      simp [World.issuedSince, lockCallsSucceed, Call.isLock, redisClient.Del_trace] at hlock
      exact absurd hlock ho
    · have hbody := walletUsecase.Transfer_body_calls u req w hna h hok
      have hmove := walletUsecase.transferLocked_moves u req
        ((w.afterSetNX req.firstLockKey "1" 10).afterSetNX req.secondLockKey "1" 10) A B
        (by simpa using hA) (by simpa using hB) hids hpos hle hbody
      rw [h]
      simpa using hmove

/-- A run of C5: the test fixture with Redis, user 1 sends 30 of 100 to user 2 holding 50. -/
theorem transfer_moves_funds_witness :
    ((walletUsecase.mk true).Transfer ⟨1, 2, 30, "Test transfer"⟩ testWorld).1 = .ok
        { ID := 1, WalletID := 1, DestWalletID := some 2, Type_ := .Transfer, Amount := 30,
          BalanceBefore := 100, BalanceAfter := 100 - 30, Description := "Test transfer",
          TransactionTime := 1, CreatedAt := 1 } ∧
      ((walletUsecase.mk true).Transfer ⟨1, 2, 30, "Test transfer"⟩ testWorld).2.walletOf 1 =
        some ⟨1, 1, 100 - 30, "USD", 0, 1⟩ ∧
      ((walletUsecase.mk true).Transfer ⟨1, 2, 30, "Test transfer"⟩ testWorld).2.walletOf 2 =
        some ⟨2, 2, 50 + 30, "USD", 0, 1⟩ ∧
      ((walletUsecase.mk true).Transfer ⟨1, 2, 30, "Test transfer"⟩ testWorld).2.transactions =
        [] ++ [(⟨1, 1, some 2, .Transfer, 30, 100, 100 - 30, "Test transfer", 1, 1⟩ :
          Transaction Int)] :=
  transfer_moves_funds (walletUsecase.mk true) ⟨1, 2, 30, "Test transfer"⟩ testWorld
    ⟨1, 1, 100, "USD", 0, 0⟩ ⟨2, 2, 50, "USD", 0, 0⟩ (by decide) (by decide) (by decide)
    (by decide) (by decide) (by decide) (by decide) (by decide)

/-- C6, counterexample. With the code's `float64`: wallet 1 holds 1e16, wallet 2 holds 1,
and user 1 transfers 1 to user 2.  The transfer succeeds; `1e16 - 1` rounds back to 1e16, so
the sender's stored balance is unchanged while the receiver's becomes 2: the stored balances
add up to 10000000000000002 after the transfer and to 10000000000000001 before it, and the
two `float64` sums differ as well. -/
theorem transfer_conservation_float_counterexample :
    ((walletUsecase.mk false).Transfer ⟨1, 2, F64.ofInt 1, "one"⟩ floatWorld).1 =
        .ok ⟨1, 1, some 2, .Transfer, F64.ofInt 1, F64.ofInt 10000000000000000,
          F64.ofInt 10000000000000000, "one", 1, 1⟩ ∧
      (floatWorld.walletOf 1).map (fun x => x.Balance.toInt) = some 10000000000000000 ∧
      (floatWorld.walletOf 2).map (fun x => x.Balance.toInt) = some 1 ∧
      (((walletUsecase.mk false).Transfer ⟨1, 2, F64.ofInt 1, "one"⟩ floatWorld).2.walletOf
        1).map (fun x => x.Balance.toInt) = some 10000000000000000 ∧
      (((walletUsecase.mk false).Transfer ⟨1, 2, F64.ofInt 1, "one"⟩ floatWorld).2.walletOf
        2).map (fun x => x.Balance.toInt) = some 2 ∧
      ¬ ((((walletUsecase.mk false).Transfer ⟨1, 2, F64.ofInt 1, "one"⟩ floatWorld).2.walletOf
            1).bind fun a =>
          (((walletUsecase.mk false).Transfer ⟨1, 2, F64.ofInt 1, "one"⟩ floatWorld).2.walletOf
            2).map fun b => a.Balance + b.Balance) =
        ((floatWorld.walletOf 1).bind fun a =>
          (floatWorld.walletOf 2).map fun b => a.Balance + b.Balance) := by
  decide

/-- C6, amended. In exact arithmetic (balances in an additive commutative group, as with a
fixed-precision decimal), for every `Transfer` that returns an entry, between two wallets `A`
and `B` that are distinct rows, the two stored balances after the transfer add up to what they
added up to before it. -/
theorem transfer_conserves_exact [AddCommGroup M] [LE M] [LT M]
    [∀ a b : M, Decidable (a ≤ b)] [∀ a b : M, Decidable (a < b)]
    (u : walletUsecase) (req : TransferRequest M) (w : World M) (A B : Wallet M)
    (hA : w.walletOf req.SenderID = some A) (hB : w.walletOf req.ReceiverID = some B)
    (hids : A.ID ≠ B.ID) (t : Transaction M) (hs : (u.Transfer req w).1 = .ok t) :
    ∃ A1 B1, (u.Transfer req w).2.walletOf req.SenderID = some A1 ∧
      (u.Transfer req w).2.walletOf req.ReceiverID = some B1 ∧
      A1.Balance + B1.Balance = A.Balance + B.Balance := by
  obtain ⟨h1, h2, _⟩ := walletUsecase.Transfer_ok u req w A B hA hB hids t hs
  refine ⟨_, _, h1, h2, ?_⟩
  show A.Balance - req.Amount + (B.Balance + req.Amount) = A.Balance + B.Balance
  abel

/-- A run of the amended C6: the test fixture, 30 moves from a wallet holding 100 to one
holding 50. -/
theorem transfer_conserves_exact_witness :
    ∃ A1 B1, ((walletUsecase.mk true).Transfer ⟨1, 2, 30, "Test transfer"⟩
        testWorld).2.walletOf 1 = some A1 ∧
      ((walletUsecase.mk true).Transfer ⟨1, 2, 30, "Test transfer"⟩ testWorld).2.walletOf 2 =
        some B1 ∧
      A1.Balance + B1.Balance = (100 : Int) + 50 :=
  transfer_conserves_exact (walletUsecase.mk true) ⟨1, 2, 30, "Test transfer"⟩ testWorld
    ⟨1, 1, 100, "USD", 0, 0⟩ ⟨2, 2, 50, "USD", 0, 0⟩ (by decide) (by decide) (by decide)
    ⟨1, 1, some 2, .Transfer, 30, 100, 70, "Test transfer", 1, 1⟩ (by decide)

/-- C7. For an amount `a > 0` and an id `p`, `Transfer` with sender and receiver both `p`
returns `ErrSenderReceiverSame` and hands back the world it was given: no lock is requested,
nothing is read and nothing is written. -/
theorem transfer_to_self_rejected [Preorder M] [Add M] [Sub M] [Zero M]
    [∀ a b : M, Decidable (a ≤ b)] [∀ a b : M, Decidable (a < b)]
    (u : walletUsecase) (w : World M) (a : M) (p : Int) (comment : String) (hpos : 0 < a) :
    u.Transfer ⟨p, p, a, comment⟩ w = (.error ErrSenderReceiverSame, w) := by
  unfold walletUsecase.Transfer
  rw [if_neg (not_le_of_lt hpos), if_pos rfl]

/-- A run of C7: user 1 sends 30 to user 1. -/
theorem transfer_to_self_rejected_witness :
    (walletUsecase.mk true).Transfer ⟨1, 1, 30, "self"⟩ testWorld =
      (.error ErrSenderReceiverSame, testWorld) :=
  transfer_to_self_rejected (walletUsecase.mk true) testWorld 30 1 "self" (by decide)

/-- C8, the code at the failing input. The test fixture without Redis, in which the driver
fails the fourth call of the run, the ledger `INSERT`.  `Deposit` of 50 returns an error, yet
the stored balance went from 100 to 150 and the ledger is still empty; `Withdraw` of 50
returns an error, yet the stored balance went from 100 to 50 and the ledger is still empty. -/
theorem deposit_withdraw_failure_keeps_write :
    (faultyWorld 3).walletOf 1 = some ⟨1, 1, 100, "USD", 0, 0⟩ ∧
      ((walletUsecase.mk false).Deposit ⟨1, 50, "Test deposit"⟩ (faultyWorld 3)).1 =
        .error (WrapError (.wrapped "failed to create transaction" (.driver "connection reset"))
          "failed to create transaction record") ∧
      ((walletUsecase.mk false).Deposit ⟨1, 50, "Test deposit"⟩ (faultyWorld 3)).2.walletOf 1 =
        some ⟨1, 1, 150, "USD", 0, 1⟩ ∧
      ((walletUsecase.mk false).Deposit ⟨1, 50, "Test deposit"⟩ (faultyWorld 3)).2.transactions
        = [] ∧
      ((walletUsecase.mk false).Withdraw ⟨1, 50, "Test withdrawal"⟩ (faultyWorld 3)).1 =
        .error (WrapError (.wrapped "failed to create transaction" (.driver "connection reset"))
          "failed to create transaction record") ∧
      ((walletUsecase.mk false).Withdraw ⟨1, 50, "Test withdrawal"⟩ (faultyWorld 3)).2.walletOf
        1 = some ⟨1, 1, 50, "USD", 0, 1⟩ ∧
      ((walletUsecase.mk false).Withdraw ⟨1, 50, "Test withdrawal"⟩
        (faultyWorld 3)).2.transactions = [] := by
  decide

/-- C9, the code at the failing input. The test fixture without Redis, in which the driver
fails the sixth call of the run, the `UPDATE` of the receiver's wallet.  `Transfer` of 30 from
user 1 to user 2 returns an error, yet the sender's stored balance went from 100 to 70; the
receiver's is still 50 and the ledger is still empty. -/
theorem transfer_failure_keeps_debit :
    (faultyWorld 5).walletOf 1 = some ⟨1, 1, 100, "USD", 0, 0⟩ ∧
      ((walletUsecase.mk false).Transfer ⟨1, 2, 30, "Test transfer"⟩ (faultyWorld 5)).1 =
        .error (WrapError (.wrapped "failed to update wallet" (.driver "connection reset"))
          "failed to update receiver wallet") ∧
      ((walletUsecase.mk false).Transfer ⟨1, 2, 30, "Test transfer"⟩ (faultyWorld 5)).2.walletOf
        1 = some ⟨1, 1, 70, "USD", 0, 1⟩ ∧
      ((walletUsecase.mk false).Transfer ⟨1, 2, 30, "Test transfer"⟩ (faultyWorld 5)).2.walletOf
        2 = some ⟨2, 2, 50, "USD", 0, 0⟩ ∧
      ((walletUsecase.mk false).Transfer ⟨1, 2, 30, "Test transfer"⟩
        (faultyWorld 5)).2.transactions = [] := by
  decide

/-- C10, counterexample. The test fixture while another transfer holds the lock of id 1:
user 1, whose stored balance 100 is below the amount 130, sends 130 to user 2, and `Transfer`
returns `ErrLockAcquisitionFailed`, not `ErrInsufficientFunds`. -/
theorem transfer_insufficient_lock_held :
    lockedWorld.walletOf 1 = some ⟨1, 1, 100, "USD", 0, 0⟩ ∧
      ((walletUsecase.mk true).Transfer ⟨1, 2, 130, "too much"⟩ lockedWorld).1 =
        .error ErrLockAcquisitionFailed ∧
      ((walletUsecase.mk true).Transfer ⟨1, 2, 130, "too much"⟩ lockedWorld).1 ≠
        .error ErrInsufficientFunds := by
  decide

/-- C10, amended. For a `Transfer` with amount `a > 0` between distinct users in which the
sender's stored balance is below `a`: whatever the lock service and the stores do, no wallet
update (for sender or receiver) and no ledger append is issued, and the wallet rows and the
ledger stay as they were; and when the lock acquisitions and the reads of the run succeed,
`Transfer` returns `ErrInsufficientFunds`. -/
theorem transfer_insufficient_funds [Preorder M] [Add M] [Sub M] [Zero M]
    [∀ a b : M, Decidable (a ≤ b)] [∀ a b : M, Decidable (a < b)]
    (u : walletUsecase) (req : TransferRequest M) (w : World M) (A : Wallet M)
    (hne : req.SenderID ≠ req.ReceiverID)
    (hA : w.walletOf req.SenderID = some A) (hpos : 0 < req.Amount)
    (hlt : A.Balance < req.Amount) :
    (∀ e ∈ (u.Transfer req w).2.issuedSince w, e.call.isWrite = false) ∧
      (u.Transfer req w).2.wallets = w.wallets ∧
      (u.Transfer req w).2.transactions = w.transactions ∧
      (lockCallsSucceed ((u.Transfer req w).2.issuedSince w) = true →
        storeCallsSucceed ((u.Transfer req w).2.issuedSince w) = true →
        (u.Transfer req w).1 = .error ErrInsufficientFunds) := by
  have hna : ¬ req.Amount ≤ 0 := not_le_of_lt hpos
  cases hrc : u.redisClient with
  | false =>
    rw [walletUsecase.Transfer_noRedis u req w hna hne hrc]
    obtain ⟨h1, h2, h3⟩ := walletUsecase.transferLocked_short u req w A hA hna hlt
    refine ⟨h1, h2, h3, ?_⟩
    intro _ hok
    obtain ⟨s, r, h⟩ := walletUsecase.transferLocked_insufficient u req w A hA hpos hlt hok
    rw [h]
  | true =>
    rcases walletUsecase.Transfer_redis u req w hna hne hrc with
      ⟨o, ho, h⟩ | ⟨o, ho, _, h⟩ | ⟨_, _, h⟩
    · rw [h]
      refine ⟨by simp [World.issuedSince, Call.isWrite], rfl, rfl, ?_⟩
      intro hlock
      simp [World.issuedSince, lockCallsSucceed, Call.isLock] at hlock
      exact absurd hlock ho
    · rw [h]
      refine ⟨by simp [World.issuedSince, Call.isWrite, redisClient.Del_trace], by simp,
        by simp, ?_⟩
      intro hlock
      simp [World.issuedSince, lockCallsSucceed, Call.isLock, redisClient.Del_trace] at hlock
      exact absurd hlock ho
    · obtain ⟨es, hes⟩ := walletUsecase.transferLocked_trace u req
        ((w.afterSetNX req.firstLockKey "1" 10).afterSetNX req.secondLockKey "1" 10) hna
      obtain ⟨h1, h2, h3⟩ := walletUsecase.transferLocked_short u req
        ((w.afterSetNX req.firstLockKey "1" 10).afterSetNX req.secondLockKey "1" 10) A
        (by simpa using hA) hna hlt
      refine ⟨?_, ?_, ?_, ?_⟩
      · unfold World.issuedSince at h1
        rw [hes, List.drop_left] at h1
        rw [h]
        simp only [World.issuedSince, redisClient.Del_trace, hes, World.afterSetNX_trace,
          List.append_assoc, List.drop_left]
        intro e he
        simp only [List.mem_append, List.mem_cons, List.not_mem_nil, or_false] at he
        rcases he with rfl | rfl | he | rfl | rfl
        · rfl
        · rfl
        · exact h1 e he
        · rfl
        · rfl
      · rw [h]
        simpa using h2
      · rw [h]
        simpa using h3
      · intro _ hok
        have hbody := walletUsecase.Transfer_body_calls u req w hna h hok
        obtain ⟨s, r, hb⟩ := walletUsecase.transferLocked_insufficient u req
          ((w.afterSetNX req.firstLockKey "1" 10).afterSetNX req.secondLockKey "1" 10) A
          (by simpa using hA) hpos hlt hbody
        rw [h, hb]

/-- A run of the amended C10: the test fixture with Redis, user 1 sends 130 from a wallet
holding 100; the locks are granted, the reads succeed and the error is
`ErrInsufficientFunds`. -/
theorem transfer_insufficient_funds_witness :
    (∀ e ∈ ((walletUsecase.mk true).Transfer ⟨1, 2, 130, "too much"⟩
        testWorld).2.issuedSince testWorld, e.call.isWrite = false) ∧
      ((walletUsecase.mk true).Transfer ⟨1, 2, 130, "too much"⟩ testWorld).2.wallets =
        testWorld.wallets ∧
      ((walletUsecase.mk true).Transfer ⟨1, 2, 130, "too much"⟩ testWorld).2.transactions =
        testWorld.transactions ∧
      ((walletUsecase.mk true).Transfer ⟨1, 2, 130, "too much"⟩ testWorld).1 =
        .error ErrInsufficientFunds :=
  have h := transfer_insufficient_funds (walletUsecase.mk true) ⟨1, 2, 130, "too much"⟩
    testWorld ⟨1, 1, 100, "USD", 0, 0⟩ (by decide) (by decide) (by decide) (by decide)
  ⟨h.1, h.2.1, h.2.2.1, h.2.2.2 (by decide) (by decide)⟩

/-- C11, the code at the failing input. With the repositories of `internal/repository`, on
the test fixture: user 99 has no row, and `Deposit`, `Withdraw`, `Transfer`,
`GetTransactionHistory` and `GetBalance` (on a cache miss) each return the wrapped driver error
"failed to get user: failed to get user by ID: no rows in result set", which does not match
`ErrUserNotFound`; user 3 has a row but no wallet row, and each returns a wrapped driver error
that does not match `ErrWalletNotFound`. -/
theorem missing_rows_not_reported_as_not_found :
    testWorld.userOf 99 = none ∧
      ((walletUsecase.mk true).Deposit ⟨99, 50, "d"⟩ testWorld).1 =
        .error (WrapError (.wrapped "failed to get user by ID" (.driver "no rows in result set"))
          "failed to get user") ∧
      errorMatches ((walletUsecase.mk true).Deposit ⟨99, 50, "d"⟩ testWorld).1 .UserNotFound
        = false ∧
      errorMatches ((walletUsecase.mk true).Withdraw ⟨99, 50, "w"⟩ testWorld).1 .UserNotFound
        = false ∧
      errorMatches ((walletUsecase.mk true).Transfer ⟨99, 1, 50, "t"⟩ testWorld).1 .UserNotFound
        = false ∧
      errorMatches ((walletUsecase.mk true).Transfer ⟨1, 99, 50, "t"⟩ testWorld).1 .UserNotFound
        = false ∧
      errorMatches ((walletUsecase.mk true).GetTransactionHistory 99 ⟨10, 0⟩ testWorld).1
        .UserNotFound = false ∧
      errorMatches ((walletUsecase.mk true).GetBalance lineCodec 99 testWorld).1 .UserNotFound
        = false ∧
      walletlessWorld.userOf 3 = some ⟨3, "third", "third@example.com", 0, 0⟩ ∧
      walletlessWorld.walletOf 3 = none ∧
      ((walletUsecase.mk true).Deposit ⟨3, 50, "d"⟩ walletlessWorld).1 =
        .error (WrapError
          (.wrapped "failed to get wallet by user ID" (.driver "no rows in result set"))
          "failed to get wallet") ∧
      errorMatches ((walletUsecase.mk true).Deposit ⟨3, 50, "d"⟩ walletlessWorld).1
        .WalletNotFound = false ∧
      errorMatches ((walletUsecase.mk true).Withdraw ⟨3, 50, "w"⟩ walletlessWorld).1
        .WalletNotFound = false ∧
      errorMatches ((walletUsecase.mk true).Transfer ⟨3, 1, 50, "t"⟩ walletlessWorld).1
        .WalletNotFound = false ∧
      errorMatches ((walletUsecase.mk true).Transfer ⟨1, 3, 50, "t"⟩ walletlessWorld).1
        .WalletNotFound = false ∧
      errorMatches ((walletUsecase.mk true).GetTransactionHistory 3 ⟨10, 0⟩ walletlessWorld).1
        .WalletNotFound = false ∧
      errorMatches ((walletUsecase.mk true).GetBalance lineCodec 3 walletlessWorld).1
        .WalletNotFound = false := by
  decide

/-- C12. For distinct ids `p` and `q`, an amount `a > 0` and a Redis client, in any two
worlds: the lock names `Transfer` from `p` to `q` asks for, in the order of the calls, are the
name of the smaller id alone (when that lock is not granted) or the name of the smaller id
followed by the name of the larger id, and the same holds for `Transfer` from `q` to `p`. -/
theorem transfer_lock_order_role_independent [Preorder M] [Add M] [Sub M] [Zero M]
    [∀ a b : M, Decidable (a ≤ b)] [∀ a b : M, Decidable (a < b)]
    (u : walletUsecase) (w1 w2 : World M) (p q : Int) (a : M) (c1 c2 : String)
    (hpq : p ≠ q) (hpos : 0 < a) (hu : u.redisClient = true) :
    (lockAttempts ((u.Transfer ⟨p, q, a, c1⟩ w1).2.issuedSince w1) =
        [walletLockKey (min p q)] ∨
      lockAttempts ((u.Transfer ⟨p, q, a, c1⟩ w1).2.issuedSince w1) =
        [walletLockKey (min p q), walletLockKey (max p q)]) ∧
    (lockAttempts ((u.Transfer ⟨q, p, a, c2⟩ w2).2.issuedSince w2) =
        [walletLockKey (min p q)] ∨
      lockAttempts ((u.Transfer ⟨q, p, a, c2⟩ w2).2.issuedSince w2) =
        [walletLockKey (min p q), walletLockKey (max p q)]) := by
  have hna : ¬ a ≤ 0 := not_le_of_lt hpos
  have h1 := walletUsecase.Transfer_lockAttempts u ⟨p, q, a, c1⟩ w1 hna hpq hu
  have h2 := walletUsecase.Transfer_lockAttempts u ⟨q, p, a, c2⟩ w2 hna (Ne.symm hpq) hu
  have k1 := TransferRequest.lockKeys_eq (⟨p, q, a, c1⟩ : TransferRequest M)
  have k2 := TransferRequest.lockKeys_eq (⟨q, p, a, c2⟩ : TransferRequest M)
  rw [k1.1, k1.2] at h1
  rw [k2.1, k2.2] at h2
  simp only [] at h1 h2
  rw [min_comm q p, max_comm q p] at h2
  exact ⟨h1, h2⟩

/-- A run of C12: with both locks free, transfers between users 1 and 2 in either direction
ask for "lock:wallet:1" and then "lock:wallet:2". -/
theorem transfer_lock_order_role_independent_witness :
    (lockAttempts (((walletUsecase.mk true).Transfer ⟨2, 1, 30, "a"⟩ testWorld).2.issuedSince
          testWorld) = [walletLockKey (min 2 1)] ∨
      lockAttempts (((walletUsecase.mk true).Transfer ⟨2, 1, 30, "a"⟩ testWorld).2.issuedSince
          testWorld) = [walletLockKey (min 2 1), walletLockKey (max 2 1)]) ∧
    (lockAttempts (((walletUsecase.mk true).Transfer ⟨1, 2, 30, "b"⟩ lockedWorld).2.issuedSince
          lockedWorld) = [walletLockKey (min 2 1)] ∨
      lockAttempts (((walletUsecase.mk true).Transfer ⟨1, 2, 30, "b"⟩ lockedWorld).2.issuedSince
          lockedWorld) = [walletLockKey (min 2 1), walletLockKey (max 2 1)]) :=
  transfer_lock_order_role_independent (walletUsecase.mk true) testWorld lockedWorld 2 1 30
    "a" "b" (by decide) (by decide) rfl

/-- C13, counterexample. In one store users 1 and 2 own wallets 7 and 9, in another users 3
and 4 own the same wallets 7 and 9. The transfers between the owners touch the same two wallet
ids, yet ask for the locks "lock:wallet:1", "lock:wallet:2" in the first store and
"lock:wallet:3", "lock:wallet:4" in the second: neither pair is named by the wallet ids 7
and 9. -/
theorem transfer_lock_names_counterexample :
    (ownersOneTwo.walletOf 1).map (fun x => x.ID) = some 7 ∧
      (ownersOneTwo.walletOf 2).map (fun x => x.ID) = some 9 ∧
      (ownersThreeFour.walletOf 3).map (fun x => x.ID) = some 7 ∧
      (ownersThreeFour.walletOf 4).map (fun x => x.ID) = some 9 ∧
      (((walletUsecase.mk true).Transfer ⟨1, 2, 10, "t"⟩ ownersOneTwo).1.toOption.map
        (fun t => (t.WalletID, t.DestWalletID))) = some (7, some 9) ∧
      (((walletUsecase.mk true).Transfer ⟨3, 4, 10, "t"⟩ ownersThreeFour).1.toOption.map
        (fun t => (t.WalletID, t.DestWalletID))) = some (7, some 9) ∧
      lockAttempts (((walletUsecase.mk true).Transfer ⟨1, 2, 10, "t"⟩ ownersOneTwo).2.issuedSince
        ownersOneTwo) = ["lock:wallet:1", "lock:wallet:2"] ∧
      lockAttempts (((walletUsecase.mk true).Transfer ⟨3, 4, 10, "t"⟩
        ownersThreeFour).2.issuedSince ownersThreeFour) = ["lock:wallet:3", "lock:wallet:4"] ∧
      walletLockKey 7 = "lock:wallet:7" ∧ walletLockKey 9 = "lock:wallet:9" := by
  decide

/-- C13, amended. For every request, world and engine, the lock names `Transfer` asks for are,
in order, an initial part of the pair: name of the smaller of `SenderID` and `ReceiverID`, name
of the larger. They are a function of the two user ids of the request alone, whatever wallet
ids the store holds. -/
theorem transfer_lock_names_from_request_ids [Preorder M] [Add M] [Sub M] [Zero M]
    [∀ a b : M, Decidable (a ≤ b)] [∀ a b : M, Decidable (a < b)]
    (u : walletUsecase) (req : TransferRequest M) (w : World M) :
    lockAttempts ((u.Transfer req w).2.issuedSince w) <+:
      [walletLockKey (min req.SenderID req.ReceiverID),
        walletLockKey (max req.SenderID req.ReceiverID)] := by
  have k := TransferRequest.lockKeys_eq req
  rw [← k.1, ← k.2]
  rcases walletUsecase.Transfer_shapes u req w with
    ⟨es, hes, h⟩ | ⟨o, _, h⟩ | ⟨o, o1, _, h⟩ | ⟨es, o2, o1, hes, h⟩
  · rw [h, lockAttempts_eq_nil es _ hes]
    exact List.nil_prefix
  · rw [h]
    exact ⟨[req.secondLockKey], rfl⟩
  · rw [h]
    exact ⟨[], rfl⟩
  · rw [h]
    have hnil := lockAttempts_eq_nil es _ hes
    unfold lockAttempts at hnil ⊢
    rw [List.filterMap_append, List.filterMap_append, hnil]
    exact ⟨[], rfl⟩

/-- C14. For a request with amount `a > 0` and distinct ids, with a Redis client, when some
lock acquisition of the run is not granted (refused or failed): `Transfer` returns
`ErrLockAcquisitionFailed`; it issued no store call at all (no user lookup, no wallet read, no
wallet write, no ledger append); and it asked for each lock once: its calls are the one
ungranted request for the first lock, or the granted request for the first lock, the one
ungranted request for the second lock and the release of the first. -/
theorem transfer_lock_unavailable [Preorder M] [Add M] [Sub M] [Zero M]
    [∀ a b : M, Decidable (a ≤ b)] [∀ a b : M, Decidable (a < b)]
    (u : walletUsecase) (req : TransferRequest M) (w : World M)
    (hpos : 0 < req.Amount) (hne : req.SenderID ≠ req.ReceiverID) (hu : u.redisClient = true)
    (hfail : lockCallsSucceed ((u.Transfer req w).2.issuedSince w) = false) :
    (u.Transfer req w).1 = .error ErrLockAcquisitionFailed ∧
      (∀ e ∈ (u.Transfer req w).2.issuedSince w, e.call.isStore = false) ∧
      ((∃ o, o ≠ Outcome.ok ∧
          (u.Transfer req w).2.issuedSince w = [⟨.redisSetNX req.firstLockKey "1" 10, o⟩]) ∨
        (∃ o o1, o ≠ Outcome.ok ∧
          (u.Transfer req w).2.issuedSince w =
            [⟨.redisSetNX req.firstLockKey "1" 10, .ok⟩,
              ⟨.redisSetNX req.secondLockKey "1" 10, o⟩,
              ⟨.redisDel [req.firstLockKey], o1⟩])) := by
  have hna : ¬ req.Amount ≤ 0 := not_le_of_lt hpos
  rcases walletUsecase.Transfer_issued u req w hna hne hu with
    ⟨o, ho, hr, hi⟩ | ⟨o, o1, ho, hr, hi⟩ | ⟨es, o2, o1, hes, hi⟩
  · refine ⟨hr, ?_, Or.inl ⟨o, ho, hi⟩⟩
    rw [hi]
    simp [Call.isStore]
  · refine ⟨hr, ?_, Or.inr ⟨o, o1, ho, hi⟩⟩
    rw [hi]
    simp [Call.isStore]
  · exfalso
    rw [hi] at hfail
    have hall : ∀ e ∈ es, (!e.call.isLock || decide (e.outcome = .ok)) = true := by
      intro e he
      rcases hes e he with h1 | h1
      · revert h1
        cases e.call <;> simp [Call.isStore, Call.isLock]
      · rw [h1]
        simp [Call.isLock]
    have hes2 := List.all_eq_true.mpr hall
    unfold lockCallsSucceed at hfail
    rw [List.all_append, List.all_append, hes2] at hfail
    simp [Call.isLock] at hfail

/-- A run of C14: the lock of id 1 is held by another transfer, and user 1 sends 30 to
user 2. -/
theorem transfer_lock_unavailable_witness :
    ((walletUsecase.mk true).Transfer ⟨1, 2, 30, "held"⟩ lockedWorld).1 =
        .error ErrLockAcquisitionFailed ∧
      (∀ e ∈ ((walletUsecase.mk true).Transfer ⟨1, 2, 30, "held"⟩ lockedWorld).2.issuedSince
        lockedWorld, e.call.isStore = false) ∧
      ((∃ o, o ≠ Outcome.ok ∧
          ((walletUsecase.mk true).Transfer ⟨1, 2, 30, "held"⟩ lockedWorld).2.issuedSince
              lockedWorld =
            [⟨.redisSetNX (TransferRequest.firstLockKey (⟨1, 2, 30, "held"⟩ :
              TransferRequest Int)) "1" 10, o⟩]) ∨
        (∃ o o1, o ≠ Outcome.ok ∧
          ((walletUsecase.mk true).Transfer ⟨1, 2, 30, "held"⟩ lockedWorld).2.issuedSince
              lockedWorld =
            [⟨.redisSetNX (TransferRequest.firstLockKey (⟨1, 2, 30, "held"⟩ :
                TransferRequest Int)) "1" 10, .ok⟩,
              ⟨.redisSetNX (TransferRequest.secondLockKey (⟨1, 2, 30, "held"⟩ :
                TransferRequest Int)) "1" 10, o⟩,
              ⟨.redisDel [TransferRequest.firstLockKey (⟨1, 2, 30, "held"⟩ :
                TransferRequest Int)], o1⟩])) :=
  transfer_lock_unavailable (walletUsecase.mk true) ⟨1, 2, 30, "held"⟩ lockedWorld
    (by decide) (by decide) rfl (by decide)

/-- C15. For every engine, request and world, among the calls `Transfer` issued before it
returned: every granted lock request is followed by a release of exactly that lock name
(whatever the exit path of the run); and every lock name that is released was granted to this
run. -/
theorem transfer_releases_its_locks [Preorder M] [Add M] [Sub M] [Zero M]
    [∀ a b : M, Decidable (a ≤ b)] [∀ a b : M, Decidable (a < b)]
    (u : walletUsecase) (req : TransferRequest M) (w : World M) :
    (∀ key value seconds,
      (⟨.redisSetNX key value seconds, .ok⟩ : Event M) ∈ (u.Transfer req w).2.issuedSince w →
      ∃ pre post o, (u.Transfer req w).2.issuedSince w = pre ++ post ∧
        (⟨.redisSetNX key value seconds, .ok⟩ : Event M) ∈ pre ∧
        (⟨.redisDel [key], o⟩ : Event M) ∈ post) ∧
    (∀ keys o id,
      (⟨.redisDel keys, o⟩ : Event M) ∈ (u.Transfer req w).2.issuedSince w →
      walletLockKey id ∈ keys →
      ∃ value seconds,
        (⟨.redisSetNX (walletLockKey id) value seconds, .ok⟩ : Event M) ∈
          (u.Transfer req w).2.issuedSince w) := by
  have hbody : ∀ es : List (Event M),
      (∀ e ∈ es, e.call.isStore = true ∨
        e.call = .redisDel [balanceCacheKey req.SenderID, balanceCacheKey req.ReceiverID]) →
      (∀ key value seconds o, (⟨.redisSetNX key value seconds, o⟩ : Event M) ∉ es) ∧
      (∀ keys o id, (⟨.redisDel keys, o⟩ : Event M) ∈ es → walletLockKey id ∉ keys) := by
    intro es hes
    constructor
    · intro key value seconds o he
      rcases hes _ he with h | h
      · simp [Call.isStore] at h
      · simp at h
    · intro keys o id he hk
      rcases hes _ he with h | h
      · simp [Call.isStore] at h
      · simp only [Call.redisDel.injEq] at h
        rw [h] at hk
        simp only [List.mem_cons, List.not_mem_nil, or_false] at hk
        rcases hk with hk | hk
        · exact balanceCacheKey_ne_walletLockKey _ _ hk.symm
        · exact balanceCacheKey_ne_walletLockKey _ _ hk.symm
  rcases walletUsecase.Transfer_shapes u req w with
    ⟨es, hes, h⟩ | ⟨o, ho, h⟩ | ⟨o, o1, ho, h⟩ | ⟨es, o2, o1, hes, h⟩
  · rw [h]
    obtain ⟨hb1, hb2⟩ := hbody es hes
    exact ⟨fun key value seconds he => absurd he (hb1 _ _ _ _),
      fun keys o id he hk => absurd hk (hb2 _ _ _ he)⟩
  · rw [h]
    constructor
    · intro key value seconds he
      simp only [List.mem_singleton, Event.mk.injEq] at he
      exact absurd he.2.symm ho
    · intro keys o id he
      simp at he
  · rw [h]
    constructor
    · intro key value seconds he
      simp only [List.mem_cons, List.not_mem_nil, or_false, Event.mk.injEq,
        Call.redisSetNX.injEq, and_true] at he
      rcases he with ⟨rfl, rfl, rfl⟩ | he | he
      · exact ⟨[⟨.redisSetNX req.firstLockKey "1" 10, .ok⟩,
          ⟨.redisSetNX req.secondLockKey "1" 10, o⟩], [⟨.redisDel [req.firstLockKey], o1⟩], o1,
          rfl, by simp, by simp⟩
      · exact absurd he.2.symm ho
      · exact absurd he.1 (by simp)
    · intro keys o id he hk
      simp only [List.mem_cons, List.not_mem_nil, or_false, Event.mk.injEq,
        Call.redisDel.injEq, false_and, false_or, reduceCtorEq] at he
      rw [he.1] at hk
      simp only [List.mem_singleton] at hk
      rw [hk]
      exact ⟨"1", 10, by simp⟩
  · rw [h]
    obtain ⟨hb1, hb2⟩ := hbody es hes
    constructor
    · intro key value seconds he
      simp only [List.mem_append, List.mem_cons, List.not_mem_nil, or_false, Event.mk.injEq,
        Call.redisSetNX.injEq, and_true, reduceCtorEq, false_and] at he
      rcases he with ((⟨rfl, rfl, rfl⟩ | ⟨rfl, rfl, rfl⟩) | he)
      · exact ⟨[⟨.redisSetNX req.firstLockKey "1" 10, .ok⟩,
          ⟨.redisSetNX req.secondLockKey "1" 10, .ok⟩] ++ es,
          [⟨.redisDel [req.secondLockKey], o2⟩, ⟨.redisDel [req.firstLockKey], o1⟩], o1,
          by simp, by simp, by simp⟩
      · exact ⟨[⟨.redisSetNX req.firstLockKey "1" 10, .ok⟩,
          ⟨.redisSetNX req.secondLockKey "1" 10, .ok⟩] ++ es,
          [⟨.redisDel [req.secondLockKey], o2⟩, ⟨.redisDel [req.firstLockKey], o1⟩], o2,
          by simp, by simp, by simp⟩
      · exact absurd he (hb1 _ _ _ _)
    · intro keys o id he hk
      simp only [List.mem_append, List.mem_cons, List.not_mem_nil, or_false, Event.mk.injEq,
        Call.redisDel.injEq, false_and, false_or, reduceCtorEq] at he
      rcases he with he | he | he
      · exact absurd hk (hb2 _ _ _ he)
      · rw [he.1] at hk
        simp only [List.mem_singleton] at hk
        rw [hk]
        exact ⟨"1", 10, by simp⟩
      · rw [he.1] at hk
        simp only [List.mem_singleton] at hk
        rw [hk]
        exact ⟨"1", 10, by simp⟩

/-- Runs of C15 on the fixture. In a transfer of 130 from user 1 to user 2, which fails for
insufficient funds, the granted lock "lock:wallet:2" is released after it was granted; and with
the driver failing the second lock request, the release of "lock:wallet:1" follows its grant. -/
theorem transfer_releases_its_locks_witness :
    (∃ pre post o,
      ((walletUsecase.mk true).Transfer ⟨1, 2, 130, "x"⟩ testWorld).2.issuedSince testWorld =
        pre ++ post ∧
      (⟨.redisSetNX "lock:wallet:2" "1" 10, .ok⟩ : Event Int) ∈ pre ∧
      (⟨.redisDel ["lock:wallet:2"], o⟩ : Event Int) ∈ post) ∧
    (∃ value seconds,
      (⟨.redisSetNX (walletLockKey 1) value seconds, .ok⟩ : Event Int) ∈
        ((walletUsecase.mk true).Transfer ⟨1, 2, 130, "x"⟩ (faultyWorld 1)).2.issuedSince
          (faultyWorld 1)) :=
  ⟨(transfer_releases_its_locks (walletUsecase.mk true) ⟨1, 2, 130, "x"⟩ testWorld).1
      "lock:wallet:2" "1" 10 (by
        have h : ((walletUsecase.mk true).Transfer ⟨1, 2, 130, "x"⟩ testWorld).2.issuedSince
            testWorld =
            [⟨.redisSetNX "lock:wallet:1" "1" 10, .ok⟩, ⟨.redisSetNX "lock:wallet:2" "1" 10, .ok⟩,
              ⟨.userGetByID 1, .ok⟩, ⟨.userGetByID 2, .ok⟩, ⟨.walletGetByUserID 1, .ok⟩,
              ⟨.walletGetByUserID 2, .ok⟩, ⟨.redisDel ["lock:wallet:2"], .ok⟩,
              ⟨.redisDel ["lock:wallet:1"], .ok⟩] := by rfl
        rw [h]
        simp),
    (transfer_releases_its_locks (walletUsecase.mk true) ⟨1, 2, 130, "x"⟩ (faultyWorld 1)).2
      ["lock:wallet:1"] .ok 1 (by
        have h : ((walletUsecase.mk true).Transfer ⟨1, 2, 130, "x"⟩
            (faultyWorld 1)).2.issuedSince (faultyWorld 1) =
            [⟨.redisSetNX "lock:wallet:1" "1" 10, .ok⟩,
              ⟨.redisSetNX "lock:wallet:2" "1" 10, .error⟩,
              ⟨.redisDel ["lock:wallet:1"], .ok⟩] := by rfl
        rw [h]
        simp) (by decide)⟩

/-- C16. For every user id, world (cache contents and failures included) and serialization:
when there is a Redis client, the cache read returns bytes and they deserialize, `GetBalance`
returns the deserialized wallet and issues no store call; without a Redis client, or when the
cache read fails, misses or returns bytes that do not deserialize, it returns exactly what the
engine without a cache returns from the world the cache read left; and whenever every store
call of the run succeeds the result is a wallet, either the deserialized cached one or the
stored wallet of the user, never an error. -/
theorem get_balance_cache_fallback (codec : JSONCodec M) (u : walletUsecase) (userID : Int)
    (w : World M) :
    (∀ data wallet, u.redisClient = true →
      (redisClient.Get (balanceCacheKey userID) w).1 = .ok data →
      codec.Unmarshal data = .ok wallet →
      (u.GetBalance codec userID w).1 = .ok wallet ∧
        ∀ e ∈ (u.GetBalance codec userID w).2.issuedSince w, e.call.isStore = false) ∧
    (u.redisClient = false →
      (u.GetBalance codec userID w).1 =
        ((walletUsecase.mk false).GetBalance codec userID w).1) ∧
    (u.redisClient = true →
      (∀ data wallet, (redisClient.Get (balanceCacheKey userID) w).1 = .ok data →
        codec.Unmarshal data ≠ .ok wallet) →
      (u.GetBalance codec userID w).1 =
        ((walletUsecase.mk false).GetBalance codec userID
          (redisClient.Get (balanceCacheKey userID) w).2).1) ∧
    (storeCallsSucceed ((u.GetBalance codec userID w).2.issuedSince w) = true →
      ∃ wallet, (u.GetBalance codec userID w).1 = .ok wallet ∧
        ((∃ data, w.redis.lookup (balanceCacheKey userID) = some data ∧
            codec.Unmarshal data = .ok wallet) ∨
          ∃ user, w.userOf userID = some user ∧ w.walletOf user.ID = some wallet)) := by
  rcases walletUsecase.GetBalance_paths codec u userID w with
    ⟨data, wallet, hu, hg, hl, hun, h⟩ | ⟨hu, h⟩ | ⟨o, hu, hg, hno, h⟩
  · refine ⟨?_, ?_, ?_, ?_⟩
    · intro data1 wallet1 _ h1 h2
      rw [hg] at h1
      cases h1
      rw [hun] at h2
      cases h2
      rw [h]
      exact ⟨rfl, by simp [World.issuedSince, Call.isStore]⟩
    · intro hf
      rw [hu] at hf
      cases hf
    · intro _ hno
      exact absurd hun (hno data wallet (by rw [hg]))
    · intro _
      rw [h]
      exact ⟨wallet, rfl, Or.inl ⟨data, hl, hun⟩⟩
  · refine ⟨?_, ?_, ?_, ?_⟩
    · intro data1 wallet1 ht
      rw [hu] at ht
      cases ht
    · intro _
      rw [h]
      exact walletUsecase.getBalanceFromStore_result codec u userID w
    · intro ht
      rw [hu] at ht
      cases ht
    · intro hs
      rw [h] at hs ⊢
      obtain ⟨user, wallet, h1, h2, h3⟩ :=
        walletUsecase.getBalanceFromStore_succeeds codec u userID w w [] (by simp) rfl rfl hs
      exact ⟨wallet, h3, Or.inr ⟨user, h1, h2⟩⟩
  · refine ⟨?_, ?_, ?_, ?_⟩
    · intro data1 wallet1 _ h1 h2
      exact absurd h2 (hno data1 wallet1 h1)
    · intro hf
      rw [hu] at hf
      cases hf
    · intro _ _
      rw [h, hg]
      exact walletUsecase.getBalanceFromStore_result codec u userID _
    · intro hs
      rw [h] at hs ⊢
      obtain ⟨user, wallet, h1, h2, h3⟩ :=
        walletUsecase.getBalanceFromStore_succeeds codec u userID w
          (w.emit (.redisGet (balanceCacheKey userID)) o) [⟨.redisGet (balanceCacheKey userID), o⟩]
          rfl rfl rfl hs
      exact ⟨wallet, h3, Or.inr ⟨user, h1, h2⟩⟩

/-- Runs of C16 on the fixture with serialization by lines: a stale cached entry for user 1 is
returned without a store call; with a corrupt entry the result is that of the engine without a
cache, and it is the stored wallet. -/
theorem get_balance_cache_fallback_witness :
    (((walletUsecase.mk true).GetBalance lineCodec 1 cachedWorld).1 =
        .ok ⟨1, 1, 70, "USD", 0, 0⟩ ∧
      ∀ e ∈ ((walletUsecase.mk true).GetBalance lineCodec 1 cachedWorld).2.issuedSince
        cachedWorld, e.call.isStore = false) ∧
    ((walletUsecase.mk true).GetBalance lineCodec 1 corruptCacheWorld).1 =
      ((walletUsecase.mk false).GetBalance lineCodec 1
        (redisClient.Get (balanceCacheKey 1) corruptCacheWorld).2).1 ∧
    (∃ wallet, ((walletUsecase.mk true).GetBalance lineCodec 1 corruptCacheWorld).1 =
        .ok wallet ∧
      ((∃ data, corruptCacheWorld.redis.lookup (balanceCacheKey 1) = some data ∧
          lineCodec.Unmarshal data = .ok wallet) ∨
        ∃ user, corruptCacheWorld.userOf 1 = some user ∧
          corruptCacheWorld.walletOf user.ID = some wallet)) :=
  have h := get_balance_cache_fallback lineCodec (walletUsecase.mk true) 1
  ⟨(h cachedWorld).1 "1|1|70|USD|0|0" ⟨1, 1, 70, "USD", 0, 0⟩ rfl (by decide) (by decide),
    (h corruptCacheWorld).2.2.1 rfl (by
      intro data wallet h1
      have h2 : data = "\x7bnot a wallet" := by
        have h3 : (redisClient.Get (balanceCacheKey 1) corruptCacheWorld).1 =
            .ok "\x7bnot a wallet" := by decide
        rw [h3] at h1
        cases h1
        rfl
      have h4 : lineCodec.Unmarshal "\x7bnot a wallet" =
          .error (.driver "json: cannot unmarshal") := by decide
      rw [h2, h4]
      intro h5
      cases h5),
    (h corruptCacheWorld).2.2.2 (by decide)⟩

/-- C17. Let `GetBalance` with a Redis client fall through to the store (the cache read does
not give bytes that deserialize). When the run returns an error, it issued no cache write and
left Redis as it was. When it returns a wallet, this is the stored wallet of the user, and
when its serialization is `walletData`, the last call of the run is the one cache write of
the run: `Set` of `walletData` under the key of the user id with expiry 5; when that write
succeeds, the key holds `walletData`. When `encoding/json` round-trips the stored wallet, the
written bytes `walletData` deserialize to a wallet `cached` with the id, user id, balance and
currency of the stored wallet, and after a successful write a following `GetBalance` whose
cache read is not failed returns `cached`. -/
theorem get_balance_populates_cache (codec : JSONCodec M) (u : walletUsecase) (userID : Int)
    (w : World M) (hu : u.redisClient = true)
    (hmiss : ∀ data wallet, (redisClient.Get (balanceCacheKey userID) w).1 = .ok data →
      codec.Unmarshal data ≠ .ok wallet) :
    (∀ err, (u.GetBalance codec userID w).1 = .error err →
      (u.GetBalance codec userID w).2.redis = w.redis ∧
        ∀ e ∈ (u.GetBalance codec userID w).2.issuedSince w, e.call.isCacheSet = false) ∧
    (∀ wallet walletData, (u.GetBalance codec userID w).1 = .ok wallet →
      codec.Marshal wallet = .ok walletData →
      (∃ user, w.userOf userID = some user ∧ w.walletOf user.ID = some wallet) ∧
      ∃ es o,
        (u.GetBalance codec userID w).2.issuedSince w =
          es ++ [⟨.redisSet (balanceCacheKey userID) walletData balanceCacheTTL, o⟩] ∧
        balanceCacheTTL = 5 ∧
        (∀ e ∈ es, e.call.isCacheSet = false) ∧
        (o = Outcome.ok →
          (u.GetBalance codec userID w).2.redis.lookup (balanceCacheKey userID) =
            some walletData) ∧
        (codec.roundTripsOn wallet →
          ∃ cached, codec.Unmarshal walletData = .ok cached ∧
            cached.ID = wallet.ID ∧ cached.UserID = wallet.UserID ∧
            cached.Balance = wallet.Balance ∧ cached.Currency = wallet.Currency ∧
            (o = Outcome.ok → (u.GetBalance codec userID w).2.nextFault = none →
              (u.GetBalance codec userID (u.GetBalance codec userID w).2).1 = .ok cached))) := by
  rcases walletUsecase.GetBalance_paths codec u userID w with
    ⟨data, wallet, _, hg, _, hun, _⟩ | ⟨hf, _⟩ | ⟨o1, _, _, _, h⟩
  · exact absurd hun (hmiss data wallet (by rw [hg]))
  · rw [hu] at hf
    cases hf
  · rw [h]
    rcases walletUsecase.getBalanceFromStore_issued codec u userID
        (w.emit (.redisGet (balanceCacheKey userID)) o1) with
      ⟨err, hr, hred, ht⟩ | ⟨user, wallet0, hus, hws, hr, hc⟩
    · constructor
      · intro _ _
        refine ⟨by rw [hred]; rfl, ?_⟩
        unfold World.issuedSince
        rcases ht with ht | ⟨user, _, ht⟩
        · rw [ht, World.emit_trace, List.append_assoc, List.drop_left]
          simp [Call.isCacheSet]
        · rw [ht, World.emit_trace, List.append_assoc, List.drop_left]
          simp [Call.isCacheSet]
      · intro wallet walletData hok
        rw [hr] at hok
        cases hok
    · constructor
      · intro err herr
        rw [hr] at herr
        cases herr
      · intro wallet walletData hok hm
        rw [hr] at hok
        cases hok
        refine ⟨⟨user, hus, hws⟩, ?_⟩
        rcases hc with ⟨hc, _⟩ | ⟨walletData0, o, _, hm0, hl, ht⟩
        · rcases hc with hc | ⟨err, hc⟩
          · rw [hu] at hc
            cases hc
          · rw [hm] at hc
            cases hc
        · rw [hm] at hm0
          cases hm0
          refine ⟨[⟨.redisGet (balanceCacheKey userID), o1⟩, ⟨.userGetByID userID, .ok⟩,
            ⟨.walletGetByUserID user.ID, .ok⟩], o, ?_, rfl, by simp [Call.isCacheSet], hl, ?_⟩
          · unfold World.issuedSince
            rw [ht, World.emit_trace, List.append_assoc, List.drop_left]
            rfl
          · intro hrt
            obtain ⟨cached, hun, h1, h2, h3, h4⟩ := hrt walletData hm
            exact ⟨cached, hun, h1, h2, h3, h4, fun ho hf =>
              walletUsecase.GetBalance_hit codec u userID _ walletData cached hu hf (hl ho) hun⟩

/-- Runs of C17 with serialization by lines, which round-trips the stored wallet of user 1.
On the fixture with an empty cache, `GetBalance` of user 1 returns the stored wallet and ends
with the cache write of "1|1|100|USD|0|0" under "wallet:balance:1" with expiry 5; these bytes
deserialize to a wallet with the id, user id, balance and currency of the stored wallet. For
user 3, who has no wallet row, the run fails and writes nothing to the cache. -/
theorem get_balance_populates_cache_witness :
    ((∃ user, testWorld.userOf 1 = some user ∧
        testWorld.walletOf user.ID = some ⟨1, 1, 100, "USD", 0, 0⟩) ∧
      ∃ es o,
        ((walletUsecase.mk true).GetBalance lineCodec 1 testWorld).2.issuedSince testWorld =
          es ++ [⟨.redisSet (balanceCacheKey 1) "1|1|100|USD|0|0" balanceCacheTTL, o⟩] ∧
        balanceCacheTTL = 5 ∧
        (∀ e ∈ es, e.call.isCacheSet = false) ∧
        (o = Outcome.ok →
          ((walletUsecase.mk true).GetBalance lineCodec 1 testWorld).2.redis.lookup
              (balanceCacheKey 1) = some "1|1|100|USD|0|0") ∧
        ∃ cached, lineCodec.Unmarshal "1|1|100|USD|0|0" = .ok cached ∧
          cached.ID = 1 ∧ cached.UserID = 1 ∧ cached.Balance = 100 ∧
          cached.Currency = "USD" ∧
          (o = Outcome.ok →
            ((walletUsecase.mk true).GetBalance lineCodec 1 testWorld).2.nextFault = none →
            ((walletUsecase.mk true).GetBalance lineCodec 1
              ((walletUsecase.mk true).GetBalance lineCodec 1 testWorld).2).1 =
                .ok cached)) ∧
    (((walletUsecase.mk true).GetBalance lineCodec 3 walletlessWorld).2.redis =
        walletlessWorld.redis ∧
      ∀ e ∈ ((walletUsecase.mk true).GetBalance lineCodec 3 walletlessWorld).2.issuedSince
        walletlessWorld, e.call.isCacheSet = false) := by
  have hrt : lineCodec.roundTripsOn ⟨1, 1, 100, "USD", 0, 0⟩ := by
    intro data hm
    have h3 : lineCodec.Marshal ⟨1, 1, 100, "USD", 0, 0⟩ = .ok "1|1|100|USD|0|0" := by
      decide
    rw [h3] at hm
    cases hm
    exact ⟨⟨1, 1, 100, "USD", 0, 0⟩, by decide, rfl, rfl, rfl, rfl⟩
  obtain ⟨hs, es, o, h1, h2, h3, h4, h5⟩ :=
    (get_balance_populates_cache lineCodec (walletUsecase.mk true) 1 testWorld rfl (by
      intro data wallet h1
      have h3 : (redisClient.Get (balanceCacheKey 1) testWorld).1 =
          .error (.driver "redis: nil") := by decide
      rw [h3] at h1
      cases h1)).2 ⟨1, 1, 100, "USD", 0, 0⟩ "1|1|100|USD|0|0" (by decide) (by decide)
  exact ⟨⟨hs, es, o, h1, h2, h3, h4, h5 hrt⟩,
    (get_balance_populates_cache lineCodec (walletUsecase.mk true) 3 walletlessWorld rfl (by
      intro data wallet h1
      have h3 : (redisClient.Get (balanceCacheKey 3) walletlessWorld).1 =
          .error (.driver "redis: nil") := by decide
      rw [h3] at h1
      cases h1)).1
      (WrapError (.wrapped "failed to get wallet by user ID" (.driver "no rows in result set"))
        "failed to get wallet") (by decide)⟩

/-- C18. For every user id, limit, offset and world, `GetTransactionHistory` issues only store
reads (no Redis call, no store write) and leaves wallets, ledger and Redis as they were; every
page query it issues carries the effective limit (10 when the limit is not positive) and the
effective offset (0 when the offset is negative); and when every store call succeeds it issued
the user read, the wallet read, the page query and the count query for the wallet of the user,
and returns the entries of the page query, the count, and the effective limit and offset. -/
theorem history_uses_effective_pagination (u : walletUsecase) (userID : Int)
    (pagination : PaginationRequest) (w : World M) :
    (∀ e ∈ (u.GetTransactionHistory userID pagination w).2.issuedSince w,
      e.call.isRedis = false ∧ e.call.isWrite = false ∧
      ∀ id limit offset, e.call = .transactionGetByWalletID id limit offset →
        limit = pagination.effectiveLimit ∧ offset = pagination.effectiveOffset) ∧
    (u.GetTransactionHistory userID pagination w).2.redis = w.redis ∧
    (u.GetTransactionHistory userID pagination w).2.wallets = w.wallets ∧
    (u.GetTransactionHistory userID pagination w).2.transactions = w.transactions ∧
    (storeCallsSucceed ((u.GetTransactionHistory userID pagination w).2.issuedSince w) = true →
      ∃ user wallet, w.userOf userID = some user ∧ w.walletOf user.ID = some wallet ∧
        (u.GetTransactionHistory userID pagination w).2.issuedSince w =
          [⟨.userGetByID userID, .ok⟩, ⟨.walletGetByUserID user.ID, .ok⟩,
            ⟨.transactionGetByWalletID wallet.ID pagination.effectiveLimit
              pagination.effectiveOffset, .ok⟩,
            ⟨.transactionCountByWalletID wallet.ID, .ok⟩] ∧
        (u.GetTransactionHistory userID pagination w).1 =
          .ok
            { Transactions :=
                ((w.transactionsOf wallet.ID).drop pagination.effectiveOffset.toNat).take
                  pagination.effectiveLimit.toNat,
              Total := ((w.ledgerOf wallet.ID).length : Int),
              Limit := pagination.effectiveLimit,
              Offset := pagination.effectiveOffset }) := by
  rcases walletUsecase.GetTransactionHistory_paths u userID pagination w with
    ⟨err, h⟩ | ⟨user, err, hu, h⟩ | ⟨user, wallet, err, hu, hw, h⟩ |
    ⟨user, wallet, err, hu, hw, h⟩ | ⟨user, wallet, hu, hw, h⟩
  · rw [h]
    refine ⟨by simp [World.issuedSince, Call.isRedis, Call.isWrite], rfl, rfl, rfl, ?_⟩
    intro hs
    simp [World.issuedSince, storeCallsSucceed, Call.isStore] at hs
  · rw [h]
    refine ⟨by simp [World.issuedSince, Call.isRedis, Call.isWrite], rfl, rfl, rfl, ?_⟩
    intro hs
    simp [World.issuedSince, storeCallsSucceed, Call.isStore] at hs
  · rw [h]
    refine ⟨by simp [World.issuedSince, World.afterLookup, Call.isRedis, Call.isWrite],
      rfl, rfl, rfl, ?_⟩
    intro hs
    simp [World.issuedSince, World.afterLookup, storeCallsSucceed, Call.isStore] at hs
  · rw [h]
    refine ⟨by simp [World.issuedSince, World.afterLookup, Call.isRedis, Call.isWrite],
      rfl, rfl, rfl, ?_⟩
    intro hs
    simp [World.issuedSince, World.afterLookup, storeCallsSucceed, Call.isStore] at hs
  · rw [h]
    refine ⟨by simp [World.issuedSince, World.afterLookup, Call.isRedis, Call.isWrite],
      rfl, rfl, rfl, ?_⟩
    intro _
    exact ⟨user, wallet, hu, hw, by simp [World.issuedSince, World.afterLookup], rfl⟩

/-- A run of C18: the history of user 1 on the fixture with five ledger rows, asked with limit
0 and offset -3, is queried and answered with limit 10 and offset 0. -/
theorem history_uses_effective_pagination_witness :
    ∃ user wallet, historyWorld.userOf 1 = some user ∧
      historyWorld.walletOf user.ID = some wallet ∧
      ((walletUsecase.mk true).GetTransactionHistory 1 ⟨0, -3⟩ historyWorld).2.issuedSince
          historyWorld =
        [⟨.userGetByID 1, .ok⟩, ⟨.walletGetByUserID user.ID, .ok⟩,
          ⟨.transactionGetByWalletID wallet.ID
            (PaginationRequest.effectiveLimit ⟨0, -3⟩)
            (PaginationRequest.effectiveOffset ⟨0, -3⟩), .ok⟩,
          ⟨.transactionCountByWalletID wallet.ID, .ok⟩] ∧
      ((walletUsecase.mk true).GetTransactionHistory 1 ⟨0, -3⟩ historyWorld).1 =
        .ok
          { Transactions :=
              ((historyWorld.transactionsOf wallet.ID).drop
                (PaginationRequest.effectiveOffset ⟨0, -3⟩).toNat).take
                (PaginationRequest.effectiveLimit ⟨0, -3⟩).toNat,
            Total := ((historyWorld.ledgerOf wallet.ID).length : Int),
            Limit := PaginationRequest.effectiveLimit ⟨0, -3⟩,
            Offset := PaginationRequest.effectiveOffset ⟨0, -3⟩ } :=
  (history_uses_effective_pagination (walletUsecase.mk true) 1 ⟨0, -3⟩ historyWorld).2.2.2.2
    (by decide)

/-- C19. When `GetTransactionHistory` returns a response, then for the wallet of the user:
the rows of the ledger with that wallet as source wallet can be arranged in a list `sorted`
that is newest first (transaction times descending); the returned entries are those of `sorted`
at the positions from the effective offset on, at most effective-limit many; each returned
entry has the wallet as source wallet; and `Total` is the number of all rows with that wallet
as source wallet, a number in which limit and offset do not occur. -/
theorem history_page_of_sorted_ledger (u : walletUsecase) (userID : Int)
    (pagination : PaginationRequest) (w : World M) (resp : TransactionHistoryResponse M)
    (hok : (u.GetTransactionHistory userID pagination w).1 = .ok resp) :
    ∃ (user : User) (wallet : Wallet M) (sorted : List (Transaction M)),
      w.userOf userID = some user ∧ w.walletOf user.ID = some wallet ∧
      sorted.Perm (w.ledgerOf wallet.ID) ∧
      sorted.Sorted Transaction.newerFirst ∧
      0 < resp.Limit ∧ 0 ≤ resp.Offset ∧
      resp.Limit = pagination.effectiveLimit ∧ resp.Offset = pagination.effectiveOffset ∧
      resp.Transactions = (sorted.drop resp.Offset.toNat).take resp.Limit.toNat ∧
      (∀ t ∈ resp.Transactions, t.WalletID = wallet.ID) ∧
      (resp.Transactions.length : Int) ≤ resp.Limit ∧
      resp.Total = ((w.ledgerOf wallet.ID).length : Int) := by
  have hL : 0 < pagination.effectiveLimit := by
    unfold PaginationRequest.effectiveLimit
    split <;> omega
  have hO : 0 ≤ pagination.effectiveOffset := by
    unfold PaginationRequest.effectiveOffset
    split <;> omega
  rcases walletUsecase.GetTransactionHistory_paths u userID pagination w with
    ⟨err, h⟩ | ⟨user, err, hu, h⟩ | ⟨user, wallet, err, hu, hw, h⟩ |
    ⟨user, wallet, err, hu, hw, h⟩ | ⟨user, wallet, hu, hw, h⟩
  any_goals (rw [h] at hok; cases hok; done)
  rw [h] at hok
  cases hok
  have hperm : (w.transactionsOf wallet.ID).Perm (w.ledgerOf wallet.ID) :=
    List.perm_insertionSort _ _
  refine ⟨user, wallet, w.transactionsOf wallet.ID, hu, hw, hperm,
    List.sorted_insertionSort _ _, hL, hO, rfl, rfl, rfl, ?_, ?_, rfl⟩
  · intro t ht
    have h1 : t ∈ w.transactionsOf wallet.ID :=
      List.mem_of_mem_drop (List.mem_of_mem_take ht)
    have h2 : t ∈ w.ledgerOf wallet.ID := hperm.subset h1
    unfold World.ledgerOf at h2
    simpa using (List.mem_filter.mp h2).2
  · have h1 := List.length_take_le pagination.effectiveLimit.toNat
      ((w.transactionsOf wallet.ID).drop pagination.effectiveOffset.toNat)
    simp only []
    omega

/-- A run of C19: on the fixture with five ledger rows, wallet 1 has the rows 1, 3 and 4 with
times 5, 9 and 7; the history of user 1 with limit 2 and offset 1 is row 4 and then row 1, with
total 3. -/
theorem history_page_of_sorted_ledger_witness :
    ((walletUsecase.mk true).GetTransactionHistory 1 ⟨2, 1⟩ historyWorld).1 =
        .ok ⟨[⟨4, 1, some 2, .Transfer, 30, 80, 50, "d", 7, 7⟩,
          ⟨1, 1, none, .Deposit, 10, 90, 100, "a", 5, 5⟩], 3, 2, 1⟩ ∧
    ∃ (user : User) (wallet : Wallet Int) (sorted : List (Transaction Int)),
      historyWorld.userOf 1 = some user ∧ historyWorld.walletOf user.ID = some wallet ∧
      sorted.Perm (historyWorld.ledgerOf wallet.ID) ∧
      sorted.Sorted Transaction.newerFirst ∧
      (0 : Int) < 2 ∧ (0 : Int) ≤ 1 ∧
      (2 : Int) = PaginationRequest.effectiveLimit ⟨2, 1⟩ ∧
      (1 : Int) = PaginationRequest.effectiveOffset ⟨2, 1⟩ ∧
      [(⟨4, 1, some 2, .Transfer, 30, 80, 50, "d", 7, 7⟩ : Transaction Int),
          ⟨1, 1, none, .Deposit, 10, 90, 100, "a", 5, 5⟩] =
        (sorted.drop (1 : Int).toNat).take (2 : Int).toNat ∧
      (∀ t ∈ [(⟨4, 1, some 2, .Transfer, 30, 80, 50, "d", 7, 7⟩ : Transaction Int),
          ⟨1, 1, none, .Deposit, 10, 90, 100, "a", 5, 5⟩], t.WalletID = wallet.ID) ∧
      (([(⟨4, 1, some 2, .Transfer, 30, 80, 50, "d", 7, 7⟩ : Transaction Int),
          ⟨1, 1, none, .Deposit, 10, 90, 100, "a", 5, 5⟩].length : Nat) : Int) ≤ 2 ∧
      (3 : Int) = ((historyWorld.ledgerOf wallet.ID).length : Int) :=
  ⟨by decide,
    history_page_of_sorted_ledger (walletUsecase.mk true) 1 ⟨2, 1⟩ historyWorld
      ⟨[⟨4, 1, some 2, .Transfer, 30, 80, 50, "d", 7, 7⟩,
        ⟨1, 1, none, .Deposit, 10, 90, 100, "a", 5, 5⟩], 3, 2, 1⟩ (by decide)⟩

/-- C20. For every engine, store state `w` and two Redis contents `c1` and `c2`: `Deposit` and
`Withdraw` of any request return the same result, leave the same wallet rows and ledger rows,
and issue the same calls with the same outcomes on `c1` as on `c2`; so does `Transfer` of any
request when `c1` and `c2` agree on the two lock names of the request (the lock tokens are not
cache entries: a cache key is never a lock name). No cached balance, stale or corrupt, reaches
a mutation. -/
theorem mutations_ignore_cache [Preorder M] [Add M] [Sub M] [Zero M]
    [∀ a b : M, Decidable (a ≤ b)] [∀ a b : M, Decidable (a < b)]
    (u : walletUsecase) (w : World M) (c1 c2 : List (String × String)) :
    (∀ req : DepositRequest M,
      (u.Deposit req (w.setRedis c1)).1 = (u.Deposit req (w.setRedis c2)).1 ∧
      (u.Deposit req (w.setRedis c1)).2.wallets = (u.Deposit req (w.setRedis c2)).2.wallets ∧
      (u.Deposit req (w.setRedis c1)).2.transactions =
        (u.Deposit req (w.setRedis c2)).2.transactions ∧
      (u.Deposit req (w.setRedis c1)).2.trace = (u.Deposit req (w.setRedis c2)).2.trace) ∧
    (∀ req : WithdrawRequest M,
      (u.Withdraw req (w.setRedis c1)).1 = (u.Withdraw req (w.setRedis c2)).1 ∧
      (u.Withdraw req (w.setRedis c1)).2.wallets = (u.Withdraw req (w.setRedis c2)).2.wallets ∧
      (u.Withdraw req (w.setRedis c1)).2.transactions =
        (u.Withdraw req (w.setRedis c2)).2.transactions ∧
      (u.Withdraw req (w.setRedis c1)).2.trace = (u.Withdraw req (w.setRedis c2)).2.trace) ∧
    (∀ req : TransferRequest M,
      c1.lookup req.firstLockKey = c2.lookup req.firstLockKey →
      c1.lookup req.secondLockKey = c2.lookup req.secondLockKey →
      (u.Transfer req (w.setRedis c1)).1 = (u.Transfer req (w.setRedis c2)).1 ∧
      (u.Transfer req (w.setRedis c1)).2.wallets = (u.Transfer req (w.setRedis c2)).2.wallets ∧
      (u.Transfer req (w.setRedis c1)).2.transactions =
        (u.Transfer req (w.setRedis c2)).2.transactions ∧
      (u.Transfer req (w.setRedis c1)).2.trace = (u.Transfer req (w.setRedis c2)).2.trace) := by
  refine ⟨?_, ?_, ?_⟩
  · intro req
    obtain ⟨d1, h1⟩ := walletUsecase.Deposit_setRedis u req w c1
    obtain ⟨d2, h2⟩ := walletUsecase.Deposit_setRedis u req w c2
    rw [h1, h2]
    exact ⟨rfl, rfl, rfl, rfl⟩
  · intro req
    obtain ⟨d1, h1⟩ := walletUsecase.Withdraw_setRedis u req w c1
    obtain ⟨d2, h2⟩ := walletUsecase.Withdraw_setRedis u req w c2
    rw [h1, h2]
    exact ⟨rfl, rfl, rfl, rfl⟩
  · intro req h1 h2
    obtain ⟨hr, hw⟩ := walletUsecase.Transfer_setRedis u req w c1 c2 h1 h2
    have h3 : ∀ x : World M, (x.setRedis []).wallets = x.wallets := fun _ => rfl
    have h4 : ∀ x : World M, (x.setRedis []).transactions = x.transactions := fun _ => rfl
    have h5 : ∀ x : World M, (x.setRedis []).trace = x.trace := fun _ => rfl
    exact ⟨hr, by rw [← h3, hw, h3], by rw [← h4, hw, h4], by rw [← h5, hw, h5]⟩

/-- A run of C20: on the fixture, a transfer of 30 from user 1 to user 2 with an empty cache
and with a stale cached balance of user 1 returns the same entry, leaves the same rows and
issues the same calls. -/
theorem mutations_ignore_cache_witness :
    ((walletUsecase.mk true).Transfer ⟨1, 2, 30, "t"⟩ (testWorld.setRedis [])).1 =
        ((walletUsecase.mk true).Transfer ⟨1, 2, 30, "t"⟩
          (testWorld.setRedis [("wallet:balance:1", "1|1|70|USD|0|0")])).1 ∧
      ((walletUsecase.mk true).Transfer ⟨1, 2, 30, "t"⟩ (testWorld.setRedis [])).2.wallets =
        ((walletUsecase.mk true).Transfer ⟨1, 2, 30, "t"⟩
          (testWorld.setRedis [("wallet:balance:1", "1|1|70|USD|0|0")])).2.wallets ∧
      ((walletUsecase.mk true).Transfer ⟨1, 2, 30, "t"⟩ (testWorld.setRedis [])).2.transactions =
        ((walletUsecase.mk true).Transfer ⟨1, 2, 30, "t"⟩
          (testWorld.setRedis [("wallet:balance:1", "1|1|70|USD|0|0")])).2.transactions ∧
      ((walletUsecase.mk true).Transfer ⟨1, 2, 30, "t"⟩ (testWorld.setRedis [])).2.trace =
        ((walletUsecase.mk true).Transfer ⟨1, 2, 30, "t"⟩
          (testWorld.setRedis [("wallet:balance:1", "1|1|70|USD|0|0")])).2.trace :=
  (mutations_ignore_cache (walletUsecase.mk true) testWorld []
    [("wallet:balance:1", "1|1|70|USD|0|0")]).2.2 ⟨1, 2, 30, "t"⟩ (by decide) (by decide)

/-- C21. In an arithmetic in which the sum of a balance that is not negative and an accepted
amount is not negative, and the difference of a balance and an accepted amount that does not
exceed it is not negative (true of exact decimals and of `float64` on numbers): from every
store state in which no wallet balance is negative, each of `Deposit`, `Withdraw`, `Transfer`,
`GetBalance` and `GetTransactionHistory`, with any arguments, with or without Redis, whatever
the calls return, leaves a store state in which no wallet balance is negative. -/
theorem balances_stay_nonnegative [Add M] [Sub M] [Zero M] [LE M] [LT M]
    [∀ a b : M, Decidable (a ≤ b)] [∀ a b : M, Decidable (a < b)]
    (hadd : ∀ b a : M, 0 ≤ b → ¬ a ≤ 0 → 0 ≤ b + a)
    (hsub : ∀ b a : M, ¬ a ≤ 0 → ¬ b < a → 0 ≤ b - a)
    (codec : JSONCodec M) (u : walletUsecase) (w : World M)
    (hinv : w.balancesNonnegative) :
    (∀ req : DepositRequest M, (u.Deposit req w).2.balancesNonnegative) ∧
    (∀ req : WithdrawRequest M, (u.Withdraw req w).2.balancesNonnegative) ∧
    (∀ req : TransferRequest M, (u.Transfer req w).2.balancesNonnegative) ∧
    (∀ userID : Int, (u.GetBalance codec userID w).2.balancesNonnegative) ∧
    (∀ (userID : Int) (pagination : PaginationRequest),
      (u.GetTransactionHistory userID pagination w).2.balancesNonnegative) :=
  ⟨fun req => walletUsecase.Deposit_balancesNonnegative hadd u req w hinv,
    fun req => walletUsecase.Withdraw_balancesNonnegative hsub u req w hinv,
    fun req => walletUsecase.Transfer_balancesNonnegative hadd hsub u req w hinv,
    fun userID => World.balancesNonnegative_of_wallets
      (walletUsecase.GetBalance_wallets codec u userID w) hinv,
    fun userID pagination => World.balancesNonnegative_of_wallets
      (walletUsecase.GetTransactionHistory_wallets u userID pagination w) hinv⟩

/-- A run of C21 on the fixture with integer balances: after the withdrawal of the whole
balance of user 1, and after a transfer in which the driver fails the update of the receiver,
no balance is negative. -/
theorem balances_stay_nonnegative_witness :
    testWorld.balancesNonnegative ∧
      ((walletUsecase.mk true).Withdraw ⟨1, 100, "all"⟩ testWorld).2.balancesNonnegative ∧
      ((walletUsecase.mk true).Transfer ⟨1, 2, 30, "t"⟩
        (cachedFaultyWorld 7)).2.balancesNonnegative :=
  ⟨by decide,
    (balances_stay_nonnegative (fun b a hb ha => by omega) (fun b a ha hlt => by omega)
      lineCodec (walletUsecase.mk true) testWorld (by decide)).2.1 ⟨1, 100, "all"⟩,
    (balances_stay_nonnegative (fun b a hb ha => by omega) (fun b a ha hlt => by omega)
      lineCodec (walletUsecase.mk true) (cachedFaultyWorld 7) (by decide)).2.2.1
      ⟨1, 2, 30, "t"⟩⟩

/-- C22, the code at the failing input. On the fixture, wallet 1 of user 1 holds 100. Two
calls `Withdraw` of 100 for user 1 run with their round trips alternating, so that both read
the wallet before either writes it. Both return a ledger entry with balance 100 before and 0
after: two withdrawals of the whole balance succeed, the stored balance is 0, and the ledger
holds both entries. -/
theorem concurrent_withdrawals_both_succeed :
    testWorld.walletOf 1 = some ⟨1, 1, 100, "USD", 0, 0⟩ ∧
      ((walletUsecase.mk true).WithdrawRun [0, 1, 0, 1, 0, 1, 0, 1, 0, 1]
        [.start ⟨1, 100, "a"⟩, .start ⟨1, 100, "b"⟩] testWorld).1.map WithdrawCall.result? =
        [some (.ok ⟨1, 1, none, .Withdrawal, 100, 100, 0, "a", 1, 1⟩),
          some (.ok ⟨2, 1, none, .Withdrawal, 100, 100, 0, "b", 1, 1⟩)] ∧
      ((walletUsecase.mk true).WithdrawRun [0, 1, 0, 1, 0, 1, 0, 1, 0, 1]
        [.start ⟨1, 100, "a"⟩, .start ⟨1, 100, "b"⟩] testWorld).2.walletOf 1 =
        some ⟨1, 1, 0, "USD", 0, 1⟩ ∧
      ((walletUsecase.mk true).WithdrawRun [0, 1, 0, 1, 0, 1, 0, 1, 0, 1]
        [.start ⟨1, 100, "a"⟩, .start ⟨1, 100, "b"⟩] testWorld).2.transactions =
        [⟨1, 1, none, .Withdrawal, 100, 100, 0, "a", 1, 1⟩,
          ⟨2, 1, none, .Withdrawal, 100, 100, 0, "b", 1, 1⟩] := by
  decide

/-- C23, a run in which the last part of the claim fails. A wallet whose `UpdatedAt` is 10
receives a deposit of 50 while the clock reads 7: the deposit is accepted, the balance is 150,
and `UpdatedAt` is 7, earlier than its previous value. -/
theorem wallet_deposit_updated_at_counterexample :
    (Wallet.DepositReceiver (⟨1, 1, 100, "USD", 0, 10⟩ : Wallet Int) 50 7).1 = none ∧
      (Wallet.DepositReceiver (⟨1, 1, 100, "USD", 0, 10⟩ : Wallet Int) 50 7).2 =
        ⟨1, 1, 150, "USD", 0, 7⟩ ∧
      Wallet.Deposit (⟨1, 1, 100, "USD", 0, 10⟩ : Wallet Int) 50 7 =
        .ok ⟨1, 1, 150, "USD", 0, 7⟩ ∧
      ¬ (⟨1, 1, 100, "USD", 0, 10⟩ : Wallet Int).UpdatedAt ≤
        (Wallet.DepositReceiver (⟨1, 1, 100, "USD", 0, 10⟩ : Wallet Int) 50 7).2.UpdatedAt := by
  decide

/-- C23, amended. For every wallet, amount and clock reading: `Wallet.Deposit` returns an
error exactly when `amount ≤ 0`; an error it returns is `ErrInvalidAmount`, and the wallet is
then as before; when it returns no error the balance is the old balance plus the amount,
`UpdatedAt` is the clock reading whatever its previous value, so it is not earlier than the
previous value exactly when the previous value is not later than the clock reading, and the
other fields are as before.  The form of the method the engine uses returns the same error,
or the wallet after the call. -/
theorem wallet_deposit_contract [Add M] [Zero M] [LE M] [∀ a b : M, Decidable (a ≤ b)]
    (w : Wallet M) (amount : M) (now : Nat) :
    ((∃ err, (w.DepositReceiver amount now).1 = some err) ↔ amount ≤ 0) ∧
    (∀ err, (w.DepositReceiver amount now).1 = some err →
      err = ErrInvalidAmount ∧ (w.DepositReceiver amount now).2 = w) ∧
    ((w.DepositReceiver amount now).1 = none →
      (w.DepositReceiver amount now).2.Balance = w.Balance + amount ∧
      (w.DepositReceiver amount now).2.UpdatedAt = now ∧
      (w.UpdatedAt ≤ (w.DepositReceiver amount now).2.UpdatedAt ↔ w.UpdatedAt ≤ now) ∧
      (w.DepositReceiver amount now).2.ID = w.ID ∧
      (w.DepositReceiver amount now).2.UserID = w.UserID ∧
      (w.DepositReceiver amount now).2.Currency = w.Currency ∧
      (w.DepositReceiver amount now).2.CreatedAt = w.CreatedAt) ∧
    w.Deposit amount now =
      (match (w.DepositReceiver amount now).1 with
      | some err => .error err
      | none => .ok (w.DepositReceiver amount now).2) := by
  by_cases h : amount ≤ 0
  · simp [Wallet.DepositReceiver, Wallet.Deposit, h]
  · simp [Wallet.DepositReceiver, Wallet.Deposit, h]

/-- Runs of C23: a deposit of 50 into the wallet of user 1 at time 7, and a deposit of 0. -/
theorem wallet_deposit_contract_witness :
    ((Wallet.DepositReceiver (⟨1, 1, 100, "USD", 0, 3⟩ : Wallet Int) 50 7).2.Balance =
        100 + 50 ∧
      (Wallet.DepositReceiver (⟨1, 1, 100, "USD", 0, 3⟩ : Wallet Int) 50 7).2.UpdatedAt = 7 ∧
      (3 ≤ (Wallet.DepositReceiver (⟨1, 1, 100, "USD", 0, 3⟩ : Wallet Int) 50 7).2.UpdatedAt ↔
        (3 : Nat) ≤ 7) ∧
      (Wallet.DepositReceiver (⟨1, 1, 100, "USD", 0, 3⟩ : Wallet Int) 50 7).2.ID = 1 ∧
      (Wallet.DepositReceiver (⟨1, 1, 100, "USD", 0, 3⟩ : Wallet Int) 50 7).2.UserID = 1 ∧
      (Wallet.DepositReceiver (⟨1, 1, 100, "USD", 0, 3⟩ : Wallet Int) 50 7).2.Currency =
        "USD" ∧
      (Wallet.DepositReceiver (⟨1, 1, 100, "USD", 0, 3⟩ : Wallet Int) 50 7).2.CreatedAt = 0) ∧
    (ErrInvalidAmount = ErrInvalidAmount ∧
      (Wallet.DepositReceiver (⟨1, 1, 100, "USD", 0, 3⟩ : Wallet Int) 0 7).2 =
        ⟨1, 1, 100, "USD", 0, 3⟩) :=
  ⟨(wallet_deposit_contract (⟨1, 1, 100, "USD", 0, 3⟩ : Wallet Int) 50 7).2.2.1 (by decide),
    (wallet_deposit_contract (⟨1, 1, 100, "USD", 0, 3⟩ : Wallet Int) 0 7).2.1
      ErrInvalidAmount (by decide)⟩

/-- C24. In a linear order of amounts, for every wallet, amount and clock reading:
`Wallet.Withdraw` returns `ErrInvalidAmount` when `amount ≤ 0`, whatever the balance;
`ErrInsufficientFunds` when `0 < amount` and the balance is less than the amount; and no error
in every other case.  When it returns an error the wallet is as before; when it returns no
error the balance is the old balance minus the amount, `UpdatedAt` is the clock reading and
the other fields are as before.  The form of the method the engine uses returns the same
error, or the wallet after the call. -/
theorem wallet_withdraw_contract [LinearOrder M] [Sub M] [Zero M]
    (w : Wallet M) (amount : M) (now : Nat) :
    (amount ≤ 0 → (w.WithdrawReceiver amount now).1 = some ErrInvalidAmount) ∧
    (0 < amount → w.Balance < amount →
      (w.WithdrawReceiver amount now).1 = some ErrInsufficientFunds) ∧
    (¬ amount ≤ 0 → ¬ (0 < amount ∧ w.Balance < amount) →
      (w.WithdrawReceiver amount now).1 = none) ∧
    (∀ err, (w.WithdrawReceiver amount now).1 = some err →
      (w.WithdrawReceiver amount now).2 = w) ∧
    ((w.WithdrawReceiver amount now).1 = none →
      (w.WithdrawReceiver amount now).2.Balance = w.Balance - amount ∧
      (w.WithdrawReceiver amount now).2.UpdatedAt = now ∧
      (w.WithdrawReceiver amount now).2.ID = w.ID ∧
      (w.WithdrawReceiver amount now).2.UserID = w.UserID ∧
      (w.WithdrawReceiver amount now).2.Currency = w.Currency ∧
      (w.WithdrawReceiver amount now).2.CreatedAt = w.CreatedAt) ∧
    w.Withdraw amount now =
      (match (w.WithdrawReceiver amount now).1 with
      | some err => .error err
      | none => .ok (w.WithdrawReceiver amount now).2) := by
  by_cases h : amount ≤ 0
  · simp [Wallet.WithdrawReceiver, Wallet.Withdraw, h, not_lt_of_le h]
  · by_cases hlt : w.Balance < amount
    · simp [Wallet.WithdrawReceiver, Wallet.Withdraw, h, hlt, lt_of_not_le h]
    · simp [Wallet.WithdrawReceiver, Wallet.Withdraw, h, hlt]

/-- Runs of C24 on the wallet of user 1 with balance 100: a withdrawal of 130 is refused for
insufficient funds and leaves the wallet as it is; a withdrawal of 100 leaves balance
`100 - 100`. -/
theorem wallet_withdraw_contract_witness :
    (Wallet.WithdrawReceiver (⟨1, 1, 100, "USD", 0, 3⟩ : Wallet Int) 130 7).1 =
        some ErrInsufficientFunds ∧
      (Wallet.WithdrawReceiver (⟨1, 1, 100, "USD", 0, 3⟩ : Wallet Int) 130 7).2 =
        ⟨1, 1, 100, "USD", 0, 3⟩ ∧
      (Wallet.WithdrawReceiver (⟨1, 1, 100, "USD", 0, 3⟩ : Wallet Int) 100 7).1 = none ∧
      (Wallet.WithdrawReceiver (⟨1, 1, 100, "USD", 0, 3⟩ : Wallet Int) 100 7).2.Balance =
        100 - 100 :=
  ⟨(wallet_withdraw_contract (⟨1, 1, 100, "USD", 0, 3⟩ : Wallet Int) 130 7).2.1
      (by decide) (by decide),
    (wallet_withdraw_contract (⟨1, 1, 100, "USD", 0, 3⟩ : Wallet Int) 130 7).2.2.2.1
      ErrInsufficientFunds (by decide),
    (wallet_withdraw_contract (⟨1, 1, 100, "USD", 0, 3⟩ : Wallet Int) 100 7).2.2.1
      (by decide) (by decide),
    ((wallet_withdraw_contract (⟨1, 1, 100, "USD", 0, 3⟩ : Wallet Int) 100 7).2.2.2.2.1
      (by decide)).1⟩

/-- C25. For every request id and error, `MapErrorToResponse` carries the request id, and its
status follows what the error matches along its chain: 400 for `ErrInvalidInput`,
`ErrInvalidAmount`, `ErrSenderReceiverSame`; 402 for `ErrInsufficientFunds`; 404 for
`ErrResourceNotFound`, `ErrUserNotFound`, `ErrWalletNotFound`; 401 for `ErrUnauthorized`; 403
for `ErrForbidden`; 429 for `ErrLockAcquisitionFailed`; and for an error that matches none of
these the response is status 500 with the text "An unexpected error occurred", the same for
all such errors.  An error wrapped by `WrapError` has the status of the error it wraps. -/
theorem map_error_classifies (requestID : String) (err : Err) :
    (MapErrorToResponse requestID err).RequestID = requestID ∧
    (err.Is .InvalidInput = true ∨ err.Is .InvalidAmount = true ∨
        err.Is .SenderReceiverSame = true →
      (MapErrorToResponse requestID err).Code = 400) ∧
    (err.Is .InsufficientFunds = true → (MapErrorToResponse requestID err).Code = 402) ∧
    (err.Is .ResourceNotFound = true ∨ err.Is .UserNotFound = true ∨
        err.Is .WalletNotFound = true →
      (MapErrorToResponse requestID err).Code = 404) ∧
    (err.Is .Unauthorized = true → (MapErrorToResponse requestID err).Code = 401) ∧
    (err.Is .Forbidden = true → (MapErrorToResponse requestID err).Code = 403) ∧
    (err.Is .LockAcquisitionFailed = true → (MapErrorToResponse requestID err).Code = 429) ∧
    ((∀ s ∈ [Sentinel.InvalidInput, .InvalidAmount, .SenderReceiverSame, .InsufficientFunds,
          .ResourceNotFound, .UserNotFound, .WalletNotFound, .Unauthorized, .Forbidden,
          .LockAcquisitionFailed], err.Is s = false) →
      MapErrorToResponse requestID err =
        { RequestID := requestID, Error := "An unexpected error occurred", Code := 500 }) ∧
    (∀ message : String,
      (MapErrorToResponse requestID (WrapError err message)).Code =
        (MapErrorToResponse requestID err).Code) := by
  refine ⟨?_, ?_, ?_, ?_, ?_, ?_, ?_, ?_, ?_⟩
  · unfold MapErrorToResponse
    repeat' split
    all_goals rfl
  · intro h
    unfold MapErrorToResponse
    rw [if_pos (by simpa [Bool.or_eq_true, or_assoc] using h)]
    rfl
  · intro h
    simp [MapErrorToResponse, h, Err.Is_other err _ .InvalidInput h (by decide),
      Err.Is_other err _ .InvalidAmount h (by decide),
      Err.Is_other err _ .SenderReceiverSame h (by decide),
      PaymentRequiredError, NewErrorResponse]
  · intro h
    have h400 : (err.Is .InvalidInput || err.Is .InvalidAmount ||
        err.Is .SenderReceiverSame) = false := by
      rcases h with h | h | h <;>
        simp [Err.Is_other err _ .InvalidInput h (by decide),
          Err.Is_other err _ .InvalidAmount h (by decide),
          Err.Is_other err _ .SenderReceiverSame h (by decide)]
    have h402 : err.Is .InsufficientFunds = false := by
      rcases h with h | h | h <;> exact Err.Is_other err _ _ h (by decide)
    unfold MapErrorToResponse
    rw [h400, h402]
    rw [if_neg (by simp), if_neg (by simp),
      if_pos (by simpa [Bool.or_eq_true, or_assoc] using h)]
    rfl
  · intro h
    simp [MapErrorToResponse, h, Err.Is_other err _ .InvalidInput h (by decide),
      Err.Is_other err _ .InvalidAmount h (by decide),
      Err.Is_other err _ .SenderReceiverSame h (by decide),
      Err.Is_other err _ .InsufficientFunds h (by decide),
      Err.Is_other err _ .ResourceNotFound h (by decide),
      Err.Is_other err _ .UserNotFound h (by decide),
      Err.Is_other err _ .WalletNotFound h (by decide),
      UnauthorizedError, NewErrorResponse]
  · intro h
    simp [MapErrorToResponse, h, Err.Is_other err _ .InvalidInput h (by decide),
      Err.Is_other err _ .InvalidAmount h (by decide),
      Err.Is_other err _ .SenderReceiverSame h (by decide),
      Err.Is_other err _ .InsufficientFunds h (by decide),
      Err.Is_other err _ .ResourceNotFound h (by decide),
      Err.Is_other err _ .UserNotFound h (by decide),
      Err.Is_other err _ .WalletNotFound h (by decide),
      Err.Is_other err _ .Unauthorized h (by decide),
      ForbiddenError, NewErrorResponse]
  · intro h
    simp [MapErrorToResponse, h, Err.Is_other err _ .InvalidInput h (by decide),
      Err.Is_other err _ .InvalidAmount h (by decide),
      Err.Is_other err _ .SenderReceiverSame h (by decide),
      Err.Is_other err _ .InsufficientFunds h (by decide),
      Err.Is_other err _ .ResourceNotFound h (by decide),
      Err.Is_other err _ .UserNotFound h (by decide),
      Err.Is_other err _ .WalletNotFound h (by decide),
      Err.Is_other err _ .Unauthorized h (by decide),
      Err.Is_other err _ .Forbidden h (by decide),
      TooManyRequestsError, NewErrorResponse]
  · intro h
    simp only [List.mem_cons, List.not_mem_nil, or_false, forall_eq_or_imp, forall_eq] at h
    obtain ⟨h1, h2, h3, h4, h5, h6, h7, h8, h9, h10⟩ := h
    simp [MapErrorToResponse, h1, h2, h3, h4, h5, h6, h7, h8, h9, h10, InternalServerError,
      NewErrorResponse]
  · intro message
    unfold MapErrorToResponse
    simp only [Err.Is_WrapError]
    repeat' split
    all_goals rfl

/-- Runs of C25: `ErrInsufficientFunds` wrapped twice gives 402, a wrapped `ErrUserNotFound`
gives 404, and a wrapped driver error gives the fixed response with status 500. -/
theorem map_error_classifies_witness :
    (MapErrorToResponse "r1"
        (WrapError (WrapError ErrInsufficientFunds "inner") "outer")).Code = 402 ∧
      (MapErrorToResponse "r1" (WrapError ErrUserNotFound "lookup")).Code = 404 ∧
      MapErrorToResponse "r1"
          (WrapError (.driver "connection reset") "failed to update wallet") =
        { RequestID := "r1", Error := "An unexpected error occurred", Code := 500 } :=
  ⟨(map_error_classifies "r1"
      (WrapError (WrapError ErrInsufficientFunds "inner") "outer")).2.2.1 (by decide),
    (map_error_classifies "r1" (WrapError ErrUserNotFound "lookup")).2.2.2.1
      (Or.inr (Or.inl (by decide))),
    (map_error_classifies "r1"
      (WrapError (.driver "connection reset") "failed to update wallet")).2.2.2.2.2.2.2.1
      (by decide)⟩

/-- C26. For every engine, request and world, the store writes among the calls of a run, in
the order in which they were issued, are: for `Deposit` and for `Withdraw`, none, or one
failed update of the user's wallet, or one successful update of the user's wallet followed by
one ledger append; for `Transfer`, none, or a failed update of the sender's wallet, or the
successful update of the sender's wallet followed by a failed update of the receiver's wallet,
or the two successful updates, sender first, followed by one ledger append.  So a ledger
append is issued at most once, after every wallet write of the run, and only when each of
them returned success. -/
theorem wallet_writes_precede_ledger_append [Preorder M] [Add M] [Sub M] [Zero M]
    [∀ a b : M, Decidable (a ≤ b)] [∀ a b : M, Decidable (a < b)]
    (u : walletUsecase) (w : World M) :
    (∀ req : DepositRequest M,
      writesOf ((u.Deposit req w).2.issuedSince w) = [] ∨
      ∃ user stored wallet, w.userOf req.UserID = some user ∧
        w.walletOf user.ID = some stored ∧ wallet.ID = stored.ID ∧
        (writesOf ((u.Deposit req w).2.issuedSince w) = [⟨.walletUpdate wallet, .error⟩] ∨
          ∃ t o, writesOf ((u.Deposit req w).2.issuedSince w) =
            [⟨.walletUpdate wallet, .ok⟩, ⟨.transactionCreate t, o⟩])) ∧
    (∀ req : WithdrawRequest M,
      writesOf ((u.Withdraw req w).2.issuedSince w) = [] ∨
      ∃ user stored wallet, w.userOf req.UserID = some user ∧
        w.walletOf user.ID = some stored ∧ wallet.ID = stored.ID ∧
        (writesOf ((u.Withdraw req w).2.issuedSince w) = [⟨.walletUpdate wallet, .error⟩] ∨
          ∃ t o, writesOf ((u.Withdraw req w).2.issuedSince w) =
            [⟨.walletUpdate wallet, .ok⟩, ⟨.transactionCreate t, o⟩])) ∧
    (∀ req : TransferRequest M,
      writesOf ((u.Transfer req w).2.issuedSince w) = [] ∨
      ∃ sender receiver senderStored receiverStored senderWallet receiverWallet,
        w.userOf req.SenderID = some sender ∧ w.userOf req.ReceiverID = some receiver ∧
        w.walletOf sender.ID = some senderStored ∧
        w.walletOf receiver.ID = some receiverStored ∧
        senderWallet.ID = senderStored.ID ∧ receiverWallet.ID = receiverStored.ID ∧
        (writesOf ((u.Transfer req w).2.issuedSince w) =
            [⟨.walletUpdate senderWallet, .error⟩] ∨
          writesOf ((u.Transfer req w).2.issuedSince w) =
            [⟨.walletUpdate senderWallet, .ok⟩, ⟨.walletUpdate receiverWallet, .error⟩] ∨
          ∃ t o, writesOf ((u.Transfer req w).2.issuedSince w) =
            [⟨.walletUpdate senderWallet, .ok⟩, ⟨.walletUpdate receiverWallet, .ok⟩,
              ⟨.transactionCreate t, o⟩])) := by
  refine ⟨fun req => walletUsecase.Deposit_writes u req w,
    fun req => walletUsecase.Withdraw_writes u req w, ?_⟩
  intro req
  rcases walletUsecase.Transfer_writes_body u req w with h | ⟨hna, w1, hu1, hw1, h⟩
  · exact Or.inl h
  · rw [h]
    rcases walletUsecase.transferLocked_writes u req w1 hna with h2 |
      ⟨s, r, ss, rs, sw, rw, hs, hr, hss, hrs, h3, h4, h5⟩
    · exact Or.inl h2
    · exact Or.inr ⟨s, r, ss, rs, sw, rw, (hu1 _) ▸ hs, (hu1 _) ▸ hr, (hw1 _) ▸ hss,
        (hw1 _) ▸ hrs, h3, h4, h5⟩

/-- Runs of C26 on the fixture: a transfer of 30 from user 1 to user 2 writes wallet 1, then
wallet 2, then the ledger entry; when the driver fails the update of the receiver, the writes
are the update of wallet 1 and the failed update of wallet 2, and no ledger append. -/
theorem wallet_writes_precede_ledger_append_witness :
    writesOf (((walletUsecase.mk true).Transfer ⟨1, 2, 30, "t"⟩ testWorld).2.issuedSince
        testWorld) =
      [⟨.walletUpdate ⟨1, 1, 70, "USD", 0, 1⟩, .ok⟩,
        ⟨.walletUpdate ⟨2, 2, 80, "USD", 0, 1⟩, .ok⟩,
        ⟨.transactionCreate ⟨0, 1, some 2, .Transfer, 30, 100, 70, "t", 1, 1⟩, .ok⟩] ∧
    (writesOf (((walletUsecase.mk true).Transfer ⟨1, 2, 30, "t"⟩
        (cachedFaultyWorld 7)).2.issuedSince (cachedFaultyWorld 7)) = [] ∨
      ∃ sender receiver senderStored receiverStored senderWallet receiverWallet,
        (cachedFaultyWorld 7).userOf 1 = some sender ∧
        (cachedFaultyWorld 7).userOf 2 = some receiver ∧
        (cachedFaultyWorld 7).walletOf sender.ID = some senderStored ∧
        (cachedFaultyWorld 7).walletOf receiver.ID = some receiverStored ∧
        senderWallet.ID = senderStored.ID ∧ receiverWallet.ID = receiverStored.ID ∧
        (writesOf (((walletUsecase.mk true).Transfer ⟨1, 2, 30, "t"⟩
            (cachedFaultyWorld 7)).2.issuedSince (cachedFaultyWorld 7)) =
            [⟨.walletUpdate senderWallet, .error⟩] ∨
          writesOf (((walletUsecase.mk true).Transfer ⟨1, 2, 30, "t"⟩
            (cachedFaultyWorld 7)).2.issuedSince (cachedFaultyWorld 7)) =
            [⟨.walletUpdate senderWallet, .ok⟩, ⟨.walletUpdate receiverWallet, .error⟩] ∨
          ∃ t o, writesOf (((walletUsecase.mk true).Transfer ⟨1, 2, 30, "t"⟩
            (cachedFaultyWorld 7)).2.issuedSince (cachedFaultyWorld 7)) =
            [⟨.walletUpdate senderWallet, .ok⟩, ⟨.walletUpdate receiverWallet, .ok⟩,
              ⟨.transactionCreate t, o⟩])) :=
  ⟨by rfl,
    (wallet_writes_precede_ledger_append (walletUsecase.mk true) (cachedFaultyWorld 7)).2.2
      ⟨1, 2, 30, "t"⟩⟩

/-- C27. A run in which the claim fails: Redis holds the current balance 100 of user 1 and
every Redis call of the run succeeds; in `Transfer` of 30 from user 1 to user 2 the store
fails the update of the receiver's wallet.  The run has written the new balance 70 of user 1
to the store and returns an error; the only `Del` calls it issued are the releases of the two
locks, so the cached entry of user 1 is still there with balance 100, and the next
`GetBalance` of user 1 returns 100 from the cache while the store holds 70. -/
theorem transfer_failure_leaves_stale_cache :
    (cachedFaultyWorld 7).walletOf 1 = some ⟨1, 1, 100, "USD", 0, 0⟩ ∧
    (cachedFaultyWorld 7).redis.lookup (balanceCacheKey 1) = some "1|1|100|USD|0|0" ∧
    lineCodec.Unmarshal "1|1|100|USD|0|0" = .ok ⟨1, 1, 100, "USD", 0, 0⟩ ∧
    ((walletUsecase.mk true).Transfer ⟨1, 2, 30, "t"⟩ (cachedFaultyWorld 7)).1 =
      .error (.wrapped "failed to update receiver wallet"
        (.wrapped "failed to update wallet" (.driver "connection reset"))) ∧
    ((walletUsecase.mk true).Transfer ⟨1, 2, 30, "t"⟩ (cachedFaultyWorld 7)).2.issuedSince
        (cachedFaultyWorld 7) =
      [⟨.redisSetNX "lock:wallet:1" "1" 10, .ok⟩, ⟨.redisSetNX "lock:wallet:2" "1" 10, .ok⟩,
        ⟨.userGetByID 1, .ok⟩, ⟨.userGetByID 2, .ok⟩,
        ⟨.walletGetByUserID 1, .ok⟩, ⟨.walletGetByUserID 2, .ok⟩,
        ⟨.walletUpdate ⟨1, 1, 70, "USD", 0, 1⟩, .ok⟩,
        ⟨.walletUpdate ⟨2, 2, 80, "USD", 0, 1⟩, .error⟩,
        ⟨.redisDel ["lock:wallet:2"], .ok⟩, ⟨.redisDel ["lock:wallet:1"], .ok⟩] ∧
    ((walletUsecase.mk true).Transfer ⟨1, 2, 30, "t"⟩ (cachedFaultyWorld 7)).2.walletOf 1 =
      some ⟨1, 1, 70, "USD", 0, 1⟩ ∧
    ((walletUsecase.mk true).Transfer ⟨1, 2, 30, "t"⟩ (cachedFaultyWorld 7)).2.redis.lookup
        (balanceCacheKey 1) = some "1|1|100|USD|0|0" ∧
    ((walletUsecase.mk true).GetBalance lineCodec 1
        ((walletUsecase.mk true).Transfer ⟨1, 2, 30, "t"⟩ (cachedFaultyWorld 7)).2).1 =
      .ok ⟨1, 1, 100, "USD", 0, 0⟩ := by
  refine ⟨?_, ?_, ?_, ?_, ?_, ?_, ?_, ?_⟩ <;> rfl

/-- C28. For every `strconv`, handler, query strings and world: when
`GetTransactionHistoryHandler` goes on to the engine it calls `GetTransactionHistory` with a
limit between 1 and 100 and an offset of at least 0, where an absent limit is 10, a limit
above 100 is 100, any other limit is the number given, an absent offset is 0 and any other
offset is the number given; with a user id that parses, a limit that is absent or a positive
number and an offset that is absent or a non-negative number it does go on to the engine; and
when the limit is present and not a positive number, or the offset is present and not a
non-negative number, the reply has status 400 and the world is unchanged: no call of the
engine was made. -/
theorem history_handler_bounds_pagination [Add M] [Sub M] [Zero M] [LE M] [LT M]
    [∀ a b : M, Decidable (a ≤ b)] [∀ a b : M, Decidable (a < b)]
    (sc : Strconv) (h : WalletHandler) (requestID userIDStr limitStr offsetStr : String)
    (w : World M) :
    (∀ (userID : Int) (pagination : PaginationRequest),
      WalletHandler.historyArguments sc requestID userIDStr limitStr offsetStr =
          .ok (userID, pagination) →
        (WalletHandler.GetTransactionHistoryHandler sc h requestID userIDStr limitStr
            offsetStr w).2 = (h.walletUsecase.GetTransactionHistory userID pagination w).2 ∧
        1 ≤ pagination.Limit ∧ pagination.Limit ≤ 100 ∧ 0 ≤ pagination.Offset ∧
        (limitStr = "" → pagination.Limit = 10) ∧
        (∀ m, limitStr ≠ "" → sc.Atoi limitStr = some m →
          pagination.Limit = if m > 100 then 100 else m) ∧
        (offsetStr = "" → pagination.Offset = 0) ∧
        (∀ n, offsetStr ≠ "" → sc.Atoi offsetStr = some n → pagination.Offset = n)) ∧
    (∀ userID : Int, sc.ParseInt userIDStr = some userID →
      (limitStr = "" ∨ ∃ m, sc.Atoi limitStr = some m ∧ 0 < m) →
      (offsetStr = "" ∨ ∃ n, sc.Atoi offsetStr = some n ∧ 0 ≤ n) →
      ∃ pagination, WalletHandler.historyArguments sc requestID userIDStr limitStr offsetStr =
        .ok (userID, pagination)) ∧
    ((limitStr ≠ "" ∧ ∀ m, sc.Atoi limitStr = some m → m ≤ 0) ∨
        (offsetStr ≠ "" ∧ ∀ n, sc.Atoi offsetStr = some n → n < 0) →
      (WalletHandler.GetTransactionHistoryHandler sc h requestID userIDStr limitStr
          offsetStr w).1.StatusCode = 400 ∧
      (WalletHandler.GetTransactionHistoryHandler sc h requestID userIDStr limitStr
          offsetStr w).2 = w) := by
  refine ⟨?_, ?_, ?_⟩
  · intro userID pagination hok
    refine ⟨?_, ?_⟩
    · unfold WalletHandler.GetTransactionHistoryHandler
      rw [hok]
      simp only []
      rcases h.walletUsecase.GetTransactionHistory userID pagination w with ⟨r, w1⟩
      cases r with
      | error err =>
        simp only []
        split <;> rfl
      | ok history => rfl
    · obtain ⟨_, hlim, hoff⟩ :=
        (WalletHandler.historyArguments_ok sc requestID userIDStr limitStr offsetStr userID
          pagination).mp hok
      have hL : 1 ≤ pagination.Limit ∧ pagination.Limit ≤ 100 := by
        rcases hlim with ⟨_, h10⟩ | ⟨_, m, _, hm, hp⟩
        · omega
        · rw [hp]
          split <;> omega
      have hO : 0 ≤ pagination.Offset := by
        rcases hoff with ⟨_, h0⟩ | ⟨_, n, _, hn, hp⟩
        · omega
        · omega
      refine ⟨hL.1, hL.2, hO, ?_, ?_, ?_, ?_⟩
      · intro he
        rcases hlim with ⟨_, h10⟩ | ⟨hne, _⟩
        · exact h10
        · exact absurd he hne
      · intro m hne ha
        rcases hlim with ⟨he, _⟩ | ⟨_, m1, ha1, _, hp⟩
        · exact absurd he hne
        · rw [ha] at ha1
          cases ha1
          exact hp
      · intro he
        rcases hoff with ⟨_, h0⟩ | ⟨hne, _⟩
        · exact h0
        · exact absurd he hne
      · intro n hne ha
        rcases hoff with ⟨he, _⟩ | ⟨_, n1, ha1, _, hp⟩
        · exact absurd he hne
        · rw [ha] at ha1
          cases ha1
          exact hp
  · intro userID hp hlim hoff
    have hl : ∃ limit : Int, (limitStr = "" ∧ limit = 10) ∨
        (limitStr ≠ "" ∧ ∃ m, sc.Atoi limitStr = some m ∧ 0 < m ∧
          limit = if m > 100 then 100 else m) := by
      by_cases he : limitStr = ""
      · exact ⟨10, Or.inl ⟨he, rfl⟩⟩
      · rcases hlim with he1 | ⟨m, ha, hm⟩
        · exact absurd he1 he
        · exact ⟨_, Or.inr ⟨he, m, ha, hm, rfl⟩⟩
    have ho : ∃ offset : Int, (offsetStr = "" ∧ offset = 0) ∨
        (offsetStr ≠ "" ∧ ∃ n, sc.Atoi offsetStr = some n ∧ 0 ≤ n ∧ offset = n) := by
      by_cases he : offsetStr = ""
      · exact ⟨0, Or.inl ⟨he, rfl⟩⟩
      · rcases hoff with he1 | ⟨n, ha, hn⟩
        · exact absurd he1 he
        · exact ⟨_, Or.inr ⟨he, n, ha, hn, rfl⟩⟩
    obtain ⟨limit, hl⟩ := hl
    obtain ⟨offset, ho⟩ := ho
    exact ⟨⟨limit, offset⟩,
      (WalletHandler.historyArguments_ok sc requestID userIDStr limitStr offsetStr userID
        ⟨limit, offset⟩).mpr ⟨hp, hl, ho⟩⟩
  · intro hbad
    cases hr : WalletHandler.historyArguments sc requestID userIDStr limitStr offsetStr with
    | error errResp =>
      have hc := (WalletHandler.historyArguments_error sc requestID userIDStr limitStr
        offsetStr errResp hr).1
      unfold WalletHandler.GetTransactionHistoryHandler
      rw [hr]
      exact ⟨hc, rfl⟩
    | ok args =>
      obtain ⟨userID, pagination⟩ := args
      obtain ⟨_, hlim, hoff⟩ :=
        (WalletHandler.historyArguments_ok sc requestID userIDStr limitStr offsetStr userID
          pagination).mp hr
      exfalso
      rcases hbad with ⟨hne, hall⟩ | ⟨hne, hall⟩
      · rcases hlim with ⟨he, _⟩ | ⟨_, m, ha, hm, _⟩
        · exact hne he
        · have := hall m ha
          omega
      · rcases hoff with ⟨he, _⟩ | ⟨_, n, ha, hn, _⟩
        · exact hne he
        · have := hall n ha
          omega

/-- Runs of C28 with decimal parsing on the fixture with five ledger rows: the query
`limit=500` goes to the engine with limit 100 and offset 0, and the queries `limit=abc` and
`offset=-1` are answered with status 400 and leave the world as it was. -/
theorem history_handler_bounds_pagination_witness :
    WalletHandler.historyArguments decimalStrconv "r" "1" "500" "" = .ok (1, ⟨100, 0⟩) ∧
    (1 ≤ (⟨100, 0⟩ : PaginationRequest).Limit ∧ (⟨100, 0⟩ : PaginationRequest).Limit ≤ 100 ∧
      0 ≤ (⟨100, 0⟩ : PaginationRequest).Offset) ∧
    (WalletHandler.GetTransactionHistoryHandler decimalStrconv ⟨⟨true⟩⟩ "r" "1" "abc" ""
        historyWorld).1.StatusCode = 400 ∧
    (WalletHandler.GetTransactionHistoryHandler decimalStrconv ⟨⟨true⟩⟩ "r" "1" "abc" ""
        historyWorld).2 = historyWorld ∧
    (WalletHandler.GetTransactionHistoryHandler decimalStrconv ⟨⟨true⟩⟩ "r" "1" "" "-1"
        historyWorld).2 = historyWorld :=
  have hok : WalletHandler.historyArguments decimalStrconv "r" "1" "500" "" =
      .ok (1, ⟨100, 0⟩) := by decide
  have h1 := ((history_handler_bounds_pagination decimalStrconv ⟨⟨true⟩⟩ "r" "1" "500" ""
    historyWorld).1 1 ⟨100, 0⟩ hok).2
  have h2 := (history_handler_bounds_pagination decimalStrconv ⟨⟨true⟩⟩ "r" "1" "abc" ""
    historyWorld).2.2 (Or.inl ⟨by decide, by decide⟩)
  have h3 := (history_handler_bounds_pagination decimalStrconv ⟨⟨true⟩⟩ "r" "1" "" "-1"
    historyWorld).2.2 (Or.inr ⟨by decide, by decide⟩)
  ⟨hok, ⟨h1.1, h1.2.1, h1.2.2.1⟩, h2.1, h2.2, h3.2⟩

/-- C29. For every request id, message and sentinel among `ErrInvalidInput`,
`ErrInvalidAmount`, `ErrSenderReceiverSame`, `ErrResourceNotFound`, `ErrUserNotFound`,
`ErrWalletNotFound`, `ErrUnauthorized` and `ErrForbidden`: the text `MapErrorToResponse` gives
for the sentinel wrapped with the message is the message, ": ", and the text of the sentinel,
so that two different messages give two different texts.  For every error in the classes of
`ErrInsufficientFunds` and `ErrLockAcquisitionFailed` and in the default class the text is
fixed. -/
theorem map_error_passes_context (requestID message : String) (s : Sentinel)
    (hs : s ∈ [Sentinel.InvalidInput, .InvalidAmount, .SenderReceiverSame, .ResourceNotFound,
      .UserNotFound, .WalletNotFound, .Unauthorized, .Forbidden]) :
    (MapErrorToResponse requestID (WrapError (.sentinel s) message)).Error =
        message ++ ": " ++ s.text ∧
    (∀ other : String,
      (MapErrorToResponse requestID (WrapError (.sentinel s) other)).Error =
          (MapErrorToResponse requestID (WrapError (.sentinel s) message)).Error →
        other = message) ∧
    (∀ err : Err, err.Is .InsufficientFunds = true →
      (MapErrorToResponse requestID err).Error = "Insufficient funds for this operation") ∧
    (∀ err : Err, err.Is .LockAcquisitionFailed = true →
      (MapErrorToResponse requestID err).Error =
        "Service is busy, please try again in a moment") ∧
    (∀ err : Err,
      (∀ t ∈ [Sentinel.InvalidInput, .InvalidAmount, .SenderReceiverSame, .InsufficientFunds,
        .ResourceNotFound, .UserNotFound, .WalletNotFound, .Unauthorized, .Forbidden,
        .LockAcquisitionFailed], err.Is t = false) →
      (MapErrorToResponse requestID err).Error = "An unexpected error occurred") := by
  have htext : ∀ m : String,
      (MapErrorToResponse requestID (WrapError (.sentinel s) m)).Error =
        m ++ ": " ++ s.text := by
    intro m
    simp only [List.mem_cons, List.not_mem_nil, or_false] at hs
    rcases hs with rfl | rfl | rfl | rfl | rfl | rfl | rfl | rfl <;> rfl
  refine ⟨htext message, ?_, ?_, ?_, ?_⟩
  · intro other h
    rw [htext, htext, String.append_assoc, String.append_assoc] at h
    exact text_append_right_cancel _ _ _ h
  · intro err h
    simp [MapErrorToResponse, h, Err.Is_other err _ .InvalidInput h (by decide),
      Err.Is_other err _ .InvalidAmount h (by decide),
      Err.Is_other err _ .SenderReceiverSame h (by decide),
      PaymentRequiredError, NewErrorResponse]
  · intro err h
    simp [MapErrorToResponse, h, Err.Is_other err _ .InvalidInput h (by decide),
      Err.Is_other err _ .InvalidAmount h (by decide),
      Err.Is_other err _ .SenderReceiverSame h (by decide),
      Err.Is_other err _ .InsufficientFunds h (by decide),
      Err.Is_other err _ .ResourceNotFound h (by decide),
      Err.Is_other err _ .UserNotFound h (by decide),
      Err.Is_other err _ .WalletNotFound h (by decide),
      Err.Is_other err _ .Unauthorized h (by decide),
      Err.Is_other err _ .Forbidden h (by decide),
      TooManyRequestsError, NewErrorResponse]
  · intro err h
    simp only [List.mem_cons, List.not_mem_nil, or_false, forall_eq_or_imp, forall_eq] at h
    obtain ⟨h1, h2, h3, h4, h5, h6, h7, h8, h9, h10⟩ := h
    simp [MapErrorToResponse, h1, h2, h3, h4, h5, h6, h7, h8, h9, h10, InternalServerError,
      NewErrorResponse]

/-- A run of C29: `ErrUserNotFound` wrapped with the name of a table reaches the client with
that name. -/
theorem map_error_passes_context_witness :
    (MapErrorToResponse "r1" (WrapError (.sentinel .UserNotFound) "table users")).Error =
      "table users" ++ ": " ++ Sentinel.text .UserNotFound :=
  (map_error_passes_context "r1" "table users" .UserNotFound (by decide)).1

/-- C30. For a request with amount `a > 0` and distinct ids and an engine without a Redis
client, in any world `w`: every call `Transfer` issues is a store call, so it asks for no lock
and makes no cache operation; its result is not `ErrLockAcquisitionFailed`, and it matches
`ErrLockAcquisitionFailed` under `errors.Is` only if a driver error of the store does; and for
every engine with a Redis client and every world `W` with the same store as `w` in which the
store calls of the run meet the same driver answers as in `w` (they come two calls later, after
the two lock requests, and the ledger append three calls later, after the cache invalidation),
when both lock requests of the run in `W` are granted, the two runs return the same entry or
error, issue the same store calls with the same outcomes, so the same store writes, and leave
the same store. -/
theorem transfer_without_redis_client [Preorder M] [Add M] [Sub M] [Zero M]
    [∀ a b : M, Decidable (a ≤ b)] [∀ a b : M, Decidable (a < b)]
    (u : walletUsecase) (req : TransferRequest M) (w : World M)
    (hpos : 0 < req.Amount) (hne : req.SenderID ≠ req.ReceiverID)
    (hu : u.redisClient = false) :
    (∀ e ∈ (u.Transfer req w).2.issuedSince w,
      e.call.isStore = true ∧ e.call.isRedis = false ∧ e.call.isLock = false) ∧
    (u.Transfer req w).1 ≠ .error ErrLockAcquisitionFailed ∧
    ((∀ n e, w.fault n = some e → e.Is .LockAcquisitionFailed = false) →
      errorMatches (u.Transfer req w).1 .LockAcquisitionFailed = false) ∧
    (∀ (U : walletUsecase) (W : World M), U.redisClient = true → w.sameStore W →
      (∀ i, i < 6 → W.fault (W.trace.length + 2 + i) = w.fault (w.trace.length + i)) →
      W.fault (W.trace.length + 9) = w.fault (w.trace.length + 6) →
      lockCallsSucceed ((U.Transfer req W).2.issuedSince W) = true →
      (U.Transfer req W).1 = (u.Transfer req w).1 ∧
        storeCallsOf ((U.Transfer req W).2.issuedSince W) =
          (u.Transfer req w).2.issuedSince w ∧
        writesOf ((U.Transfer req W).2.issuedSince W) =
          writesOf ((u.Transfer req w).2.issuedSince w) ∧
        World.sameStore (u.Transfer req w).2 (U.Transfer req W).2) := by
  have hna : ¬ req.Amount ≤ 0 := not_le_of_lt hpos
  refine ⟨?_, ?_, ?_, ?_⟩
  · rw [walletUsecase.Transfer_noRedis u req w hna hne hu]
    intro e he
    have hst := walletUsecase.transferLocked_noRedis_events u req w hna hu e he
    exact ⟨hst, Call.isRedis_of_isStore e.call hst⟩
  · rw [walletUsecase.Transfer_noRedis u req w hna hne hu]
    exact walletUsecase.transferLocked_not_lock_error u req w hna
  · intro hd
    rw [walletUsecase.Transfer_noRedis u req w hna hne hu]
    exact walletUsecase.transferLocked_not_lock_Is u req w hna hd
  · intro U W hU hs hf hf6 hlock
    obtain ⟨hres, hst, hcalls⟩ :=
      walletUsecase.Transfer_inStep u U hu hU req w W hna hne hs hf hf6 hlock
    refine ⟨hres, hcalls, ?_, hst⟩
    rw [← hcalls, writesOf_storeCallsOf]

/-- Runs of C30 on the fixture, user 1 sending 30 to user 2, without a client and with a
client and free locks: when the store fails the update of the receiver's wallet in both runs
(the sixth store call), both return the same error and have written only the sender's wallet;
and the run without a client has issued no lock request. -/
theorem transfer_without_redis_client_witness :
    ((walletUsecase.mk true).Transfer ⟨1, 2, 30, "t"⟩ (cachedFaultyWorld 7)).1 =
        ((walletUsecase.mk false).Transfer ⟨1, 2, 30, "t"⟩ (faultyWorld 5)).1 ∧
      writesOf (((walletUsecase.mk true).Transfer ⟨1, 2, 30, "t"⟩
          (cachedFaultyWorld 7)).2.issuedSince (cachedFaultyWorld 7)) =
        writesOf (((walletUsecase.mk false).Transfer ⟨1, 2, 30, "t"⟩
          (faultyWorld 5)).2.issuedSince (faultyWorld 5)) ∧
      ((walletUsecase.mk false).Transfer ⟨1, 2, 30, "t"⟩ (faultyWorld 5)).1 =
        .error (.wrapped "failed to update receiver wallet"
          (.wrapped "failed to update wallet" (.driver "connection reset"))) ∧
      lockAttempts (((walletUsecase.mk false).Transfer ⟨1, 2, 30, "t"⟩
        (faultyWorld 5)).2.issuedSince (faultyWorld 5)) = [] :=
  have h := transfer_without_redis_client (walletUsecase.mk false) ⟨1, 2, 30, "t"⟩
    (faultyWorld 5) (by decide) (by decide) rfl
  have h2 := h.2.2.2 (walletUsecase.mk true) (cachedFaultyWorld 7) rfl
    ⟨rfl, rfl, rfl, rfl, rfl⟩ (by decide) (by decide) (by rfl)
  ⟨h2.1, h2.2.2.1, by rfl, by rfl⟩

end Claims
end WalletApp
